import Mathlib

/-!
# Load balancer waits and security group rule ids of the IBM VPC provider

A shallow embedding of `ibm/service/vpc/resource_ibm_is_lb.go` (the availability and
delete waits and the create / update / delete operations that depend on them) and of
`ibm/service/vpc/resource_ibm_is_security_group_rule.go` (the Terraform id helpers, the
parser of the rule dictionary and the create / read / update / delete operations with
their named lock).

Durations are natural numbers of milliseconds (`10 * time.Second` is `10000`).  The
remote API is a script: the `k`-th call of an operation gets the `k`-th answer.
-/

namespace IBMVPC

/-! ## Constants of `resource_ibm_is_lb.go` -/

def isLBDeleting : String := "deleting"
def isLBDeleted : String := "done"
def isLBProvisioning : String := "provisioning"
def isLBProvisioningDone : String := "done"

/-! ## Data model -/

/-- Go `error` values that the waits can return. `errorString` is what `fmt.Errorf`
builds; the other constructors are the typed errors of the polling helper and the
errors of a finished context. -/
inductive GoError
  | errorString (msg : String)
  | NotFoundError (Retries : Nat)
  | UnexpectedStateError (State : String) (ExpectedState : List String)
  | TimeoutError (LastError : Option String) (LastState : String) (Timeout : Nat)
      (ExpectedState : List String)
  | Canceled
  deriving DecidableEq, Repr

/-- The text of `err.Error()`.  For an `errorString` it is the message that the source
builds with `fmt.Errorf`.  For the typed errors of the polling helper and for the error of
a finished context it is an abbreviation: the helper's own text also names the expected
states, the timeout and the number of retries.  No statement below depends on the
abbreviated texts. -/
def GoError.Error : GoError → String
  | .errorString msg => msg
  | .NotFoundError _ => "couldn't find resource"
  | .UnexpectedStateError st _ => "unexpected state '" ++ st ++ "'"
  | .TimeoutError _ st _ _ => "timeout while waiting for state (last state: '" ++ st ++ "')"
  | .Canceled => "context canceled"

/-- The part of `*core.DetailedResponse` the source inspects. -/
structure DetailedResponse where
  StatusCode : Nat
  deriving DecidableEq, Repr

/-- The part of `vpcv1.LoadBalancer` the source inspects.  In the source the three fields
are of type `*string`, and the source dereferences them without a nil check (`*lb.ID` in
line 543, `*lb.CRN` in line 554, `*lb.ProvisioningStatus` in line 1254).  A value of this
type is a load balancer in which all three are set; an answer of the remote API that
lacks one of them, on which the source panics, is not among the answers of the scripts
below, and no statement speaks about it. -/
structure LoadBalancer where
  ID : String
  CRN : String
  ProvisioningStatus : String
  deriving DecidableEq, Repr

/-- What one `GetLoadBalancer` call returns: either a load balancer and a response with
a nil error, or a nil load balancer, a possibly nil response and a non-nil error. -/
inductive GetLoadBalancerResult
  | ok (lb : LoadBalancer) (response : DetailedResponse)
  | fail (response : Option DetailedResponse) (err : String)
  deriving DecidableEq, Repr

/-- The first return value of a refresh function, an `interface{}`: the untyped `nil`,
or a `*vpcv1.LoadBalancer` (which may itself be the nil pointer, and then the interface
value still compares unequal to `nil`). -/
inductive Iface
  | nil
  | ptr (lb : Option LoadBalancer)
  deriving DecidableEq, Repr

/-- A `context.Context`: the moment (ms after the operation began) it is cancelled, if
ever. -/
structure Context where
  doneAt : Option Nat
  deriving DecidableEq, Repr

/-- The context `context.Background()`, which is never cancelled. -/
def Context.Background : Context := ⟨none⟩

/-- The client `*vpcv1.VpcV1` as a script of the remote API.  The first argument of every
method is the number of remote calls made before it; a call answers with its error (and,
where the source reads it, its response or result).  The `WithContext` methods receive the
caller's context. -/
structure VpcV1 where
  GetLoadBalancer : Nat → String → GetLoadBalancerResult
  GetLoadBalancerWithContext : Nat → Context → String → GetLoadBalancerResult :=
    fun k _ id => GetLoadBalancer k id
  CreateLoadBalancerWithContext : Nat → Context → Except String LoadBalancer :=
    fun _ _ => .error "not scripted"
  UpdateLoadBalancerWithContext : Nat → Context → String → Option String :=
    fun _ _ _ => none
  DeleteLoadBalancerWithContext : Nat → Context → String → Option String :=
    fun _ _ _ => none
  CreateSecurityGroupTargetBindingWithContext : Nat → Context → String → String →
    Option String := fun _ _ _ _ => none
  GetSecurityGroupTargetWithContext : Nat → Context → String → String →
    Option (Option DetailedResponse × String) := fun _ _ _ _ => none
  DeleteSecurityGroupTargetBindingWithContext : Nat → Context → String → String →
    Option String := fun _ _ _ _ => none

/-- A `resource.StateRefreshFunc`, as a function of the number of calls made before. -/
abbrev StateRefreshFunc := Nat → Iface × String × Option GoError

/-- Rendering of `%s` for a response in an error message, abbreviated to the status code:
the program prints the whole response there, and `<nil>` stands for what it prints for a
nil response. -/
def fmtResponse : Option DetailedResponse → String
  | none => "<nil>"
  | some r => toString r.StatusCode

/-! ## The refresh functions (`resource_ibm_is_lb.go`, lines 1179-1194 and 1243-1260) -/

def isLBRefreshFunc (sess : VpcV1) (lbId : String) : StateRefreshFunc := fun k =>
  match sess.GetLoadBalancer k lbId with
  | .fail response err =>
    (Iface.nil, "", some (GoError.errorString
      ("[ERROR] Error Getting Load Balancer : " ++ err ++ "\n" ++ fmtResponse response)))
  | .ok lb _ =>
    if lb.ProvisioningStatus == "active" || lb.ProvisioningStatus == "failed" then
      (Iface.ptr (some lb), isLBProvisioningDone, none)
    else
      (Iface.ptr (some lb), isLBProvisioning, none)

def isLBDeleteRefreshFunc (lbc : VpcV1) (id : String) : StateRefreshFunc := fun k =>
  match lbc.GetLoadBalancer k id with
  | .fail response err =>
    if response.isSome && (response.map (·.StatusCode)) == some 404 then
      (Iface.ptr none, isLBDeleted, none)
    else
      (Iface.nil, "failed", some (GoError.errorString
        ("[ERROR] The vpc load balancer " ++ id ++ " failed to delete: " ++ err ++ "\n"
          ++ fmtResponse response)))
  | .ok lb _ => (Iface.ptr (some lb), isLBDeleting, none)

/-! ## The polling helper -/

/-- The fields of `resource.StateChangeConf`; the ones the source leaves out are zero. -/
structure StateChangeConf where
  Delay : Nat := 0
  Pending : List String := []
  Refresh : StateRefreshFunc
  Target : List String := []
  Timeout : Nat := 0
  MinTimeout : Nat := 0
  PollInterval : Nat := 0
  NotFoundChecks : Nat := 0
  ContinuousTargetOccurence : Nat := 0

/-- What a wait does that the outside can see. -/
inductive Event
  | sleep (ms : Nat)
  | query (k : Nat)
  deriving DecidableEq, Repr

set_option linter.dupNamespace false in
/-- The local `Result` record of the polling loop. -/
structure Result where
  Result : Iface := Iface.nil
  State : String := ""
  Error : Option GoError := none
  Done : Bool := false
  deriving DecidableEq, Repr

/-- How a `select` of the polling helper over a timer ends: the context is done, the
timeout fires, or the timer elapses. -/
inductive Wake
  | ctxDone
  | timeout
  | elapsed
  deriving DecidableEq, Repr

/-- Modelled from the spec: the `select` of `WaitForStateContext` (Terraform plugin SDK, not
under src/) over a timer of `d` ms that starts at `now`.  Cancellation is honoured first
(spec 5); an elapsed time that has reached the timeout counts as timed out (spec 4.1,
`elapsed ≥ timeout`); otherwise the timer elapses. -/
def selectWake (ctx : Context) (timeout now d : Nat) : Wake :=
  match ctx.doneAt with
  | some c =>
    if c ≤ now + d ∧ c ≤ timeout then Wake.ctxDone
    else if timeout ≤ now + d then Wake.timeout
    else Wake.elapsed
  | none => if timeout ≤ now + d then Wake.timeout else Wake.elapsed

/-- A timer of `d` ms in the trace; a zero timer is no sleep. -/
def sleepEvent (d : Nat) : List Event := if d = 0 then [] else [Event.sleep d]

/-- Modelled from the spec: the scan of `WaitForStateContext` (Terraform plugin SDK, not
under src/) over the `Target` list for the current state (spec 4.1: a label of the target
set ends the wait): `(found, targetOccurence, done)`, where `done` is reached with the
`cto`-th occurrence in a row. -/
def scanTarget (cto : Nat) (currentState : String) :
    List String → Bool → Nat → Bool × Nat × Bool
  | [], found, occ => (found, occ, false)
  | allowed :: rest, found, occ =>
    if currentState == allowed then
      if cto == occ + 1 then (true, occ + 1, true)
      else scanTarget cto currentState rest true (occ + 1)
    else scanTarget cto currentState rest found occ

/-- Modelled from the spec: the wait of `WaitForStateContext` (Terraform plugin SDK, not
under src/) before the next poll (spec 3: poll interval and minimum interval of the wait
session): the poll interval if one is set, else the doubled wait kept between `MinTimeout`
and ten seconds. -/
def nextWait (conf : StateChangeConf) (wait targetOccurence : Nat) : Nat :=
  let wait := if targetOccurence == 0 then wait * 2 else wait
  if conf.PollInterval > 0 ∧ conf.PollInterval < 180000 then conf.PollInterval
  else if wait < conf.MinTimeout then conf.MinTimeout
  else if wait > 10000 then 10000
  else wait

/-- The variables of the polling loop between two iterations. -/
structure LoopState where
  polls : Nat
  now : Nat
  wait : Nat
  notfoundTick : Nat
  targetOccurence : Nat
  lastResult : Result
  trace : List Event
  deriving DecidableEq, Repr

/-- What a wait returns, with its trace. -/
structure WaitOutcome where
  value : Iface
  err : Option GoError
  trace : List Event
  deriving DecidableEq, Repr

/-- One iteration of the loop: it returns, or goes on with new variables. -/
inductive Step
  | ret (out : WaitOutcome)
  | next (s : LoopState)
  deriving DecidableEq, Repr

/-- Modelled from the spec: the `TimeoutError` of `WaitForStateContext` (Terraform plugin
SDK, not under src/), the timeout error distinct from a backend failure (spec 4.1); it
carries the last state seen. -/
def timeoutError (conf : StateChangeConf) (last : Result) : GoError :=
  GoError.TimeoutError (last.Error.map GoError.Error) last.State conf.Timeout conf.Target

/-- Modelled from the spec: one iteration of `resource.StateChangeConf.WaitForStateContext`
(helper/resource of the Terraform plugin SDK, not under src/).  It follows the contract of
the convergence poller (spec 4.1: one query per iteration, a query error ends the wait, a
target label ends it with success, a pending label sleeps and repeats until the timeout)
and the fields of `StateChangeConf`: the timer runs first (zero on the first iteration),
then `Refresh` is called once and its answer classified against `Target` and `Pending`.
As in the SDK, an untyped nil result counts as not found (an error after `NotFoundChecks`
polls, 20 by default) and a label in neither list is an `UnexpectedStateError`; the
refresh functions of the source produce neither on an error-free poll.  A query takes no
time. -/
def pollStep (conf : StateChangeConf) (ctx : Context) (s : LoopState) : Step :=
  let notFoundChecks := if conf.NotFoundChecks == 0 then 20 else conf.NotFoundChecks
  let cto := if conf.ContinuousTargetOccurence == 0 then 1 else conf.ContinuousTargetOccurence
  match selectWake ctx conf.Timeout s.now s.wait with
  | Wake.ctxDone => Step.ret ⟨Iface.nil, some GoError.Canceled, s.trace⟩
  | Wake.timeout => Step.ret ⟨Iface.nil, some (timeoutError conf s.lastResult), s.trace⟩
  | Wake.elapsed =>
    let now := s.now + s.wait
    let trace := s.trace ++ sleepEvent s.wait ++ [Event.query s.polls]
    let wait := if s.wait == 0 then 100 else s.wait
    let (res, currentState, err) := conf.Refresh s.polls
    let result : Result := ⟨res, currentState, err, false⟩
    if err.isSome then Step.ret ⟨res, err, trace⟩
    else if res == Iface.nil && conf.Target.length == 0 then
      if cto == s.targetOccurence + 1 then Step.ret ⟨res, none, trace⟩
      else Step.next ⟨s.polls + 1, now, wait, s.notfoundTick, s.targetOccurence + 1,
        result, trace⟩
    else if res == Iface.nil then
      if s.notfoundTick + 1 > notFoundChecks then
        Step.ret ⟨res, some (GoError.NotFoundError (s.notfoundTick + 1)), trace⟩
      else
        Step.next ⟨s.polls + 1, now, nextWait conf wait s.targetOccurence,
          s.notfoundTick + 1, s.targetOccurence, result, trace⟩
    else
      match scanTarget cto currentState conf.Target false s.targetOccurence with
      | (_, _, true) => Step.ret ⟨res, none, trace⟩
      | (found, occ, false) =>
        let inPending := conf.Pending.contains currentState
        let occ := if inPending then 0 else occ
        if !(found || inPending) && conf.Pending.length > 0 then
          Step.ret ⟨res, some (GoError.UnexpectedStateError currentState conf.Target), trace⟩
        else
          Step.next ⟨s.polls + 1, now, nextWait conf wait occ, 0, occ, result, trace⟩

/-- Modelled from the spec: the polling loop of `WaitForStateContext` (Terraform plugin
SDK, not under src/), for at most `fuel` iterations; `none` when the fuel runs out. -/
def pollLoop (conf : StateChangeConf) (ctx : Context) : Nat → LoopState → Option WaitOutcome
  | 0, _ => none
  | fuel + 1, s =>
    match pollStep conf ctx s with
    | Step.ret out => some out
    | Step.next s' => pollLoop conf ctx fuel s'

/-- Modelled from the spec: `resource.StateChangeConf.WaitForStateContext` (Terraform
plugin SDK, not under src/): the wait of `Delay` before the first check, then the polling
loop.  Every iteration after the first advances the clock, so `Timeout + 2` iterations
always suffice (`WaitForStateContext_isSome`). -/
def StateChangeConf.WaitForStateContext (conf : StateChangeConf) (ctx : Context) :
    Option WaitOutcome :=
  match selectWake ctx conf.Timeout 0 conf.Delay with
  | Wake.ctxDone => some ⟨Iface.nil, some GoError.Canceled, []⟩
  | Wake.timeout => some ⟨Iface.nil, some (timeoutError conf {}), []⟩
  | Wake.elapsed =>
    pollLoop conf ctx (conf.Timeout + 2)
      ⟨0, conf.Delay, 0, 0, 0, {}, sleepEvent conf.Delay⟩

/-- Modelled from the spec: `resource.StateChangeConf.WaitForState` (Terraform plugin SDK,
not under src/), the wait without a caller context: it runs under `context.Background()`. -/
def StateChangeConf.WaitForState (conf : StateChangeConf) : Option WaitOutcome :=
  conf.WaitForStateContext Context.Background

/-! ## The two waits (`resource_ibm_is_lb.go`, lines 1164-1177 and 1228-1241) -/

/-- The `stateConf` that `isWaitForLBDeleted` builds. -/
def isWaitForLBDeleted.stateConf (lbc : VpcV1) (id : String) (timeout : Nat) :
    StateChangeConf :=
  { Pending := ["retry", isLBDeleting]
    Target := [isLBDeleted, "failed"]
    Refresh := isLBDeleteRefreshFunc lbc id
    Timeout := timeout
    Delay := 10 * 1000
    MinTimeout := 10 * 1000 }

def isWaitForLBDeleted (lbc : VpcV1) (id : String) (timeout : Nat) : Option WaitOutcome :=
  (isWaitForLBDeleted.stateConf lbc id timeout).WaitForState

/-- The `stateConf` that `isWaitForLBAvailable` builds. -/
def isWaitForLBAvailable.stateConf (sess : VpcV1) (lbId : String) (timeout : Nat) :
    StateChangeConf :=
  { Pending := ["retry", isLBProvisioning, "update_pending"]
    Target := [isLBProvisioningDone, ""]
    Refresh := isLBRefreshFunc sess lbId
    Timeout := timeout
    Delay := 10 * 1000
    MinTimeout := 10 * 1000 }

def isWaitForLBAvailable (sess : VpcV1) (lbId : String) (timeout : Nat) : Option WaitOutcome :=
  (isWaitForLBAvailable.stateConf sess lbId timeout).WaitForState

/-- The number of queries in a trace. -/
def countQueries (trace : List Event) : Nat :=
  trace.countP fun e => match e with
    | Event.query _ => true
    | _ => false

/-- The number of sleeps in a trace. -/
def countSleeps (trace : List Event) : Nat :=
  trace.countP fun e => match e with
    | Event.sleep _ => true
    | _ => false

/-- The trace of `n` polls ten seconds apart, the first one ten seconds after the start. -/
def pollTrace : Nat → List Event
  | 0 => []
  | n + 1 => pollTrace n ++ [Event.sleep 10000, Event.query n]

/-- The loop variables just before poll `k` of a wait whose delay and minimum timeout are
ten seconds: the timer that is about to run ends at `10 (k + 1)` seconds, and the trace
is that of `k` polls. -/
def Ready (k : Nat) (s : LoopState) : Prop :=
  s.polls = k ∧ s.now + s.wait = 10000 * (k + 1) ∧ (s.wait = 0 ∨ s.wait = 10000) ∧
    s.targetOccurence = 0 ∧
    s.trace ++ sleepEvent s.wait = pollTrace k ++ [Event.sleep 10000]

/-- The timing both waits configure: ten seconds of delay and of minimum timeout, no poll
interval, and the defaults for the not-found checks and the target occurrences. -/
def TenSeconds (conf : StateChangeConf) : Prop :=
  conf.Delay = 10000 ∧ conf.MinTimeout = 10000 ∧ conf.PollInterval = 0 ∧
    conf.NotFoundChecks = 0 ∧ conf.ContinuousTargetOccurence = 0

/-- Poll `k` of a wait answers with a pending label: a non-nil result, no error, and a
label of the `Pending` list that is not in the `Target` list. -/
def PendingAt (conf : StateChangeConf) (k : Nat) : Prop :=
  ∃ x st, conf.Refresh k = (Iface.ptr x, st, none) ∧ st ∈ conf.Pending ∧ st ∉ conf.Target

/-- The `k`-th `GetLoadBalancer` call succeeds with a provisioning status that is neither
"active" nor "failed". -/
def StillProvisioning (sess : VpcV1) (lbId : String) (k : Nat) : Prop :=
  ∃ lb r, sess.GetLoadBalancer k lbId = .ok lb r ∧
    lb.ProvisioningStatus ≠ "active" ∧ lb.ProvisioningStatus ≠ "failed"

/-- The `k`-th `GetLoadBalancer` call succeeds: the load balancer is still there. -/
def StillPresent (lbc : VpcV1) (id : String) (k : Nat) : Prop :=
  ∃ lb r, lbc.GetLoadBalancer k id = .ok lb r

/-- The test a caller can make on the error of a wait: is it a `*resource.TimeoutError`? -/
def GoError.isTimeout : GoError → Bool
  | .TimeoutError _ _ _ _ => true
  | _ => false

/-- A script of `GetLoadBalancer` answers: the listed provisioning statuses in order,
and `dflt` for ever after. -/
def scriptedStatuses (statuses : List String) (dflt : String) : VpcV1 :=
  { GetLoadBalancer := fun k id => .ok ⟨id, "crn:" ++ id, statuses.getD k dflt⟩ ⟨200⟩ }

/-! ## The operations (`resource_ibm_is_lb.go`, `lbCreate`, `lbUpdate`, `lbDelete`) -/

def isLBTags : String := "tags"
def isLBAccessTags : String := "access_tags"
def isLBSubnets : String := "subnets"

/-- Modelled from the spec: the constant `isUserTagType` of package vpc (declared in a
file that is not under src/), the tag type of user tags. -/
def isUserTagType : String := "user"

/-- Modelled from the spec: the constant `isAccessTagType` of package vpc (declared in a
file that is not under src/), the tag type of access tags. -/
def isAccessTagType : String := "access"

inductive Severity
  | Error
  | Warning
  deriving DecidableEq, Repr

/-- One `diag.Diagnostic`. -/
structure Diagnostic where
  Severity : Severity
  Summary : String
  deriving DecidableEq, Repr

/-- The type `diag.Diagnostics`; the Go `nil` is the empty list. -/
abbrev Diagnostics := List Diagnostic

/-- The error record `*flex.TerraformProblem`. -/
structure TerraformProblem where
  Message : String
  Resource : String
  Operation : String
  deriving DecidableEq, Repr

/-- Modelled from the spec: `flex.TerraformErrorf` (package ibm/flex, not under src/), the
typed error of an operation (spec 7) with its message. -/
def TerraformErrorf (message resource operation : String) : TerraformProblem :=
  ⟨message, resource, operation⟩

/-- Modelled from the spec: `flex.DiscriminatedTerraformErrorf` (package ibm/flex, not
under src/), the typed error of an operation (spec 7) with its message. -/
def DiscriminatedTerraformErrorf (message resource operation _discriminator : String) :
    TerraformProblem :=
  ⟨message, resource, operation⟩

/-- Modelled from the spec: `(*flex.TerraformProblem).GetDiag` (package ibm/flex, not under
src/), through which an operation reports its failure (spec 7: the operation fails as a
whole): the diagnostics made of one error with the problem's message. -/
def TerraformProblem.GetDiag (e : TerraformProblem) : Diagnostics :=
  [⟨Severity.Error, e.Message⟩]

/-- The part of `*schema.ResourceData` the operations read and write. -/
structure ResourceData where
  Id : String
  GetOk : String → Bool
  HasChange : String → Bool
  Timeout : String → Nat

/-- The provider configuration `meta` and the process environment: the answer of
`vpcClient(meta)` (a client or an error), `os.Getenv`, and the error, if any, of
`AsPatch()` on the patch of a field. -/
structure Meta where
  vpcClient : Except String VpcV1
  Getenv : String → String
  AsPatch : String → Option String

/-- What an operation does that the outside can see, in order. -/
inductive Effect
  | CreateLoadBalancer
  | GetLoadBalancer (id : String)
  | UpdateLoadBalancer (id field : String)
  | DeleteLoadBalancer (id : String)
  | CreateSecurityGroupTargetBinding (securityGroupID id : String)
  | GetSecurityGroupTarget (securityGroupID id : String)
  | DeleteSecurityGroupTargetBinding (securityGroupID id : String)
  | UpdateGlobalTagsUsingCRN (crn tagType : String)
  | SetId (id : String)
  | isWaitForLBAvailable (lbId : String) (timeout : Nat) (out : WaitOutcome)
  | isWaitForLBDeleted (id : String) (timeout : Nat) (out : WaitOutcome)
  deriving DecidableEq, Repr

/-- The state an operation threads: the resource data, the number of remote calls made so
far and the effects so far. -/
structure OpState where
  d : ResourceData
  calls : Nat
  effects : List Effect

/-- The client as seen after `n` remote calls. -/
def VpcV1.after (sess : VpcV1) (n : Nat) : VpcV1 :=
  { sess with GetLoadBalancer := fun k id => sess.GetLoadBalancer (n + k) id }

/-- A statement sequence that either returns diagnostics (`some`) or falls through
(`none`); the outer `Option` is `none` only if a wait ran out of fuel. -/
abbrev Block := OpState → Option (Option Diagnostics × OpState)

def Block.andThen (a b : Block) : Block := fun s =>
  match a s with
  | none => none
  | some (some dg, s') => some (some dg, s')
  | some (none, s') => b s'

def Block.skip : Block := fun s => some (none, s)

def Block.ret (dg : Diagnostics) : Block := fun s => some (some dg, s)

def Block.effect (e : Effect) : Block := fun s =>
  some (none, { s with effects := s.effects ++ [e] })

/-- A remote call: it is counted and recorded, and an error returns `onErr`. -/
def Block.call (e : Effect) (answer : Nat → Option String) (onErr : String → Diagnostics) :
    Block := fun s =>
  let s' := { s with calls := s.calls + 1, effects := s.effects ++ [e] }
  match answer s.calls with
  | some err => some (some (onErr err), s')
  | none => some (none, s')

/-- The statement `_, err = isWaitForLBAvailable(sess, d.Id(), d.Timeout(key))` with its
`if err != nil` return. -/
def Block.waitAvailable (sess : VpcV1) (key operation : String) : Block := fun s =>
  match isWaitForLBAvailable (sess.after s.calls) s.d.Id (s.d.Timeout key) with
  | none => none
  | some out =>
    let s' := { s with calls := s.calls + countQueries out.trace,
                       effects := s.effects ++
                         [Effect.isWaitForLBAvailable s.d.Id (s.d.Timeout key) out] }
    match out.err with
    | some err =>
      some (some (TerraformErrorf ("isWaitForLBAvailable failed: " ++ err.Error)
        "ibm_is_lb" operation).GetDiag, s')
    | none => some (none, s')

/-- The statement `_, err = isWaitForLBDeleted(sess, id, d.Timeout(key))` with its
`if err != nil` return. -/
def Block.waitDeleted (sess : VpcV1) (id key operation : String) : Block := fun s =>
  match isWaitForLBDeleted (sess.after s.calls) id (s.d.Timeout key) with
  | none => none
  | some out =>
    let s' := { s with calls := s.calls + countQueries out.trace,
                       effects := s.effects ++
                         [Effect.isWaitForLBDeleted id (s.d.Timeout key) out] }
    match out.err with
    | some err =>
      some (some (TerraformErrorf ("isWaitForLBDeleted failed: " ++ err.Error)
        "ibm_is_lb" operation).GetDiag, s')
    | none => some (none, s')

/-- An `if` without `else` around a block. -/
def Block.cond (c : OpState → Bool) (b : Block) : Block := fun s =>
  if c s then b s else some (none, s)

/-- The statement `d.SetId(id)`. -/
def Block.setId (id : String) : Block := fun s =>
  some (none, { s with d := { s.d with Id := id }, effects := s.effects ++ [Effect.SetId id] })

/-- The result of an operation: the returned diagnostics (a block that falls through its
end returns `nil`) and the final state. -/
def Block.run (b : Block) (d : ResourceData) : Option (Diagnostics × OpState) :=
  match b ⟨d, 0, []⟩ with
  | none => none
  | some (some dg, s) => some (dg, s)
  | some (none, s) => some ([], s)

/-- The call `sess.CreateLoadBalancerWithContext(context, options)` of `lbCreate` and what
follows it. -/
def lbCreateCall (context : Context) (m : Meta) (sess : VpcV1) : Block := fun s =>
  let s' := { s with calls := s.calls + 1, effects := s.effects ++ [Effect.CreateLoadBalancer] }
  match sess.CreateLoadBalancerWithContext s.calls context with
  | .error err =>
    some (some (TerraformErrorf ("CreateLoadBalancerWithContext failed: " ++ err)
      "ibm_is_lb" "create").GetDiag, s')
  | .ok lb =>
    Block.andThen (Block.setId lb.ID)
      (Block.andThen (Block.waitAvailable sess "create" "create")
        (Block.andThen
          (Block.cond (fun s => s.d.GetOk isLBTags || m.Getenv "IC_ENV_TAGS" != "")
            (Block.effect (Effect.UpdateGlobalTagsUsingCRN lb.CRN isUserTagType)))
          (Block.andThen
            (Block.cond (fun s => s.d.GetOk isLBAccessTags)
              (Block.effect (Effect.UpdateGlobalTagsUsingCRN lb.CRN isAccessTagType)))
            (Block.ret [])))) s'

/-- The function `lbCreate`.  The request options, which no branch depends on, are left
out; the created load balancer is the answer of `CreateLoadBalancerWithContext`. -/
def lbCreate (context : Context) (d : ResourceData) (m : Meta) :
    Option (Diagnostics × OpState) :=
  match m.vpcClient with
  | .error err =>
    Block.run (Block.ret
      (DiscriminatedTerraformErrorf err "ibm_is_lb" "create" "initialize-client").GetDiag) d
  | .ok sess => Block.run (lbCreateCall context m sess) d

/-- The call `sess.GetLoadBalancerWithContext(context, getLoadBalancerOptions)` of
`lbDelete` with its error branch: a 404 clears the id and returns `nil`. -/
def lbDeleteGet (context : Context) (sess : VpcV1) (id : String) : Block := fun s =>
  let s' := { s with calls := s.calls + 1, effects := s.effects ++ [Effect.GetLoadBalancer id] }
  match sess.GetLoadBalancerWithContext s.calls context id with
  | .fail response err =>
    if response.isSome && (response.map (·.StatusCode)) == some 404 then
      Block.andThen (Block.setId "") (Block.ret []) s'
    else
      some (some (TerraformErrorf ("GetLoadBalancerWithContext failed: " ++ err)
        "ibm_is_lb" "delete").GetDiag, s')
  | .ok _ _ => some (none, s')

/-- The function `lbDelete`. -/
def lbDelete (context : Context) (d : ResourceData) (m : Meta) (id : String) :
    Option (Diagnostics × OpState) :=
  match m.vpcClient with
  | .error err =>
    Block.run (Block.ret
      (DiscriminatedTerraformErrorf err "ibm_is_lb" "delete" "initialize-client").GetDiag) d
  | .ok sess =>
    Block.run
      (Block.andThen (lbDeleteGet context sess id)
        (Block.andThen
          (Block.call (Effect.DeleteLoadBalancer id)
            (fun k => sess.DeleteLoadBalancerWithContext k context id)
            (fun err => (TerraformErrorf ("DeleteLoadBalancerWithContext failed: " ++ err)
              "ibm_is_lb" "delete").GetDiag))
          (Block.andThen (Block.waitDeleted sess id "delete" "delete")
            (Block.andThen (Block.setId "") (Block.ret []))))) d

/-- One patch of `lbUpdate`: `loadBalancerPatchModel.AsPatch()` and
`sess.UpdateLoadBalancerWithContext`, each with its `if err != nil` return. -/
def lbUpdatePatch (context : Context) (m : Meta) (sess : VpcV1) (id field : String) : Block :=
  Block.andThen
    (fun s =>
      match m.AsPatch field with
      | some err =>
        some (some (TerraformErrorf ("loadBalancerPatchModel.AsPatch() failed: " ++ err)
          "ibm_is_lb" "update").GetDiag, s)
      | none => some (none, s))
    (Block.call (Effect.UpdateLoadBalancer id field)
      (fun k => sess.UpdateLoadBalancerWithContext k context id)
      (fun err => (TerraformErrorf ("UpdateLoadBalancerWithContext failed: " ++ err)
        "ibm_is_lb" "update").GetDiag))

/-- The tag block of `lbUpdate`: the load balancer is read for its CRN, then the user tags
and the access tags are updated where they changed (an error there is only logged). -/
def lbUpdateTags (context : Context) (sess : VpcV1) (id : String) : Block := fun s =>
  let s' := { s with calls := s.calls + 1, effects := s.effects ++ [Effect.GetLoadBalancer id] }
  match sess.GetLoadBalancerWithContext s.calls context id with
  | .fail _ err =>
    some (some (TerraformErrorf ("GetLoadBalancerWithContext failed: " ++ err)
      "ibm_is_lb" "update").GetDiag, s')
  | .ok lb _ =>
    Block.andThen
      (Block.cond (fun s => s.d.HasChange isLBTags)
        (Block.effect (Effect.UpdateGlobalTagsUsingCRN lb.CRN isUserTagType)))
      (Block.cond (fun s => s.d.HasChange isLBAccessTags)
        (Block.effect (Effect.UpdateGlobalTagsUsingCRN lb.CRN isAccessTagType))) s'

/-- The loop of `lbUpdate` over the security groups to add. -/
def lbUpdateAdd (context : Context) (sess : VpcV1) (id : String) : List String → Block
  | [] => Block.skip
  | securityGroupID :: rest =>
    Block.andThen
      (Block.call (Effect.CreateSecurityGroupTargetBinding securityGroupID id)
        (fun k => sess.CreateSecurityGroupTargetBindingWithContext k context securityGroupID id)
        (fun err => (TerraformErrorf
          ("CreateSecurityGroupTargetBindingWithContext failed: " ++ err)
          "ibm_is_lb" "update").GetDiag))
      (Block.andThen (Block.waitAvailable sess "update" "update")
        (lbUpdateAdd context sess id rest))

/-- The loop of `lbUpdate` over the security groups to remove; a target that is already
gone (404) is skipped. -/
def lbUpdateRemove (context : Context) (sess : VpcV1) (id : String) : List String → Block
  | [] => Block.skip
  | securityGroupID :: rest => fun s =>
    let s' := { s with calls := s.calls + 1,
                       effects := s.effects ++ [Effect.GetSecurityGroupTarget securityGroupID id] }
    match sess.GetSecurityGroupTargetWithContext s.calls context securityGroupID id with
    | some (response, err) =>
      if response.isSome && (response.map (·.StatusCode)) == some 404 then
        lbUpdateRemove context sess id rest s'
      else
        some (some (TerraformErrorf ("GetSecurityGroupTargetWithContext failed: " ++ err)
          "ibm_is_lb" "update").GetDiag, s')
    | none =>
      Block.andThen
        (Block.call (Effect.DeleteSecurityGroupTargetBinding securityGroupID id)
          (fun k =>
            sess.DeleteSecurityGroupTargetBindingWithContext k context securityGroupID id)
          (fun err => (TerraformErrorf
            ("DeleteSecurityGroupTargetBindingWithContext failed: " ++ err)
            "ibm_is_lb" "update").GetDiag))
        (Block.andThen (Block.waitAvailable sess "update" "update")
          (lbUpdateRemove context sess id rest)) s'

/-- The function `lbUpdate`.  The contents of the patches, which no branch depends on, are
left out. -/
def lbUpdate (context : Context) (d : ResourceData) (m : Meta) (id : String)
    (hasChanged hasChangedLog hasChangedSecurityGroups : Bool) (remove add : List String) :
    Option (Diagnostics × OpState) :=
  match m.vpcClient with
  | .error err =>
    Block.run (Block.ret
      (DiscriminatedTerraformErrorf err "ibm_is_lb" "update" "initialize-client").GetDiag) d
  | .ok sess =>
    Block.run
      (Block.andThen
        (Block.cond (fun s => s.d.HasChange isLBTags || s.d.HasChange isLBAccessTags)
          (lbUpdateTags context sess id))
      (Block.andThen
        (Block.cond (fun s => s.d.HasChange "dns")
          (Block.andThen (lbUpdatePatch context m sess id "dns")
            (Block.waitAvailable sess "update" "update")))
      (Block.andThen
        (Block.cond (fun s => s.d.HasChange isLBSubnets)
          (Block.andThen (lbUpdatePatch context m sess id "subnets")
            (Block.waitAvailable sess "update" "update")))
      (Block.andThen
        (Block.cond (fun _ => hasChanged) (lbUpdatePatch context m sess id "name"))
      (Block.andThen
        (Block.cond (fun _ => hasChangedLog) (lbUpdatePatch context m sess id "logging"))
      (Block.andThen
        (Block.cond (fun _ => hasChangedSecurityGroups)
          (Block.andThen (lbUpdateAdd context sess id add)
            (lbUpdateRemove context sess id remove)))
        (Block.ret []))))))) d

/-! ## Properties of operations -/

/-- The effect is a wait that returned an error. -/
def Effect.isFailedWait : Effect → Bool
  | .isWaitForLBAvailable _ _ out => out.err.isSome
  | .isWaitForLBDeleted _ _ out => out.err.isSome
  | _ => false

/-- The diagnostics contain an error. -/
def hasError (dg : Diagnostics) : Bool :=
  dg.any fun x => x.Severity == Severity.Error

/-- No wait among the effects returned an error. -/
def NoFailedWait (effects : List Effect) : Prop :=
  ∀ e, e ∈ effects → e.isFailedWait = false

/-- An operation that returned `dg` after `effects` stopped at its failed wait: a wait
that returned an error is the last effect, and the diagnostics contain an error. -/
def StopsAtFailedWait (dg : Diagnostics) (effects : List Effect) : Prop :=
  ∀ pre e post, effects = pre ++ e :: post → e.isFailedWait = true →
    hasError dg = true ∧ post = []

/-- The operation returned diagnostics that contain an error, the resource id is `id`, and
what it did is exactly `effects`. -/
def ReturnsErrorAfter (res : Option (Diagnostics × OpState)) (id : String)
    (effects : List Effect) : Prop :=
  ∃ r, res = some r ∧ hasError r.1 = true ∧ r.2.d.Id = id ∧ r.2.effects = effects

/-- What holds after a block that began without a failed wait: still no failed wait, or
the block returned error diagnostics right after the one failed wait. -/
def BlockPost (r : Option Diagnostics) (s : OpState) : Prop :=
  NoFailedWait s.effects ∨
    ∃ dg init e, r = some dg ∧ hasError dg = true ∧ s.effects = init ++ [e] ∧
      NoFailedWait init

/-- A block that always returns and keeps `BlockPost`. -/
def Block.Sound (b : Block) : Prop :=
  ∀ s, NoFailedWait s.effects → ∃ r s', b s = some (r, s') ∧ BlockPost r s'

/-- A client and configuration for examples: `CreateLoadBalancer` answers with the load
balancer "lb-123", and the `k`-th remote call, when it is a `GetLoadBalancer`, reports
"provisioning" for `k < ready` and `final` from then on. -/
def exampleMeta (ready : Nat) (final : String) : Meta :=
  { vpcClient := .ok
      { GetLoadBalancer := fun k id =>
          .ok ⟨id, "crn:" ++ id, if k < ready then "provisioning" else final⟩ ⟨200⟩
        CreateLoadBalancerWithContext := fun _ _ =>
          .ok ⟨"lb-123", "crn:lb-123", "create_pending"⟩ }
    Getenv := fun _ => ""
    AsPatch := fun _ => none }

/-- Resource data for examples: every attribute is set and changed, every timeout is
`timeout`. -/
def exampleData (id : String) (timeout : Nat) : ResourceData :=
  ⟨id, fun _ => true, fun _ => true, fun _ => timeout⟩

/-! ## Terraform ids of security group rules (`resource_ibm_is_security_group_rule.go`) -/

/-- The Go library function `strings.Split(s, sep)` for a separator of one character, on the
characters of `s`: the pieces between the separators, in order. -/
def splitChars (sep : Char) : List Char → List (List Char)
  | [] => [[]]
  | c :: cs =>
    if c = sep then [] :: splitChars sep cs
    else
      match splitChars sep cs with
      | [] => [[c]]
      | piece :: rest => (c :: piece) :: rest

/-- The call `strings.Split(s, ".")`. -/
def stringsSplitDot (s : String) : List String :=
  (splitChars '.' s.data).map String.mk

/-- The function `parseISTerraformID`: the two segments and the error (`none` is `nil`). -/
def parseISTerraformID (s : String) : String × String × Option GoError :=
  match stringsSplitDot s with
  | [seg0, seg1] =>
    if seg0 == "" || seg1 == "" then
      ("", "", some (GoError.errorString
        ("invalid terraform Id " ++ s ++ " (one or more empty segments)")))
    else (seg0, seg1, none)
  | _ =>
    ("", "", some (GoError.errorString
      ("invalid terraform Id " ++ s ++ " (incorrect number of segments)")))

/-- The function `makeTerraformRuleID`. -/
def makeTerraformRuleID (id1 id2 : String) : String :=
  id1 ++ "." ++ id2



/-! ## The rule dictionary (`resource_ibm_is_security_group_rule.go`) -/

def isSecurityGroupRuleProtocolICMP : String := "icmp"
def isSecurityGroupRuleProtocolTCP : String := "tcp"
def isSecurityGroupRuleProtocolUDP : String := "udp"

/-- The record `parsedIBMISSecurityGroupRuleDictionary`: after parsing, unused string
fields are "" and unused integer fields are -1. -/
structure parsedIBMISSecurityGroupRuleDictionary where
  secgrpID : String
  ruleID : String
  direction : String
  ipversion : String
  remote : String
  remoteAddress : String
  remoteCIDR : String
  remoteSecGrpID : String
  local_ : String
  localAddress : String
  localCIDR : String
  protocol : String
  icmpType : Int
  icmpCode : Int
  portMin : Int
  portMax : Int
  deriving DecidableEq, Repr

/-- What `d.GetOk("icmp.0.type")` and `d.GetOk("icmp.0.code")` report for the first
element of the icmp list: `some v` when the key is reported as set, with value `v`. -/
structure IcmpBlock where
  type : Option Int
  code : Option Int
  deriving DecidableEq, Repr

/-- The port map of the first element of a tcp or udp list: `some v` when the map has the
key, with value `v`.  The maps that the schema of the resource builds have both keys, see
`portsOfConfig`. -/
structure PortsBlock where
  port_min : Option Int
  port_max : Option Int
  deriving DecidableEq, Repr

/-- The port map that `d.GetOk` hands out for a configured tcp or udp block, from the
`port_min` and `port_max` of the configuration (`none` for an attribute the block leaves
out).  The element schema of both blocks declares `port_min` with `Default: 1` and
`port_max` with `Default: 65535` (lines 134, 141, 162 and 169), so the map has both keys
and an attribute that is left out holds its default. -/
def portsOfConfig (port_min port_max : Option Int) : PortsBlock :=
  ⟨some (port_min.getD 1), some (port_max.getD 65535)⟩

/-- What the resource data of a rule answers.  `Id` is `d.Id()`, `group` and `direction`
are `d.Get` values, the other fields are `d.GetOk` answers (`none` when not ok).  For a
block list, `some none` is a list whose first element is nil. -/
structure RuleData where
  Id : String
  group : String
  direction : String
  ip_version : Option String
  remote : Option String
  local_ : Option String
  icmp : Option (Option IcmpBlock)
  tcp : Option (Option PortsBlock)
  udp : Option (Option PortsBlock)
  deriving DecidableEq, Repr

/-- The schema's `ConflictsWith` between the icmp, tcp and udp blocks: at most one of them
is configured. -/
def AtMostOneBlock (d : RuleData) : Prop :=
  (d.icmp = none ∧ d.tcp = none) ∨ (d.icmp = none ∧ d.udp = none) ∨
    (d.tcp = none ∧ d.udp = none)

/-- The part of `vpcv1.SecurityGroup` the source inspects. -/
structure SecurityGroup where
  ID : String
  CRN : String
  deriving DecidableEq, Repr

/-- What one `GetSecurityGroup` call returns: `(sg, res, err)`, each possibly nil. -/
structure GetSecurityGroupResult where
  sg : Option SecurityGroup
  res : Option DetailedResponse
  err : Option String
  deriving DecidableEq, Repr

/-- The model `vpcv1.SecurityGroupRuleRemotePrototype` (and the remote of a patch). -/
structure SecurityGroupRuleRemotePrototype where
  Address : Option String
  CIDRBlock : Option String
  ID : Option String
  deriving DecidableEq, Repr

/-- The model `vpcv1.SecurityGroupRuleLocalPrototype` (and the local of a patch). -/
structure SecurityGroupRuleLocalPrototype where
  Address : Option String
  CIDRBlock : Option String
  deriving DecidableEq, Repr

/-- The model `vpcv1.SecurityGroupRulePrototype`; a nil pointer is `none`. -/
structure SecurityGroupRulePrototype where
  Direction : Option String
  IPVersion : Option String
  Remote : Option SecurityGroupRuleRemotePrototype
  Local : Option SecurityGroupRuleLocalPrototype
  Type_ : Option Int
  Code : Option Int
  Protocol : Option String
  PortMin : Option Int
  PortMax : Option Int
  deriving DecidableEq, Repr

/-- An entry of a JSON merge patch: the key is absent, explicitly null, or has a value. -/
inductive PatchValue (α : Type)
  | absent
  | null
  | value (v : α)
  deriving DecidableEq, Repr

/-- The map that `SecurityGroupRulePatch.AsPatch()` returns, by key. -/
structure SecurityGroupRulePatchMap where
  direction : PatchValue String
  ip_version : PatchValue String
  remote : PatchValue SecurityGroupRuleRemotePrototype
  local_ : PatchValue SecurityGroupRuleLocalPrototype
  type : PatchValue Int
  code : PatchValue Int
  port_min : PatchValue Int
  port_max : PatchValue Int
  deriving DecidableEq, Repr

/-- The model `vpcv1.UpdateSecurityGroupRuleOptions`. -/
structure UpdateSecurityGroupRuleOptions where
  SecurityGroupID : Option String
  ID : Option String
  SecurityGroupRulePatch : SecurityGroupRulePatchMap
  deriving DecidableEq, Repr

/-- The concrete type of a rule that the API returns, as `reflect.TypeOf` names it. -/
inductive RuleKind
  | ProtocolIcmp
  | ProtocolAll
  | ProtocolTcpudp
  | other
  deriving DecidableEq, Repr

/-- The part of a returned `vpcv1.SecurityGroupRuleIntf` the source inspects. -/
structure SecurityGroupRule where
  kind : RuleKind
  ID : String
  deriving DecidableEq, Repr

/-- The methods of `*vpcv1.VpcV1` that the security group rule resource calls, as a script
of the remote API.  A call answers with its result or with its error and response. -/
structure RuleClient where
  GetSecurityGroup : String → GetSecurityGroupResult
  GetSecurityGroupWithContext : Context → String → Except String SecurityGroup
  CreateSecurityGroupRuleWithContext : Context → String → SecurityGroupRulePrototype →
    Except String SecurityGroupRule
  UpdateSecurityGroupRuleWithContext : Context → UpdateSecurityGroupRuleOptions →
    Option String
  GetSecurityGroupRuleWithContext : Context → String → String →
    Except (Option DetailedResponse × String) SecurityGroupRule
  DeleteSecurityGroupRuleWithContext : Context → String → String →
    Option (Option DetailedResponse × String)

/-- What the rule resource uses from outside src/: the predicates
`validate.IsSecurityGroupAddress` and `validate.IsSecurityGroupCIDR` (package
ibm/validate), the error, if any, of `SecurityGroupRulePatch.AsPatch()`, and the error, if
any, of the first failing `d.Set` of a read. -/
structure RuleEnv where
  IsSecurityGroupAddress : String → Bool
  IsSecurityGroupCIDR : String → Bool
  AsPatchError : Option String
  SetError : Option String

/-- The function `inferRemoteSecurityGroup`: `(address, cidr, id, err)`. -/
def inferRemoteSecurityGroup (env : RuleEnv) (s : String) :
    String × String × String × Option GoError :=
  if env.IsSecurityGroupAddress s then (s, "", "", none)
  else if env.IsSecurityGroupCIDR s then ("", s, "", none)
  else ("", "", s, none)

/-- The function `inferLocalSecurityGroup`: `(address, cidr, err)`. -/
def inferLocalSecurityGroup (env : RuleEnv) (s : String) : String × String × Option GoError :=
  if env.IsSecurityGroupAddress s then (s, "", none)
  else if env.IsSecurityGroupCIDR s then ("", s, none)
  else ("", "", none)

/-- Rendering of `%s` for an error in an error message. -/
def fmtError : Option String → String
  | none => "%!s(<nil>)"
  | some e => e

/-- The local variables of `parseIBMISSecurityGroupRuleDictionary`: the record `parsed`,
and for the pointers of `sgTemplate`, `sgTemplateUpdate` and the patch model, which all
point into `parsed`, whether they have been set. -/
structure ParseState where
  parsed : parsedIBMISSecurityGroupRuleDictionary
  updateIDs : Bool
  remoteSet : Bool
  localSet : Bool
  typeSet : Bool
  codeSet : Bool
  protocolSet : Bool
  portsSet : Bool
  deriving DecidableEq, Repr

/-- The variables at the start: the integer fields are -1. -/
def ParseState.init : ParseState :=
  { parsed :=
      { secgrpID := "", ruleID := "", direction := "", ipversion := "", remote := "",
        remoteAddress := "", remoteCIDR := "", remoteSecGrpID := "", local_ := "",
        localAddress := "", localCIDR := "", protocol := "",
        icmpType := -1, icmpCode := -1, portMin := -1, portMax := -1 }
    updateIDs := false, remoteSet := false, localSet := false, typeSet := false,
    codeSet := false, protocolSet := false, portsSet := false }

/-- The ids: from the Terraform id if it parses, else the group of the configuration. -/
def parseIDs (d : RuleData) (s : ParseState) : ParseState :=
  match parseISTerraformID d.Id with
  | (_, ruleID, some _) => { s with parsed := { s.parsed with secgrpID := d.group, ruleID := ruleID } }
  | (secgrpID, ruleID, none) =>
    { s with parsed := { s.parsed with secgrpID := secgrpID, ruleID := ruleID },
             updateIDs := true }

/-- The direction and the IP version. -/
def parseDirection (d : RuleData) (s : ParseState) : ParseState :=
  { s with parsed := { s.parsed with
      direction := d.direction
      ipversion := match d.ip_version with
        | some version => version
        | none => "IPv4" } }

/-- The remote: it is classified, and a remote that is a security group identifier is
looked up. -/
def parseRemote (env : RuleEnv) (d : RuleData) (sess : RuleClient) (s : ParseState) :
    Except GoError ParseState :=
  let remote := match d.remote with
    | some pr => pr
    | none => ""
  let p := { s.parsed with remote := remote, remoteAddress := "", remoteCIDR := "",
                           remoteSecGrpID := "" }
  if remote != "" then
    let (address, cidr, id, err) := inferRemoteSecurityGroup env remote
    let p := { p with remoteAddress := address, remoteCIDR := cidr, remoteSecGrpID := id }
    let next : Except GoError ParseState :=
      match err with
      | some e => .error e
      | none => .ok { s with parsed := p, remoteSet := true }
    if address != "" then next
    else if cidr != "" then next
    else if id != "" then
      let r := sess.GetSecurityGroup id
      if r.err.isSome || r.sg.isNone then
        if r.res.isSome && (r.res.map (·.StatusCode)) == some 404 then
          .error (GoError.errorString ("[ERROR] Invalid remote provided (" ++ id ++ "): "
            ++ fmtError r.err ++ "\n" ++ fmtResponse r.res))
        else
          .error (GoError.errorString ("[ERROR] Invalid remote provided (" ++ id ++ "): "
            ++ fmtError r.err))
      else next
    else next
  else .ok { s with parsed := p }

/-- The local: it is classified as an address or a CIDR block. -/
def parseLocal (env : RuleEnv) (d : RuleData) (s : ParseState) : Except GoError ParseState :=
  let local_ := match d.local_ with
    | some pl => pl
    | none => ""
  let p := { s.parsed with local_ := local_, localAddress := "", localCIDR := "" }
  if local_ != "" then
    let (address, cidr, err) := inferLocalSecurityGroup env local_
    let p := { p with localAddress := address, localCIDR := cidr }
    match err with
    | some e => .error e
    | none => .ok { s with parsed := p, localSet := true }
  else .ok { s with parsed := p }

/-- The icmp block: the type, and the code, which requires the type. -/
def parseIcmp (d : RuleData) (s : ParseState) : Except GoError ParseState :=
  let s := { s with parsed := { s.parsed with protocol := "all" } }
  match d.icmp with
  | none => .ok s
  | some none =>
    .ok { s with parsed := { s.parsed with protocol := "icmp" }, protocolSet := true }
  | some (some blk) =>
    let s1 := match blk.type with
      | some value => { s with parsed := { s.parsed with icmpType := value }, typeSet := true }
      | none => s
    match blk.code with
    | some value =>
      if !blk.type.isSome then
        .error (GoError.errorString "icmp code requires icmp type")
      else
        .ok { s1 with parsed := { s1.parsed with icmpCode := value, protocol := "icmp" },
                      codeSet := true, protocolSet := true }
    | none =>
      .ok { s1 with parsed := { s1.parsed with protocol := "icmp" }, protocolSet := true }

/-- One round of the loop over "tcp" and "udp", for the answer `blk` of `d.GetOk(prot)`. -/
def parsePorts (prot : String) (blk : Option (Option PortsBlock)) (s : ParseState) :
    ParseState :=
  match blk with
  | none => s
  | some none =>
    { s with parsed := { s.parsed with protocol := prot, portMax := 65535, portMin := 1 },
             protocolSet := true, portsSet := true }
  | some (some ports) =>
    let portMin := match ports.port_min with
      | some value => value
      | none => s.parsed.portMin
    let portMax := match ports.port_max with
      | some value => value
      | none => s.parsed.portMax
    let haveMin := ports.port_min.isSome
    let haveMax := ports.port_max.isSome
    let portMax := if haveMin && !haveMax then portMin else portMax
    let portMin := if haveMax && !haveMin then portMax else portMin
    { s with parsed := { s.parsed with protocol := prot, portMin := portMin,
                                       portMax := portMax },
             protocolSet := true, portsSet := true }

/-- The prototype `sgTemplate` at the end: every pointer that was set is read. -/
def buildPrototype (s : ParseState) : SecurityGroupRulePrototype :=
  let p := s.parsed
  { Direction := some p.direction
    IPVersion := some p.ipversion
    Remote := if s.remoteSet then
        some (if p.remoteAddress != "" then ⟨some p.remoteAddress, none, none⟩
          else if p.remoteCIDR != "" then ⟨none, some p.remoteCIDR, none⟩
          else if p.remoteSecGrpID != "" then ⟨none, none, some p.remoteSecGrpID⟩
          else ⟨none, none, none⟩)
      else none
    Local := if s.localSet then
        some (if p.localAddress != "" then ⟨some p.localAddress, none⟩
          else if p.localCIDR != "" then ⟨none, some p.localCIDR⟩
          else ⟨none, none⟩)
      else none
    Type_ := if s.typeSet then some p.icmpType else none
    Code := if s.codeSet then some p.icmpCode else none
    Protocol := if s.protocolSet || p.protocol == "all" then some p.protocol else none
    PortMin := if s.portsSet then some p.portMin else none
    PortMax := if s.portsSet then some p.portMax else none }

/-- A pointer field in the patch map: absent when nil. -/
def PatchValue.ofOption {α : Type} : Option α → PatchValue α
  | none => PatchValue.absent
  | some v => PatchValue.value v

/-- The patch map at the end: the map of the patch model, in which, for a configured icmp
block, a type or code that is -1 is set to null. -/
def buildPatch (d : RuleData) (s : ParseState) : SecurityGroupRulePatchMap :=
  let t := buildPrototype s
  { direction := PatchValue.ofOption t.Direction
    ip_version := PatchValue.ofOption t.IPVersion
    remote := PatchValue.ofOption t.Remote
    local_ := PatchValue.ofOption t.Local
    type := if d.icmp.isSome && s.parsed.icmpType == -1 then PatchValue.null
      else PatchValue.ofOption t.Type_
    code := if d.icmp.isSome && s.parsed.icmpCode == -1 then PatchValue.null
      else PatchValue.ofOption t.Code
    port_min := PatchValue.ofOption t.PortMin
    port_max := PatchValue.ofOption t.PortMax }

/-- What `parseIBMISSecurityGroupRuleDictionary` returns: the record, the create prototype,
the update options and the error; on an error the first three are nil. -/
structure ParseResult where
  parsed : Option parsedIBMISSecurityGroupRuleDictionary
  sgTemplate : Option SecurityGroupRulePrototype
  sgTemplateUpdate : Option UpdateSecurityGroupRuleOptions
  err : Option GoError
  deriving DecidableEq, Repr

/-- The statements of `parseIBMISSecurityGroupRuleDictionary` up to the call of `AsPatch`:
the variables at that point, or the error returned before. -/
def parseSteps (env : RuleEnv) (d : RuleData) (sess : RuleClient) : Except GoError ParseState :=
  match parseRemote env d sess (parseDirection d (parseIDs d ParseState.init)) with
  | .error e => .error e
  | .ok s =>
    match parseLocal env d s with
    | .error e => .error e
    | .ok s =>
      match parseIcmp d s with
      | .error e => .error e
      | .ok s =>
        .ok (parsePorts isSecurityGroupRuleProtocolUDP d.udp
          (parsePorts isSecurityGroupRuleProtocolTCP d.tcp s))

/-- The function `parseIBMISSecurityGroupRuleDictionary`. -/
def parseIBMISSecurityGroupRuleDictionary (env : RuleEnv) (d : RuleData) (_tag : String)
    (sess : RuleClient) : ParseResult :=
  match parseSteps env d sess with
  | .error e => ⟨none, none, none, some e⟩
  | .ok s =>
    match env.AsPatchError with
    | some err =>
      ⟨none, none, none, some (GoError.errorString
        ("[ERROR] Error calling asPatch for SecurityGroupRulePatch: " ++ err))⟩
    | none =>
      ⟨some s.parsed, some (buildPrototype s),
        some ⟨if s.updateIDs then some s.parsed.secgrpID else none,
          if s.updateIDs then some s.parsed.ruleID else none, buildPatch d s⟩, none⟩

/-! ## The rule operations (`resource_ibm_is_security_group_rule.go`) -/

/-- What a rule operation does that the outside can see, in order.  `Lock` and `Unlock`
are the calls `conns.IbmMutexKV.Lock(key)` and `conns.IbmMutexKV.Unlock(key)`. -/
inductive RuleEffect
  | Lock (key : String)
  | Unlock (key : String)
  | CreateSecurityGroupRule (securityGroupID : String)
  | UpdateSecurityGroupRule (securityGroupID id : Option String)
  | GetSecurityGroupRule (securityGroupID id : String)
  | GetSecurityGroup (id : String)
  | DeleteSecurityGroupRule (securityGroupID id : String)
  | SetId (id : String)
  deriving DecidableEq, Repr

/-- The provider configuration `meta` for the rule resource: the answer of
`vpcClient(meta)` and what is used from outside src/. -/
structure RuleMeta where
  vpcClient : Except String RuleClient
  env : RuleEnv

/-- How a rule operation ends: the diagnostics it returns (or a panic), the id of the
resource data afterwards, and its effects. -/
structure RuleRun where
  diags : Diagnostics
  panicked : Bool
  Id : String
  effects : List RuleEffect
  deriving DecidableEq, Repr

/-- The function `resourceIBMISSecurityGroupRuleRead`.  The attributes it sets are left
out, but for the id; `env.SetError` is the error of the first `d.Set` that fails. -/
def resourceIBMISSecurityGroupRuleRead (context : Context) (id : String) (m : RuleMeta) :
    RuleRun :=
  match m.vpcClient with
  | .error err =>
    ⟨(DiscriminatedTerraformErrorf err "ibm_is_security_group_rule" "read"
      "initialize-client").GetDiag, false, id, []⟩
  | .ok sess =>
    match parseISTerraformID id with
    | (_, _, some err) =>
      ⟨(DiscriminatedTerraformErrorf err.Error "ibm_is_security_group_rule" "read"
        "sep-id-parts").GetDiag, false, id, []⟩
    | (secgrpID, ruleID, none) =>
      match sess.GetSecurityGroupRuleWithContext context secgrpID ruleID with
      | .error (response, err) =>
        if response.isSome && (response.map (·.StatusCode)) == some 404 then
          ⟨[], false, "", [RuleEffect.GetSecurityGroupRule secgrpID ruleID, RuleEffect.SetId ""]⟩
        else
          ⟨(TerraformErrorf ("GetSecurityGroupRuleWithContext failed: " ++ err)
            "ibm_is_security_group_rule" "read").GetDiag, false, id,
            [RuleEffect.GetSecurityGroupRule secgrpID ruleID]⟩
      | .ok sgrule =>
        match sess.GetSecurityGroupWithContext context secgrpID with
        | .error err =>
          ⟨(TerraformErrorf ("GetSecurityGroupWithContext failed: " ++ err)
            "ibm_is_security_group_rule" "read").GetDiag, false, id,
            [RuleEffect.GetSecurityGroupRule secgrpID ruleID,
              RuleEffect.GetSecurityGroup secgrpID]⟩
        | .ok _ =>
          let gets := [RuleEffect.GetSecurityGroupRule secgrpID ruleID,
            RuleEffect.GetSecurityGroup secgrpID]
          match sgrule.kind with
          | RuleKind.other =>
            match m.env.SetError with
            | some err =>
              ⟨(DiscriminatedTerraformErrorf err "ibm_is_security_group_rule" "read"
                "set-related_crn").GetDiag, false, id, gets⟩
            | none => ⟨[], false, id, gets⟩
          | _ =>
            let tfID := makeTerraformRuleID secgrpID sgrule.ID
            match m.env.SetError with
            | some err =>
              ⟨(DiscriminatedTerraformErrorf err "ibm_is_security_group_rule" "read"
                "set").GetDiag, false, tfID, gets ++ [RuleEffect.SetId tfID]⟩
            | none => ⟨[], false, tfID, gets ++ [RuleEffect.SetId tfID]⟩

/-- The key of the named lock of a security group. -/
def isSecurityGroupRuleKey (secgrpID : String) : String :=
  "security_group_rule_key_" ++ secgrpID

/-- A function body that ran while the lock `key` was held: the lock is taken before it,
and the deferred `Unlock` runs when the function returns (or panics), after the body. -/
def withDeferredUnlock (key : String) (body : RuleRun) : RuleRun :=
  { body with effects := RuleEffect.Lock key :: body.effects ++ [RuleEffect.Unlock key] }

/-- The function `resourceIBMISSecurityGroupRuleCreate`. -/
def resourceIBMISSecurityGroupRuleCreate (context : Context) (d : RuleData) (m : RuleMeta) :
    RuleRun :=
  match m.vpcClient with
  | .error err =>
    ⟨(DiscriminatedTerraformErrorf err "ibm_is_security_group_rule" "create"
      "initialize-client").GetDiag, false, d.Id, []⟩
  | .ok sess =>
    match parseIBMISSecurityGroupRuleDictionary m.env d "create" sess with
    | ⟨_, _, _, some err⟩ =>
      ⟨(DiscriminatedTerraformErrorf err.Error "ibm_is_security_group_rule" "create"
        "parse-request-body").GetDiag, false, d.Id, []⟩
    | ⟨some parsed, some sgTemplate, _, none⟩ =>
      withDeferredUnlock (isSecurityGroupRuleKey parsed.secgrpID)
        (match sess.CreateSecurityGroupRuleWithContext context parsed.secgrpID sgTemplate with
        | .error err =>
          ⟨(TerraformErrorf ("CreateSecurityGroupRuleWithContext failed: " ++ err)
            "ibm_is_security_group_rule" "create").GetDiag, false, d.Id,
            [RuleEffect.CreateSecurityGroupRule parsed.secgrpID]⟩
        | .ok rule =>
          let tfID := match rule.kind with
            | RuleKind.other => d.Id
            | _ => makeTerraformRuleID parsed.secgrpID rule.ID
          let setId := match rule.kind with
            | RuleKind.other => []
            | _ => [RuleEffect.SetId tfID]
          let read := resourceIBMISSecurityGroupRuleRead context tfID m
          { read with effects :=
              RuleEffect.CreateSecurityGroupRule parsed.secgrpID :: setId ++ read.effects })
    | _ => ⟨[], true, d.Id, []⟩

/-- The function `resourceIBMISSecurityGroupRuleUpdate`. -/
def resourceIBMISSecurityGroupRuleUpdate (context : Context) (d : RuleData) (m : RuleMeta) :
    RuleRun :=
  match m.vpcClient with
  | .error err =>
    ⟨(DiscriminatedTerraformErrorf err "ibm_is_security_group_rule" "update"
      "initialize-client").GetDiag, false, d.Id, []⟩
  | .ok sess =>
    match parseIBMISSecurityGroupRuleDictionary m.env d "update" sess with
    | ⟨_, _, _, some err⟩ =>
      ⟨(DiscriminatedTerraformErrorf err.Error "ibm_is_security_group_rule" "update"
        "sep-id-parts").GetDiag, false, d.Id, []⟩
    | ⟨some parsed, _, some sgTemplate, none⟩ =>
      withDeferredUnlock (isSecurityGroupRuleKey parsed.secgrpID)
        (match sess.UpdateSecurityGroupRuleWithContext context sgTemplate with
        | some err =>
          ⟨(TerraformErrorf ("UpdateSecurityGroupRuleWithContext failed: " ++ err)
            "ibm_is_security_group_rule" "update").GetDiag, false, d.Id,
            [RuleEffect.UpdateSecurityGroupRule sgTemplate.SecurityGroupID sgTemplate.ID]⟩
        | none =>
          let read := resourceIBMISSecurityGroupRuleRead context d.Id m
          { read with effects :=
              RuleEffect.UpdateSecurityGroupRule sgTemplate.SecurityGroupID sgTemplate.ID
                :: read.effects })
    | _ => ⟨[], true, d.Id, []⟩

/-- The function `resourceIBMISSecurityGroupRuleDelete`.  A failed delete call without a
response makes `response.StatusCode` panic. -/
def resourceIBMISSecurityGroupRuleDelete (context : Context) (d : RuleData) (m : RuleMeta) :
    RuleRun :=
  match m.vpcClient with
  | .error err =>
    ⟨(DiscriminatedTerraformErrorf err "ibm_is_security_group_rule" "delete"
      "initialize-client").GetDiag, false, d.Id, []⟩
  | .ok sess =>
    match parseISTerraformID d.Id with
    | (_, _, some err) =>
      ⟨(DiscriminatedTerraformErrorf err.Error "ibm_is_security_group_rule" "delete"
        "sep-id-parts").GetDiag, false, d.Id, []⟩
    | (secgrpID, ruleID, none) =>
      withDeferredUnlock (isSecurityGroupRuleKey secgrpID)
        (match sess.GetSecurityGroupRuleWithContext context secgrpID ruleID with
        | .error (response, err) =>
          if response.isSome && (response.map (·.StatusCode)) == some 404 then
            ⟨[], false, "",
              [RuleEffect.GetSecurityGroupRule secgrpID ruleID, RuleEffect.SetId ""]⟩
          else
            ⟨(TerraformErrorf ("GetSecurityGroupRuleWithContext failed: " ++ err)
              "ibm_is_security_group_rule" "delete").GetDiag, false, d.Id,
              [RuleEffect.GetSecurityGroupRule secgrpID ruleID]⟩
        | .ok _ =>
          let calls := [RuleEffect.GetSecurityGroupRule secgrpID ruleID,
            RuleEffect.DeleteSecurityGroupRule secgrpID ruleID]
          match sess.DeleteSecurityGroupRuleWithContext context secgrpID ruleID with
          | some (none, _) => ⟨[], true, d.Id, calls⟩
          | some (some response, err) =>
            if response.StatusCode != 404 then
              ⟨(TerraformErrorf ("DeleteSecurityGroupRuleWithContext failed: " ++ err)
                "ibm_is_security_group_rule" "delete").GetDiag, false, d.Id, calls⟩
            else ⟨[], false, "", calls ++ [RuleEffect.SetId ""]⟩
          | none => ⟨[], false, "", calls ++ [RuleEffect.SetId ""]⟩)

/-- The key of the first `Lock` among the effects. -/
def lockKey : List RuleEffect → Option String
  | [] => none
  | RuleEffect.Lock key :: _ => some key
  | _ :: rest => lockKey rest

/-- The effect is a `Lock` or an `Unlock`. -/
def RuleEffect.isLocking : RuleEffect → Bool
  | .Lock _ => true
  | .Unlock _ => true
  | _ => false

/-- The lock discipline of one run: no locking at all, or one `Lock` of `key` first, one
`Unlock` of the same key last, and no locking in between. -/
def LockedOnce (effects : List RuleEffect) : Prop :=
  (∀ e, e ∈ effects → e.isLocking = false) ∨
    ∃ key mid, effects = RuleEffect.Lock key :: mid ++ [RuleEffect.Unlock key] ∧
      ∀ e, e ∈ mid → e.isLocking = false

/-- An environment for examples: "10.0.0.1" is the only address, "10.0.0.0/24" the only
CIDR block, and neither `AsPatch` nor `d.Set` fails. -/
def exampleEnv : RuleEnv :=
  { IsSecurityGroupAddress := fun s => s == "10.0.0.1"
    IsSecurityGroupCIDR := fun s => s == "10.0.0.0/24"
    AsPatchError := none
    SetError := none }

/-- A client for examples: the security group "sg-1" is the only one that exists, a
created rule is a tcp/udp rule with id "rule-1", and no other call fails. -/
def exampleRuleClient : RuleClient :=
  { GetSecurityGroup := fun id =>
      if id == "sg-1" then ⟨some ⟨id, "crn:" ++ id⟩, some ⟨200⟩, none⟩
      else ⟨none, some ⟨404⟩, some "not found"⟩
    GetSecurityGroupWithContext := fun _ id => .ok ⟨id, "crn:" ++ id⟩
    CreateSecurityGroupRuleWithContext := fun _ _ _ => .ok ⟨RuleKind.ProtocolTcpudp, "rule-1"⟩
    UpdateSecurityGroupRuleWithContext := fun _ _ => none
    GetSecurityGroupRuleWithContext := fun _ _ id => .ok ⟨RuleKind.ProtocolTcpudp, id⟩
    DeleteSecurityGroupRuleWithContext := fun _ _ _ => none }

/-- The configuration of examples: the provider has a client, see `exampleRuleClient`. -/
def exampleRuleMeta : RuleMeta := ⟨.ok exampleRuleClient, exampleEnv⟩

/-- A rule configuration for examples: an inbound rule of group "sg-1" without remote,
local or protocol block. -/
def exampleRule (id : String) : RuleData :=
  { Id := id, group := "sg-1", direction := "inbound", ip_version := some "ipv4",
    remote := none, local_ := none, icmp := none, tcp := none, udp := none }

/-! ## Properties of rule ids and rule configurations -/

/-- The spec's notion of a well-formed Terraform id: `s` consists of exactly two
"."-separated segments, `a` before the single "." and `b` after it, and neither segment
is empty. -/
def WellFormedTerraformID (s a b : String) : Prop :=
  s = a ++ "." ++ b ∧ '.' ∉ a.data ∧ '.' ∉ b.data ∧ a ≠ "" ∧ b ≠ ""

/-- The remote of a configuration passes the check of the parser: there is none, or it is
empty, an address or a CIDR block, or the lookup of the security group it names returns a
group and no error. -/
def RemoteAccepted (env : RuleEnv) (d : RuleData) (sess : RuleClient) : Prop :=
  ∀ r, d.remote = some r → r = "" ∨ env.IsSecurityGroupAddress r = true ∨
    env.IsSecurityGroupCIDR r = true ∨
    ((sess.GetSecurityGroup r).err = none ∧ (sess.GetSecurityGroup r).sg ≠ none)

/-- The protocol that a configuration with at most one protocol block asks for. -/
def configuredProtocol (d : RuleData) : String :=
  if d.icmp.isSome then "icmp"
  else if d.tcp.isSome then "tcp"
  else if d.udp.isSome then "udp"
  else "all"

/-! ## The polling helper always returns -/

theorem selectWake_elapsed_lt {ctx : Context} {timeout now d : Nat}
    (h : selectWake ctx timeout now d = Wake.elapsed) : now + d < timeout := by
  unfold selectWake at h
  split at h
  · split_ifs at h
    omega
  · split_ifs at h
    omega

theorem selectWake_background (timeout now d : Nat) :
    selectWake Context.Background timeout now d
      = if timeout ≤ now + d then Wake.timeout else Wake.elapsed := rfl

theorem nextWait_pos (conf : StateChangeConf) {wait : Nat} (occ : Nat) (h : 1 ≤ wait) :
    1 ≤ nextWait conf wait occ := by
  unfold nextWait
  simp only
  split_ifs <;> omega

theorem pollStep_next {conf : StateChangeConf} {ctx : Context} {s s' : LoopState}
    (h : pollStep conf ctx s = Step.next s') :
    s'.now = s.now + s.wait ∧ s.now + s.wait < conf.Timeout ∧ 1 ≤ s'.wait := by
  have hw : 1 ≤ (if s.wait == 0 then 100 else s.wait) := by
    split_ifs with h0
    · omega
    · have : s.wait ≠ 0 := by simpa using h0
      omega
  unfold pollStep at h
  simp only at h
  generalize (if s.wait == 0 then 100 else s.wait) = w at h hw
  split at h
  · cases h
  · cases h
  · rename_i hel
    have hlt := selectWake_elapsed_lt hel
    repeat' split at h
    all_goals first
      | (cases h; done)
      | (cases h; exact ⟨rfl, hlt, hw⟩)
      | (cases h; exact ⟨rfl, hlt, nextWait_pos conf _ hw⟩)

theorem pollLoop_isSome (conf : StateChangeConf) (ctx : Context) :
    ∀ (fuel : Nat) (s : LoopState), 1 ≤ s.wait → conf.Timeout ≤ s.now + s.wait + fuel →
      (pollLoop conf ctx (fuel + 1) s).isSome := by
  intro fuel
  induction fuel with
  | zero =>
    intro s _ hT
    unfold pollLoop
    cases hstep : pollStep conf ctx s with
    | ret out => simp
    | next s' =>
      have := (pollStep_next hstep).2.1
      omega
  | succ fuel ih =>
    intro s _ hT
    unfold pollLoop
    cases hstep : pollStep conf ctx s with
    | ret out => simp
    | next s' =>
      obtain ⟨h1, _, h3⟩ := pollStep_next hstep
      exact ih s' h3 (by omega)

theorem WaitForStateContext_isSome (conf : StateChangeConf) (ctx : Context) :
    (conf.WaitForStateContext ctx).isSome := by
  unfold StateChangeConf.WaitForStateContext
  split
  · simp
  · simp
  · show (pollLoop conf ctx (conf.Timeout + 1 + 1) _).isSome
    unfold pollLoop
    cases hstep : pollStep conf ctx ⟨0, conf.Delay, 0, 0, 0, {}, sleepEvent conf.Delay⟩ with
    | ret out => simp
    | next s' =>
      obtain ⟨h1, _, h3⟩ := pollStep_next hstep
      exact pollLoop_isSome conf ctx conf.Timeout s' h3 (by omega)


/-! ## Polls ten seconds apart -/

theorem scanTarget_not_mem (cto : Nat) (st : String) :
    ∀ (target : List String) (found : Bool) (occ : Nat), st ∉ target →
      scanTarget cto st target found occ = (found, occ, false) := by
  intro target
  induction target with
  | nil => intro found occ _; rfl
  | cons a rest ih =>
    intro found occ h
    have ha : st ≠ a := fun e => h (e ▸ List.mem_cons_self _ _)
    have hr : st ∉ rest := fun e => h (List.mem_cons_of_mem _ e)
    simp [scanTarget, ha, ih found occ hr]

theorem scanTarget_mem (st : String) :
    ∀ (target : List String) (found : Bool), st ∈ target →
      scanTarget 1 st target found 0 = (true, 1, true) := by
  intro target
  induction target with
  | nil => intro found h; cases h
  | cons a rest ih =>
    intro found h
    by_cases ha : st = a
    · simp [scanTarget, ha]
    · have hr : st ∈ rest := by
        rcases List.mem_cons.mp h with h | h
        · exact absurd h ha
        · exact h
      simp [scanTarget, ha, ih found hr]

theorem nextWait_ten {conf : StateChangeConf} (hc : TenSeconds conf) {wait : Nat}
    (hw : wait = 0 ∨ wait = 10000) :
    nextWait conf (if wait == 0 then 100 else wait) 0 = 10000 := by
  obtain ⟨_, hM, hP, _, _⟩ := hc
  unfold nextWait
  rcases hw with hw | hw <;> simp [hw, hM, hP]

theorem ready_trace {k : Nat} {s : LoopState} (h : Ready k s) :
    s.trace ++ sleepEvent s.wait ++ [Event.query s.polls] = pollTrace (k + 1) := by
  obtain ⟨hp, _, _, _, ht⟩ := h
  rw [ht, hp]
  simp [pollTrace]

theorem ready_wake {conf : StateChangeConf} {k : Nat} {s : LoopState} (h : Ready k s)
    (hT : 10000 * (k + 1) < conf.Timeout) :
    selectWake Context.Background conf.Timeout s.now s.wait = Wake.elapsed := by
  rw [selectWake_background, h.2.1]
  simp [hT]

/-- A pending answer keeps the wait going: the next poll is ten seconds later. -/
theorem pollStep_pending {conf : StateChangeConf} (hc : TenSeconds conf) {k : Nat}
    {s : LoopState} (h : Ready k s) (hT : 10000 * (k + 1) < conf.Timeout)
    {x : Option LoadBalancer} {st : String}
    (hr : conf.Refresh k = (Iface.ptr x, st, none))
    (hp : st ∈ conf.Pending) (ht : st ∉ conf.Target) :
    pollStep conf Context.Background s
      = Step.next ⟨k + 1, 10000 * (k + 1), 10000, 0, 0, ⟨Iface.ptr x, st, none, false⟩,
          pollTrace (k + 1)⟩ := by
  have hw := ready_wake h hT
  have htr := ready_trace h
  have hnw : nextWait conf (if s.wait = 0 then 100 else s.wait) 0 = 10000 := by
    simpa using nextWait_ten hc h.2.2.1
  obtain ⟨hpolls, hnow, _, hocc, _⟩ := h
  obtain ⟨_, _, _, hN, hC⟩ := hc
  unfold pollStep
  simp only [hw, hpolls, hr, hocc, hC, hN]
  rw [hpolls] at htr
  simp [htr, hnow, scanTarget_not_mem _ _ _ _ _ ht, hp, hnw]

/-- A target answer ends the wait with success. -/
theorem pollStep_target {conf : StateChangeConf} (hc : TenSeconds conf) {k : Nat}
    {s : LoopState} (h : Ready k s) (hT : 10000 * (k + 1) < conf.Timeout)
    {x : Option LoadBalancer} {st : String}
    (hr : conf.Refresh k = (Iface.ptr x, st, none)) (ht : st ∈ conf.Target) :
    pollStep conf Context.Background s
      = Step.ret ⟨Iface.ptr x, none, pollTrace (k + 1)⟩ := by
  have hw := ready_wake h hT
  have htr := ready_trace h
  obtain ⟨hpolls, hnow, _, hocc, _⟩ := h
  obtain ⟨_, _, _, hN, hC⟩ := hc
  unfold pollStep
  simp only [hw, hpolls, hr, hocc, hC, hN]
  rw [hpolls] at htr
  simp [htr, scanTarget_mem _ _ _ ht]

/-- A failed query ends the wait with the query's error. -/
theorem pollStep_error {conf : StateChangeConf} {k : Nat}
    {s : LoopState} (h : Ready k s) (hT : 10000 * (k + 1) < conf.Timeout)
    {res : Iface} {st : String} {e : GoError}
    (hr : conf.Refresh k = (res, st, some e)) :
    pollStep conf Context.Background s = Step.ret ⟨res, some e, pollTrace (k + 1)⟩ := by
  have hw := ready_wake h hT
  have htr := ready_trace h
  obtain ⟨hpolls, hnow, _, hocc, _⟩ := h
  unfold pollStep
  simp only [hw, hpolls, hr]
  rw [hpolls] at htr
  simp [htr]

/-- The timeout ends the wait with a timeout error that carries the last state seen. -/
theorem pollStep_timeout {conf : StateChangeConf} {k : Nat}
    {s : LoopState} (h : Ready k s) (hT : conf.Timeout ≤ 10000 * (k + 1)) :
    pollStep conf Context.Background s
      = Step.ret ⟨Iface.nil, some (timeoutError conf s.lastResult), s.trace⟩ := by
  unfold pollStep
  simp only
  rw [selectWake_background, h.2.1]
  simp [hT]

theorem ready_succ (k : Nat) (r : Result) :
    Ready (k + 1) ⟨k + 1, 10000 * (k + 1), 10000, 0, 0, r, pollTrace (k + 1)⟩ := by
  refine ⟨rfl, ?_, Or.inr rfl, rfl, ?_⟩
  · show 10000 * (k + 1) + 10000 = 10000 * (k + 1 + 1)
    omega
  · simp [sleepEvent]

theorem ready_zero (r : Result) : Ready 0 ⟨0, 10000, 0, 0, 0, r, [Event.sleep 10000]⟩ := by
  refine ⟨rfl, rfl, Or.inl rfl, rfl, ?_⟩
  simp [sleepEvent, pollTrace]


/-! ## Runs of the polling loop -/

/-- After `n` pending answers the loop stands before poll `k + n`. -/
theorem pollLoop_pending_run {conf : StateChangeConf} (hc : TenSeconds conf) :
    ∀ (n k fuel : Nat) (s : LoopState), Ready k s → s.lastResult.Error = none →
      (∀ j, k ≤ j → j < k + n → PendingAt conf j) → 10000 * (k + n) < conf.Timeout →
      ∃ s', Ready (k + n) s' ∧ s'.lastResult.Error = none ∧
        pollLoop conf Context.Background (fuel + n) s
          = pollLoop conf Context.Background fuel s' := by
  intro n
  induction n with
  | zero => intro k fuel s h he _ _; exact ⟨s, h, he, rfl⟩
  | succ n ih =>
    intro k fuel s h _ hp hT
    obtain ⟨x, st, hr, hpen, htar⟩ := hp k (le_refl k) (by omega)
    have hstep := pollStep_pending hc h (by omega) hr hpen htar
    obtain ⟨s', hs', he', hrun⟩ := ih (k + 1) fuel _ (ready_succ k ⟨Iface.ptr x, st, none, false⟩)
      rfl (fun j h1 h2 => hp j (by omega) (by omega)) (by
        have : k + 1 + n = k + (n + 1) := by omega
        rw [this]; exact hT)
    refine ⟨s', ?_, he', ?_⟩
    · have : k + 1 + n = k + (n + 1) := by omega
      rw [← this]; exact hs'
    · rw [← hrun]
      show pollLoop conf Context.Background (fuel + n + 1) s = _
      rw [pollLoop, hstep]

/-- The state in which the loop starts, after the initial delay. -/
theorem waitForState_start {conf : StateChangeConf} (hc : TenSeconds conf)
    (hT : 10000 < conf.Timeout) :
    conf.WaitForState = pollLoop conf Context.Background (conf.Timeout + 2)
      ⟨0, 10000, 0, 0, 0, {}, [Event.sleep 10000]⟩ := by
  unfold StateChangeConf.WaitForState StateChangeConf.WaitForStateContext
  rw [selectWake_background, hc.1]
  have : ¬ conf.Timeout ≤ 0 + 10000 := by omega
  simp [this, sleepEvent]

/-- Pending answers up to poll `n` and a target answer at poll `n`, within the timeout:
the wait returns the result of that poll with a nil error after `n + 1` polls. -/
theorem waitForState_target {conf : StateChangeConf} (hc : TenSeconds conf) (n : Nat)
    (hp : ∀ j, j < n → PendingAt conf j) {x : Option LoadBalancer} {st : String}
    (hr : conf.Refresh n = (Iface.ptr x, st, none)) (ht : st ∈ conf.Target)
    (hT : 10000 * (n + 1) < conf.Timeout) :
    conf.WaitForState = some ⟨Iface.ptr x, none, pollTrace (n + 1)⟩ := by
  rw [waitForState_start hc (by omega)]
  obtain ⟨s', hs', _, hrun⟩ := pollLoop_pending_run hc n 0 (conf.Timeout + 1 - n + 1) _
    (ready_zero {}) rfl (fun j _ h2 => hp j (by omega)) (by omega)
  have hf : conf.Timeout + 2 = conf.Timeout + 1 - n + 1 + n := by omega
  rw [hf, hrun, pollLoop]
  rw [Nat.zero_add] at hs'
  rw [pollStep_target hc hs' hT hr ht]

/-- Pending answers up to poll `n` and a failed query at poll `n`, within the timeout: the
wait returns the error of that query after `n + 1` polls. -/
theorem waitForState_error {conf : StateChangeConf} (hc : TenSeconds conf) (n : Nat)
    (hp : ∀ j, j < n → PendingAt conf j) {res : Iface} {st : String} {e : GoError}
    (hr : conf.Refresh n = (res, st, some e))
    (hT : 10000 * (n + 1) < conf.Timeout) :
    conf.WaitForState = some ⟨res, some e, pollTrace (n + 1)⟩ := by
  rw [waitForState_start hc (by omega)]
  obtain ⟨s', hs', _, hrun⟩ := pollLoop_pending_run hc n 0 (conf.Timeout + 1 - n + 1) _
    (ready_zero {}) rfl (fun j _ h2 => hp j (by omega)) (by omega)
  have hf : conf.Timeout + 2 = conf.Timeout + 1 - n + 1 + n := by omega
  rw [hf, hrun, pollLoop]
  rw [Nat.zero_add] at hs'
  rw [pollStep_error hs' hT hr]

/-- With the same pending label at every poll, the loop ends in the timeout error at the
first timer that reaches the timeout: the last state is that label and the trace is that
of the polls made before. -/
theorem pollLoop_timeout_label {conf : StateChangeConf} (hc : TenSeconds conf)
    {label : String} (hp : ∀ j, ∃ x, conf.Refresh j = (Iface.ptr x, label, none))
    (hpen : label ∈ conf.Pending) (htar : label ∉ conf.Target) :
    ∀ (fuel k : Nat) (x : Option LoadBalancer), 10000 * (k + 1) < conf.Timeout →
      conf.Timeout ≤ 10000 * (k + 2) + 10000 * fuel →
      pollLoop conf Context.Background (fuel + 1)
          ⟨k + 1, 10000 * (k + 1), 10000, 0, 0, ⟨Iface.ptr x, label, none, false⟩,
            pollTrace (k + 1)⟩
        = some ⟨Iface.nil,
            some (GoError.TimeoutError none label conf.Timeout conf.Target),
            pollTrace ((conf.Timeout - 1) / 10000)⟩ := by
  intro fuel
  induction fuel with
  | zero =>
    intro k x hlo hhi
    have hq : (conf.Timeout - 1) / 10000 = k + 1 := by omega
    rw [pollLoop, pollStep_timeout (ready_succ k _) (by omega), hq]
    simp [timeoutError]
  | succ fuel ih =>
    intro k x hlo hhi
    by_cases hk : conf.Timeout ≤ 10000 * (k + 2)
    · have hq : (conf.Timeout - 1) / 10000 = k + 1 := by omega
      rw [pollLoop, pollStep_timeout (ready_succ k _) (by omega), hq]
      simp [timeoutError]
    · obtain ⟨x', hr⟩ := hp (k + 1)
      rw [pollLoop, pollStep_pending hc (ready_succ k _) (by omega) hr hpen htar]
      exact ih (k + 1) x' (by omega) (by omega)

/-- With the same pending label at every poll, the wait ends in the timeout error,
whatever the timeout: it has made the polls that begin before the timeout, one every ten
seconds, and the last state is the pending label (none if no poll was made). -/
theorem waitForState_timeout_label {conf : StateChangeConf} (hc : TenSeconds conf)
    {label : String} (hp : ∀ j, ∃ x, conf.Refresh j = (Iface.ptr x, label, none))
    (hpen : label ∈ conf.Pending) (htar : label ∉ conf.Target) :
    conf.WaitForState
      = some ⟨Iface.nil,
          some (GoError.TimeoutError none (if conf.Timeout ≤ 10000 then "" else label)
            conf.Timeout conf.Target),
          pollTrace ((conf.Timeout - 1) / 10000)⟩ := by
  by_cases hT : 10000 < conf.Timeout
  · obtain ⟨x, hr⟩ := hp 0
    have hn : ¬ conf.Timeout ≤ 10000 := by omega
    rw [waitForState_start hc hT, pollLoop,
      pollStep_pending hc (ready_zero {}) (by omega) hr hpen htar, if_neg hn]
    exact pollLoop_timeout_label hc hp hpen htar conf.Timeout 0 x (by omega) (by omega)
  · have hle : conf.Timeout ≤ 10000 := by omega
    have hq : (conf.Timeout - 1) / 10000 = 0 := by omega
    unfold StateChangeConf.WaitForState StateChangeConf.WaitForStateContext
    rw [selectWake_background, hc.1, hq, if_pos hle]
    have : conf.Timeout ≤ 0 + 10000 := by omega
    simp [this, timeoutError, pollTrace]

/-! ## The two waits -/

theorem available_tenSeconds (sess : VpcV1) (lbId : String) (timeout : Nat) :
    TenSeconds (isWaitForLBAvailable.stateConf sess lbId timeout) :=
  ⟨rfl, rfl, rfl, rfl, rfl⟩

theorem deleted_tenSeconds (lbc : VpcV1) (id : String) (timeout : Nat) :
    TenSeconds (isWaitForLBDeleted.stateConf lbc id timeout) :=
  ⟨rfl, rfl, rfl, rfl, rfl⟩

theorem isLBRefreshFunc_pending {sess : VpcV1} {lbId : String} {k : Nat}
    {lb : LoadBalancer} {r : DetailedResponse} (hq : sess.GetLoadBalancer k lbId = .ok lb r)
    (ha : lb.ProvisioningStatus ≠ "active") (hf : lb.ProvisioningStatus ≠ "failed") :
    isLBRefreshFunc sess lbId k = (Iface.ptr (some lb), isLBProvisioning, none) := by
  simp [isLBRefreshFunc, hq, ha, hf]

theorem isLBRefreshFunc_done {sess : VpcV1} {lbId : String} {k : Nat}
    {lb : LoadBalancer} {r : DetailedResponse} (hq : sess.GetLoadBalancer k lbId = .ok lb r)
    (h : lb.ProvisioningStatus = "active" ∨ lb.ProvisioningStatus = "failed") :
    isLBRefreshFunc sess lbId k = (Iface.ptr (some lb), isLBProvisioningDone, none) := by
  rcases h with h | h <;> simp [isLBRefreshFunc, hq, h]

theorem isLBRefreshFunc_fail {sess : VpcV1} {lbId : String} {k : Nat}
    {response : Option DetailedResponse} {err : String}
    (hq : sess.GetLoadBalancer k lbId = .fail response err) :
    isLBRefreshFunc sess lbId k = (Iface.nil, "", some (GoError.errorString
      ("[ERROR] Error Getting Load Balancer : " ++ err ++ "\n" ++ fmtResponse response))) := by
  simp [isLBRefreshFunc, hq]

theorem isLBDeleteRefreshFunc_present {lbc : VpcV1} {id : String} {k : Nat}
    {lb : LoadBalancer} {r : DetailedResponse} (hq : lbc.GetLoadBalancer k id = .ok lb r) :
    isLBDeleteRefreshFunc lbc id k = (Iface.ptr (some lb), isLBDeleting, none) := by
  simp [isLBDeleteRefreshFunc, hq]

theorem isLBDeleteRefreshFunc_notFound {lbc : VpcV1} {id : String} {k : Nat} {err : String}
    (hq : lbc.GetLoadBalancer k id = .fail (some ⟨404⟩) err) :
    isLBDeleteRefreshFunc lbc id k = (Iface.ptr none, isLBDeleted, none) := by
  simp [isLBDeleteRefreshFunc, hq]

theorem isLBDeleteRefreshFunc_fail {lbc : VpcV1} {id : String} {k : Nat}
    {response : Option DetailedResponse} {err : String}
    (hq : lbc.GetLoadBalancer k id = .fail response err)
    (hr : ∀ r, response = some r → r.StatusCode ≠ 404) :
    isLBDeleteRefreshFunc lbc id k = (Iface.nil, "failed", some (GoError.errorString
      ("[ERROR] The vpc load balancer " ++ id ++ " failed to delete: " ++ err ++ "\n"
        ++ fmtResponse response))) := by
  cases response with
  | none => simp [isLBDeleteRefreshFunc, hq]
  | some r =>
    have := hr r rfl
    simp [isLBDeleteRefreshFunc, hq, this]

theorem available_pendingAt {sess : VpcV1} {lbId : String} {timeout k : Nat}
    (h : StillProvisioning sess lbId k) :
    PendingAt (isWaitForLBAvailable.stateConf sess lbId timeout) k := by
  obtain ⟨lb, r, hq, ha, hf⟩ := h
  refine ⟨some lb, isLBProvisioning, isLBRefreshFunc_pending hq ha hf, ?_, ?_⟩
  · show isLBProvisioning ∈ ["retry", isLBProvisioning, "update_pending"]
    decide
  · show isLBProvisioning ∉ [isLBProvisioningDone, ""]
    decide

theorem deleted_pendingAt {lbc : VpcV1} {id : String} {timeout k : Nat}
    (h : StillPresent lbc id k) :
    PendingAt (isWaitForLBDeleted.stateConf lbc id timeout) k := by
  obtain ⟨lb, r, hq⟩ := h
  refine ⟨some lb, isLBDeleting, isLBDeleteRefreshFunc_present hq, ?_, ?_⟩
  · show isLBDeleting ∈ ["retry", isLBDeleting]
    decide
  · show isLBDeleting ∉ [isLBDeleted, "failed"]
    decide

/-- The availability wait ends with success at the first poll whose provisioning status is
"active" or "failed". -/
theorem available_wait_done {sess : VpcV1} {lbId : String} {timeout : Nat} (n : Nat)
    (hp : ∀ j, j < n → StillProvisioning sess lbId j)
    {lb : LoadBalancer} {r : DetailedResponse} (hq : sess.GetLoadBalancer n lbId = .ok lb r)
    (h : lb.ProvisioningStatus = "active" ∨ lb.ProvisioningStatus = "failed")
    (hT : 10000 * (n + 1) < timeout) :
    isWaitForLBAvailable sess lbId timeout
      = some ⟨Iface.ptr (some lb), none, pollTrace (n + 1)⟩ :=
  waitForState_target (available_tenSeconds sess lbId timeout) n
    (fun j hj => available_pendingAt (hp j hj)) (isLBRefreshFunc_done hq h)
    (show isLBProvisioningDone ∈ [isLBProvisioningDone, ""] by decide) hT

theorem countQueries_pollTrace (n : Nat) : countQueries (pollTrace n) = n := by
  induction n with
  | zero => rfl
  | succ n ih =>
    unfold countQueries at ih ⊢
    simp [pollTrace, List.countP_append, List.countP_cons, ih]

theorem countSleeps_pollTrace (n : Nat) : countSleeps (pollTrace n) = n := by
  induction n with
  | zero => rfl
  | succ n ih =>
    unfold countSleeps at ih ⊢
    simp [pollTrace, List.countP_append, List.countP_cons, ih]


theorem pollStep_refresh_error {conf : StateChangeConf} {ctx : Context} {s : LoopState}
    {res : Iface} {st : String} {e : GoError}
    (hw : selectWake ctx conf.Timeout s.now s.wait = Wake.elapsed)
    (hr : conf.Refresh s.polls = (res, st, some e)) :
    pollStep conf ctx s
      = Step.ret ⟨res, some e, s.trace ++ sleepEvent s.wait ++ [Event.query s.polls]⟩ := by
  unfold pollStep
  simp only [hw, hr]
  simp

/-! ## The claims about the waits -/

/-- C1 (as stated, refuted): for the query sequence "provisioning", "failed" the
availability wait does not return an error: it ends with success after two queries. -/
theorem failed_status_ends_wait_without_error :
    ∃ out, isWaitForLBAvailable (scriptedStatuses ["provisioning", "failed"] "provisioning")
        "lb-123" 600000 = some out ∧
      out.err = none ∧
      out.value = Iface.ptr (some ⟨"lb-123", "crn:lb-123", "failed"⟩) ∧
      countQueries out.trace = 2 :=
  ⟨⟨Iface.ptr (some ⟨"lb-123", "crn:lb-123", "failed"⟩), none, pollTrace 2⟩,
    by decide, rfl, rfl, by decide⟩

/-- C1 (amended): a load balancer whose provisioning status is "failed" is classified by
`isLBRefreshFunc` with the target label "done" and a nil error, as an "active" one is, so
the availability wait ends with success (a nil error and the load balancer) at the first
poll that reports "failed", after pending polls only and within the timeout. -/
theorem failed_status_is_done (sess : VpcV1) (lbId : String) (timeout n : Nat)
    (lb : LoadBalancer) (r : DetailedResponse)
    (hp : ∀ j, j < n → StillProvisioning sess lbId j)
    (hq : sess.GetLoadBalancer n lbId = .ok lb r)
    (hf : lb.ProvisioningStatus = "failed")
    (hT : 10000 * (n + 1) < timeout) :
    isLBRefreshFunc sess lbId n = (Iface.ptr (some lb), isLBProvisioningDone, none) ∧
      isLBProvisioningDone ∈ (isWaitForLBAvailable.stateConf sess lbId timeout).Target ∧
      isWaitForLBAvailable sess lbId timeout
        = some ⟨Iface.ptr (some lb), none, pollTrace (n + 1)⟩ :=
  ⟨isLBRefreshFunc_done hq (Or.inr hf),
    (show isLBProvisioningDone ∈ [isLBProvisioningDone, ""] by decide),
    available_wait_done n hp hq (Or.inr hf) hT⟩

/-- An instance of `failed_status_is_done`: two pending polls, then "failed". -/
theorem failed_status_is_done_witness :
    isWaitForLBAvailable (scriptedStatuses ["update_pending", "provisioning", "failed"] "active")
      "lb-7" 45000
      = some ⟨Iface.ptr (some ⟨"lb-7", "crn:lb-7", "failed"⟩), none, pollTrace 3⟩ :=
  (failed_status_is_done (scriptedStatuses ["update_pending", "provisioning", "failed"] "active")
    "lb-7" 45000 2 ⟨"lb-7", "crn:lb-7", "failed"⟩ ⟨200⟩
    (fun j hj => by
      have hj' : j = 0 ∨ j = 1 := by omega
      rcases hj' with h | h <;> subst h <;> exact ⟨_, _, rfl, by decide, by decide⟩)
    rfl rfl (by decide)).2.2

/-- C2: in the delete wait a `GetLoadBalancer` failure with status 404 makes
`isLBDeleteRefreshFunc` return the label "done" with a nil error, "done" is a target state
of `isWaitForLBDeleted`, and the wait ends with success on that query, however many polls
found the load balancer still present before. -/
theorem not_found_ends_delete_wait_with_success (lbc : VpcV1) (id : String)
    (timeout n : Nat) (err : String)
    (hp : ∀ j, j < n → StillPresent lbc id j)
    (hq : lbc.GetLoadBalancer n id = .fail (some ⟨404⟩) err)
    (hT : 10000 * (n + 1) < timeout) :
    isLBDeleteRefreshFunc lbc id n = (Iface.ptr none, isLBDeleted, none) ∧
      isLBDeleted ∈ (isWaitForLBDeleted.stateConf lbc id timeout).Target ∧
      isWaitForLBDeleted lbc id timeout = some ⟨Iface.ptr none, none, pollTrace (n + 1)⟩ :=
  ⟨isLBDeleteRefreshFunc_notFound hq,
    (show isLBDeleted ∈ [isLBDeleted, "failed"] by decide),
    waitForState_target (deleted_tenSeconds lbc id timeout) n
      (fun j hj => deleted_pendingAt (hp j hj)) (isLBDeleteRefreshFunc_notFound hq)
      (show isLBDeleted ∈ [isLBDeleted, "failed"] by decide) hT⟩

/-- An instance of `not_found_ends_delete_wait_with_success`: the load balancer is found
twice, then the query fails with 404. -/
theorem not_found_ends_delete_wait_with_success_witness :
    isWaitForLBDeleted
      { GetLoadBalancer := fun k id =>
          if k < 2 then .ok ⟨id, "", "active"⟩ ⟨200⟩ else .fail (some ⟨404⟩) "not found" }
      "lb-123" 35000 = some ⟨Iface.ptr none, none, pollTrace 3⟩ :=
  (not_found_ends_delete_wait_with_success
    { GetLoadBalancer := fun k id =>
        if k < 2 then .ok ⟨id, "", "active"⟩ ⟨200⟩ else .fail (some ⟨404⟩) "not found" }
    "lb-123" 35000 2 "not found"
    (fun j hj => by
      have hj' : j = 0 ∨ j = 1 := by omega
      rcases hj' with h | h <;> subst h <;> exact ⟨_, _, rfl⟩)
    rfl (by decide)).2.2

/-- C3: a failed `GetLoadBalancer` query is fatal to the wait.  `isLBRefreshFunc` returns
a non-nil error for every failure (a 404 included) and `isLBDeleteRefreshFunc` for every
failure whose response is absent or has a status other than 404; the poll that made the
query returns that error; and neither function answers a failed query with a pending
label and a nil error. -/
theorem query_failure_is_fatal (sess : VpcV1) (lbId : String) (timeout : Nat)
    (ctx : Context) (s : LoopState) (response : Option DetailedResponse) (err : String)
    (hq : sess.GetLoadBalancer s.polls lbId = .fail response err)
    (hw : selectWake ctx timeout s.now s.wait = Wake.elapsed) :
    (∃ e out, (isLBRefreshFunc sess lbId s.polls).2.2 = some e ∧
        pollStep (isWaitForLBAvailable.stateConf sess lbId timeout) ctx s = Step.ret out ∧
        out.err = some e) ∧
      ((∀ r, response = some r → r.StatusCode ≠ 404) →
        ∃ e out, (isLBDeleteRefreshFunc sess lbId s.polls).2.2 = some e ∧
          pollStep (isWaitForLBDeleted.stateConf sess lbId timeout) ctx s = Step.ret out ∧
          out.err = some e) ∧
      ¬ ((isLBRefreshFunc sess lbId s.polls).2.2 = none ∧
          (isLBRefreshFunc sess lbId s.polls).2.1
            ∈ (isWaitForLBAvailable.stateConf sess lbId timeout).Pending) ∧
      ¬ ((isLBDeleteRefreshFunc sess lbId s.polls).2.2 = none ∧
          (isLBDeleteRefreshFunc sess lbId s.polls).2.1
            ∈ (isWaitForLBDeleted.stateConf sess lbId timeout).Pending) := by
  refine ⟨?_, ?_, ?_, ?_⟩
  · have hr := isLBRefreshFunc_fail hq
    exact ⟨_, _, by rw [hr], @pollStep_refresh_error
      (isWaitForLBAvailable.stateConf sess lbId timeout) ctx s _ _ _ hw hr, rfl⟩
  · intro h404
    have hr := isLBDeleteRefreshFunc_fail hq h404
    exact ⟨_, _, by rw [hr], @pollStep_refresh_error
      (isWaitForLBDeleted.stateConf sess lbId timeout) ctx s _ _ _ hw hr, rfl⟩
  · rw [isLBRefreshFunc_fail hq]
    simp
  · by_cases h404 : ∀ r, response = some r → r.StatusCode ≠ 404
    · rw [isLBDeleteRefreshFunc_fail hq h404]
      simp
    · push_neg at h404
      obtain ⟨r, hr, hc⟩ := h404
      have hq' : sess.GetLoadBalancer s.polls lbId = .fail (some ⟨404⟩) err := by
        rw [hq, hr, ← hc]
      rw [isLBDeleteRefreshFunc_notFound hq']
      intro h
      have : isLBDeleted ∈ ["retry", isLBDeleting] := h.2
      revert this
      decide

/-- An instance of `query_failure_is_fatal`: the first query of the availability wait
fails with 404. -/
theorem query_failure_is_fatal_witness :
    (∃ e out,
      (isLBRefreshFunc { GetLoadBalancer := fun _ _ => .fail (some ⟨404⟩) "not found" }
        "lb-123" 0).2.2 = some e ∧
      pollStep (isWaitForLBAvailable.stateConf
        { GetLoadBalancer := fun _ _ => .fail (some ⟨404⟩) "not found" } "lb-123" 600000)
        Context.Background ⟨0, 10000, 0, 0, 0, {}, [Event.sleep 10000]⟩ = Step.ret out ∧
      out.err = some e) :=
  (query_failure_is_fatal { GetLoadBalancer := fun _ _ => .fail (some ⟨404⟩) "not found" }
    "lb-123" 600000 Context.Background ⟨0, 10000, 0, 0, 0, {}, [Event.sleep 10000]⟩
    (some ⟨404⟩) "not found" rfl (by decide)).1


/-- C5 (as stated, refuted): with "active" at the first query the availability wait
returns success after one query, and it has slept once (the ten seconds of `Delay`), not
`1 - 1 = 0` times. -/
theorem first_query_is_preceded_by_a_sleep :
    ∃ out, isWaitForLBAvailable (scriptedStatuses ["active"] "provisioning") "lb-123" 600000
        = some out ∧
      out.err = none ∧ out.trace = [Event.sleep 10000, Event.query 0] ∧
      countQueries out.trace = 1 ∧ countSleeps out.trace ≠ 1 - 1 :=
  ⟨⟨Iface.ptr (some ⟨"lb-123", "crn:lb-123", "active"⟩), none,
      [Event.sleep 10000, Event.query 0]⟩, by decide, rfl, rfl, by decide, by decide⟩

/-- C5 (amended): for every load balancer id and every sequence of successful
`GetLoadBalancer` results whose first `N - 1` provisioning statuses are pending and whose
`N`-th is "active", with `10 N` seconds below the timeout, `isWaitForLBAvailable` returns
success after exactly `N` queries and `N` sleeps of ten seconds, one before each query:
the initial `Delay` and `N - 1` sleeps between consecutive queries (here `N = n + 1`). -/
theorem success_after_N_queries (sess : VpcV1) (lbId : String) (timeout n : Nat)
    (lb : LoadBalancer) (r : DetailedResponse)
    (hp : ∀ j, j < n → StillProvisioning sess lbId j)
    (hq : sess.GetLoadBalancer n lbId = .ok lb r)
    (ha : lb.ProvisioningStatus = "active")
    (hT : 10000 * (n + 1) < timeout) :
    isWaitForLBAvailable sess lbId timeout
        = some ⟨Iface.ptr (some lb), none, pollTrace (n + 1)⟩ ∧
      countQueries (pollTrace (n + 1)) = n + 1 ∧
      countSleeps (pollTrace (n + 1)) = n + 1 ∧
      pollTrace (n + 1) = pollTrace n ++ [Event.sleep 10000, Event.query n] :=
  ⟨available_wait_done n hp hq (Or.inl ha) hT, countQueries_pollTrace _,
    countSleeps_pollTrace _, rfl⟩

/-- An instance of `success_after_N_queries`: the scenario "provisioning", "provisioning",
"active" ends with success after three queries, each preceded by a sleep. -/
theorem success_after_N_queries_witness :
    isWaitForLBAvailable
        (scriptedStatuses ["provisioning", "provisioning", "active"] "provisioning")
        "lb-123" 1000000
      = some ⟨Iface.ptr (some ⟨"lb-123", "crn:lb-123", "active"⟩), none,
          [Event.sleep 10000, Event.query 0, Event.sleep 10000, Event.query 1,
            Event.sleep 10000, Event.query 2]⟩ :=
  (success_after_N_queries
    (scriptedStatuses ["provisioning", "provisioning", "active"] "provisioning")
    "lb-123" 1000000 2 ⟨"lb-123", "crn:lb-123", "active"⟩ ⟨200⟩
    (fun j hj => by
      have hj' : j = 0 ∨ j = 1 := by omega
      rcases hj' with h | h <;> subst h <;> exact ⟨_, _, rfl, by decide, by decide⟩)
    rfl rfl (by decide)).1

/-- C7 (as stated, refuted): in the delete wait a backend-reported failure cannot be told
from "still pending".  A load balancer that stays present and reports "failed" at every
poll makes `isWaitForLBDeleted` return the same `TimeoutError`, after the same queries, as
one that stays present and reports "delete_pending". -/
theorem delete_wait_times_out_on_failed_status :
    isWaitForLBDeleted (scriptedStatuses [] "failed") "lb-123" 35000
        = some ⟨Iface.nil,
            some (GoError.TimeoutError none "deleting" 35000 ["done", "failed"]),
            [Event.sleep 10000, Event.query 0, Event.sleep 10000, Event.query 1,
              Event.sleep 10000, Event.query 2]⟩ ∧
      isWaitForLBDeleted (scriptedStatuses [] "delete_pending") "lb-123" 35000
        = isWaitForLBDeleted (scriptedStatuses [] "failed") "lb-123" 35000 := by
  decide

/-- C7 (amended): when the timeout elapses while every observed status is still pending,
both waits return a `TimeoutError` (with the pending label as last state, after the polls
that begin before the timeout, one every ten seconds).  A caller can tell it from the error
of a failed query, which is never a `TimeoutError`.  A backend-reported failure is told
from it in the availability wait only, where the status "failed" gets the target label and
no error; in the delete wait every load balancer that is still present gets the pending
label, whatever its status, so one that reports "failed" is covered by the hypothesis on
the delete wait and ends in the same `TimeoutError`. -/
theorem timeout_error_is_distinct_from_query_error (sess lbc : VpcV1) (lbId id : String)
    (timeout : Nat)
    (hA : ∀ k, StillProvisioning sess lbId k) (hD : ∀ k, StillPresent lbc id k) :
    isWaitForLBAvailable sess lbId timeout
        = some ⟨Iface.nil,
            some (GoError.TimeoutError none (if timeout ≤ 10000 then "" else isLBProvisioning)
              timeout [isLBProvisioningDone, ""]),
            pollTrace ((timeout - 1) / 10000)⟩ ∧
      isWaitForLBDeleted lbc id timeout
        = some ⟨Iface.nil,
            some (GoError.TimeoutError none (if timeout ≤ 10000 then "" else isLBDeleting)
              timeout [isLBDeleted, "failed"]),
            pollTrace ((timeout - 1) / 10000)⟩ ∧
      (∀ (lastError : Option String) (lastState : String) (t : Nat) (expected : List String),
        (GoError.TimeoutError lastError lastState t expected).isTimeout = true) ∧
      (∀ (s : VpcV1) (i : String) (k : Nat) (e : GoError),
        ((isLBRefreshFunc s i k).2.2 = some e ∨ (isLBDeleteRefreshFunc s i k).2.2 = some e) →
          e.isTimeout = false) ∧
      (∀ (s : VpcV1) (i : String) (k : Nat) (lb : LoadBalancer) (r : DetailedResponse),
        s.GetLoadBalancer k i = .ok lb r → lb.ProvisioningStatus = "failed" →
          isLBRefreshFunc s i k = (Iface.ptr (some lb), isLBProvisioningDone, none) ∧
          isLBDeleteRefreshFunc s i k = (Iface.ptr (some lb), isLBDeleting, none)) := by
  refine ⟨?_, ?_, fun _ _ _ _ => rfl, ?_, ?_⟩
  · exact @waitForState_timeout_label (isWaitForLBAvailable.stateConf sess lbId timeout)
      (available_tenSeconds sess lbId timeout) isLBProvisioning
      (fun j => by
        obtain ⟨lb, r, hq, ha, hf⟩ := hA j
        exact ⟨some lb, isLBRefreshFunc_pending hq ha hf⟩)
      (show isLBProvisioning ∈ ["retry", isLBProvisioning, "update_pending"] by decide)
      (show isLBProvisioning ∉ [isLBProvisioningDone, ""] by decide)
  · exact @waitForState_timeout_label (isWaitForLBDeleted.stateConf lbc id timeout)
      (deleted_tenSeconds lbc id timeout) isLBDeleting
      (fun j => by
        obtain ⟨lb, r, hq⟩ := hD j
        exact ⟨some lb, isLBDeleteRefreshFunc_present hq⟩)
      (show isLBDeleting ∈ ["retry", isLBDeleting] by decide)
      (show isLBDeleting ∉ [isLBDeleted, "failed"] by decide)
  · intro s i k e h
    rcases h with h | h
    · unfold isLBRefreshFunc at h
      split at h
      · cases h; rfl
      · split_ifs at h
    · unfold isLBDeleteRefreshFunc at h
      split at h
      · split_ifs at h
        cases h; rfl
      · cases h
  · intro s i k lb r hq hf
    exact ⟨isLBRefreshFunc_done hq (Or.inr hf), isLBDeleteRefreshFunc_present hq⟩

/-- An instance of `timeout_error_is_distinct_from_query_error`: a load balancer that stays
"provisioning", another that stays present and reports "failed", and a timeout of 35
seconds. -/
theorem timeout_error_is_distinct_from_query_error_witness :
    isWaitForLBAvailable (scriptedStatuses [] "provisioning") "lb-123" 35000
        = some ⟨Iface.nil,
            some (GoError.TimeoutError none "provisioning" 35000 ["done", ""]),
            pollTrace 3⟩ ∧
      isWaitForLBDeleted (scriptedStatuses [] "failed") "lb-123" 35000
        = some ⟨Iface.nil,
            some (GoError.TimeoutError none "deleting" 35000 ["done", "failed"]),
            pollTrace 3⟩ :=
  have h := timeout_error_is_distinct_from_query_error (scriptedStatuses [] "provisioning")
    (scriptedStatuses [] "failed") "lb-123" "lb-123" 35000
    (fun _ => ⟨⟨"lb-123", "crn:lb-123", "provisioning"⟩, ⟨200⟩, rfl, by decide, by decide⟩)
    (fun _ => ⟨⟨"lb-123", "crn:lb-123", "failed"⟩, ⟨200⟩, rfl⟩)
  ⟨h.1, h.2.1⟩

/-- C8: for both waits the `Pending` and `Target` lists are disjoint, and every label the
refresh function returns together with a nil error belongs to exactly one of the two
lists of the wait that uses it. -/
theorem refresh_labels_partition (sess : VpcV1) (lbId : String) (timeout k : Nat) :
    List.Disjoint (isWaitForLBAvailable.stateConf sess lbId timeout).Pending
        (isWaitForLBAvailable.stateConf sess lbId timeout).Target ∧
      List.Disjoint (isWaitForLBDeleted.stateConf sess lbId timeout).Pending
        (isWaitForLBDeleted.stateConf sess lbId timeout).Target ∧
      ((isLBRefreshFunc sess lbId k).2.2 = none →
        ((isLBRefreshFunc sess lbId k).2.1
            ∈ (isWaitForLBAvailable.stateConf sess lbId timeout).Pending ∧
          (isLBRefreshFunc sess lbId k).2.1
            ∉ (isWaitForLBAvailable.stateConf sess lbId timeout).Target) ∨
        ((isLBRefreshFunc sess lbId k).2.1
            ∉ (isWaitForLBAvailable.stateConf sess lbId timeout).Pending ∧
          (isLBRefreshFunc sess lbId k).2.1
            ∈ (isWaitForLBAvailable.stateConf sess lbId timeout).Target)) ∧
      ((isLBDeleteRefreshFunc sess lbId k).2.2 = none →
        ((isLBDeleteRefreshFunc sess lbId k).2.1
            ∈ (isWaitForLBDeleted.stateConf sess lbId timeout).Pending ∧
          (isLBDeleteRefreshFunc sess lbId k).2.1
            ∉ (isWaitForLBDeleted.stateConf sess lbId timeout).Target) ∨
        ((isLBDeleteRefreshFunc sess lbId k).2.1
            ∉ (isWaitForLBDeleted.stateConf sess lbId timeout).Pending ∧
          (isLBDeleteRefreshFunc sess lbId k).2.1
            ∈ (isWaitForLBDeleted.stateConf sess lbId timeout).Target)) := by
  have hpA : (isWaitForLBAvailable.stateConf sess lbId timeout).Pending
      = ["retry", "provisioning", "update_pending"] := rfl
  have htA : (isWaitForLBAvailable.stateConf sess lbId timeout).Target = ["done", ""] := rfl
  have hpD : (isWaitForLBDeleted.stateConf sess lbId timeout).Pending
      = ["retry", "deleting"] := rfl
  have htD : (isWaitForLBDeleted.stateConf sess lbId timeout).Target
      = ["done", "failed"] := rfl
  rw [hpA, htA, hpD, htD]
  have hdone : (isLBProvisioningDone ∉ ["retry", "provisioning", "update_pending"] ∧
      isLBProvisioningDone ∈ ["done", ""]) := by decide
  have hprov : (isLBProvisioning ∈ ["retry", "provisioning", "update_pending"] ∧
      isLBProvisioning ∉ ["done", ""]) := by decide
  have hdel : (isLBDeleted ∉ ["retry", "deleting"] ∧ isLBDeleted ∈ ["done", "failed"]) := by
    decide
  have hdeleting : (isLBDeleting ∈ ["retry", "deleting"] ∧
      isLBDeleting ∉ ["done", "failed"]) := by decide
  refine ⟨?_, ?_, ?_, ?_⟩
  · intro a h1 h2
    revert h2
    rcases List.mem_cons.mp h1 with rfl | h1
    · decide
    rcases List.mem_cons.mp h1 with rfl | h1
    · decide
    rcases List.mem_cons.mp h1 with rfl | h1
    · decide
    cases h1
  · intro a h1 h2
    revert h2
    rcases List.mem_cons.mp h1 with rfl | h1
    · decide
    rcases List.mem_cons.mp h1 with rfl | h1
    · decide
    cases h1
  · intro h
    cases hq : sess.GetLoadBalancer k lbId with
    | fail response err =>
      rw [isLBRefreshFunc_fail hq] at h
      cases h
    | ok lb r =>
      by_cases hs : lb.ProvisioningStatus = "active" ∨ lb.ProvisioningStatus = "failed"
      · rw [isLBRefreshFunc_done hq hs]
        exact Or.inr hdone
      · push_neg at hs
        rw [isLBRefreshFunc_pending hq hs.1 hs.2]
        exact Or.inl hprov
  · intro h
    cases hq : sess.GetLoadBalancer k lbId with
    | fail response err =>
      by_cases h404 : ∀ r, response = some r → r.StatusCode ≠ 404
      · rw [isLBDeleteRefreshFunc_fail hq h404] at h
        cases h
      · push_neg at h404
        obtain ⟨r, hr, hc⟩ := h404
        have hq' : sess.GetLoadBalancer k lbId = .fail (some ⟨404⟩) err := by
          rw [hq, hr, ← hc]
        rw [isLBDeleteRefreshFunc_notFound hq']
        exact Or.inr hdel
    | ok lb r =>
      rw [isLBDeleteRefreshFunc_present hq]
      exact Or.inl hdeleting


/-! ## The waits and the caller's context -/

theorem pollStep_not_canceled {conf : StateChangeConf} {s : LoopState} {out : WaitOutcome}
    (hR : ∀ k e, (conf.Refresh k).2.2 = some e → e ≠ GoError.Canceled)
    (h : pollStep conf Context.Background s = Step.ret out) :
    out.err ≠ some GoError.Canceled := by
  unfold pollStep at h
  by_cases hT : conf.Timeout ≤ s.now + s.wait
  · simp only [selectWake_background, hT, if_true] at h
    cases h
    simp [timeoutError]
  · simp only [selectWake_background, hT, if_false] at h
    repeat' split at h
    all_goals first
      | (cases h; done)
      | (cases h; simp; done)
      | (cases h; intro hc; exact hR _ _ hc rfl)

theorem pollLoop_not_canceled {conf : StateChangeConf}
    (hR : ∀ k e, (conf.Refresh k).2.2 = some e → e ≠ GoError.Canceled) :
    ∀ (fuel : Nat) (s : LoopState) (out : WaitOutcome),
      pollLoop conf Context.Background fuel s = some out →
      out.err ≠ some GoError.Canceled := by
  intro fuel
  induction fuel with
  | zero => intro s out h; cases h
  | succ fuel ih =>
    intro s out h
    unfold pollLoop at h
    cases hstep : pollStep conf Context.Background s with
    | ret o =>
      rw [hstep] at h
      cases h
      exact pollStep_not_canceled hR hstep
    | next s' =>
      rw [hstep] at h
      exact ih s' out h

theorem waitForState_not_canceled {conf : StateChangeConf}
    (hR : ∀ k e, (conf.Refresh k).2.2 = some e → e ≠ GoError.Canceled) :
    ∃ out, conf.WaitForState = some out ∧ out.err ≠ some GoError.Canceled := by
  obtain ⟨out, hout⟩ := Option.isSome_iff_exists.mp
    (WaitForStateContext_isSome conf Context.Background)
  refine ⟨out, hout, ?_⟩
  unfold StateChangeConf.WaitForStateContext at hout
  by_cases hT : conf.Timeout ≤ 0 + conf.Delay
  · simp only [selectWake_background, hT, if_true] at hout
    cases hout
    simp [timeoutError]
  · simp only [selectWake_background, hT, if_false] at hout
    exact pollLoop_not_canceled hR _ _ _ hout

theorem isLBRefreshFunc_error_is_errorString {sess : VpcV1} {lbId : String} {k : Nat}
    {e : GoError} (h : (isLBRefreshFunc sess lbId k).2.2 = some e) :
    ∃ msg, e = GoError.errorString msg := by
  unfold isLBRefreshFunc at h
  split at h
  · cases h; exact ⟨_, rfl⟩
  · split_ifs at h

theorem isLBDeleteRefreshFunc_error_is_errorString {lbc : VpcV1} {id : String} {k : Nat}
    {e : GoError} (h : (isLBDeleteRefreshFunc lbc id k).2.2 = some e) :
    ∃ msg, e = GoError.errorString msg := by
  unfold isLBDeleteRefreshFunc at h
  split at h
  · split_ifs at h
    cases h; exact ⟨_, rfl⟩
  · cases h

/-- C6 (as stated, refuted): `lbCreate` runs under a context that is cancelled 15 seconds
after it began, between the first poll (at 10 seconds) and the second (at 20 seconds);
the wait still issues the second and the third `GetLoadBalancer` query and returns
success, and `lbCreate` returns no diagnostics. -/
theorem cancelled_context_does_not_stop_the_wait :
    (lbCreate ⟨some 15000⟩ (exampleData "" 600000) (exampleMeta 3 "active")).map
        (fun r => (r.1, r.2.effects))
      = some ([], [Effect.CreateLoadBalancer, Effect.SetId "lb-123",
          Effect.isWaitForLBAvailable "lb-123" 600000
            ⟨Iface.ptr (some ⟨"lb-123", "crn:lb-123", "active"⟩), none,
              [Event.sleep 10000, Event.query 0, Event.sleep 10000, Event.query 1,
                Event.sleep 10000, Event.query 2]⟩,
          Effect.UpdateGlobalTagsUsingCRN "crn:lb-123" isUserTagType,
          Effect.UpdateGlobalTagsUsingCRN "crn:lb-123" isAccessTagType]) := by
  decide

/-- The delete wait ends with success at the first poll that fails with status 404. -/
theorem deleted_wait_done {lbc : VpcV1} {id : String} {timeout : Nat} (n : Nat)
    (hp : ∀ j, j < n → StillPresent lbc id j) {err : String}
    (hq : lbc.GetLoadBalancer n id = .fail (some ⟨404⟩) err)
    (hT : 10000 * (n + 1) < timeout) :
    isWaitForLBDeleted lbc id timeout = some ⟨Iface.ptr none, none, pollTrace (n + 1)⟩ :=
  waitForState_target (deleted_tenSeconds lbc id timeout) n
    (fun j hj => deleted_pendingAt (hp j hj)) (isLBDeleteRefreshFunc_notFound hq)
    (show isLBDeleted ∈ [isLBDeleted, "failed"] by decide) hT

/-- C6 (amended): the load balancer waits do not honor cancellation of the caller's
context.  `isWaitForLBAvailable` and `isWaitForLBDeleted` take no context and run
`StateChangeConf.WaitForState`, that is the wait under `context.Background()`, and an
outcome of theirs is never the cancellation error.  Whatever context `lbCreate` and
`lbDelete` are given, and whenever it is cancelled, their wait goes on by the answers
alone: if the polls before poll `n` find the load balancer pending and poll `n` finds it
"active" or "failed" (for delete: gone, with status 404) within the timeout, the wait
issues all `n + 1` queries and the operation returns no diagnostics. -/
theorem waits_ignore_caller_context (context : Context) (d : ResourceData) (m : Meta)
    (id : String) :
    (∀ (sess : VpcV1) (lbId : String) (timeout : Nat),
      isWaitForLBAvailable sess lbId timeout
          = (isWaitForLBAvailable.stateConf sess lbId timeout).WaitForStateContext
              Context.Background ∧
        isWaitForLBDeleted sess lbId timeout
          = (isWaitForLBDeleted.stateConf sess lbId timeout).WaitForStateContext
              Context.Background ∧
        ∀ out, (isWaitForLBAvailable sess lbId timeout = some out ∨
            isWaitForLBDeleted sess lbId timeout = some out) →
          out.err ≠ some GoError.Canceled) ∧
    (∀ (sess : VpcV1) (lb lbN : LoadBalancer) (rsp : DetailedResponse) (n : Nat),
      m.vpcClient = .ok sess →
      sess.CreateLoadBalancerWithContext 0 context = .ok lb →
      (∀ j, j < n → StillProvisioning (sess.after 1) lb.ID j) →
      (sess.after 1).GetLoadBalancer n lb.ID = .ok lbN rsp →
      (lbN.ProvisioningStatus = "active" ∨ lbN.ProvisioningStatus = "failed") →
      10000 * (n + 1) < d.Timeout "create" →
      ∃ r, lbCreate context d m = some r ∧ r.1 = [] ∧
        r.2.effects = [Effect.CreateLoadBalancer, Effect.SetId lb.ID,
            Effect.isWaitForLBAvailable lb.ID (d.Timeout "create")
              ⟨Iface.ptr (some lbN), none, pollTrace (n + 1)⟩] ++
          (if d.GetOk isLBTags || m.Getenv "IC_ENV_TAGS" != "" then
            [Effect.UpdateGlobalTagsUsingCRN lb.CRN isUserTagType] else []) ++
          (if d.GetOk isLBAccessTags then
            [Effect.UpdateGlobalTagsUsingCRN lb.CRN isAccessTagType] else [])) ∧
    (∀ (sess : VpcV1) (lb : LoadBalancer) (rsp : DetailedResponse) (n : Nat) (err : String),
      m.vpcClient = .ok sess →
      sess.GetLoadBalancerWithContext 0 context id = .ok lb rsp →
      sess.DeleteLoadBalancerWithContext 1 context id = none →
      (∀ j, j < n → StillPresent (sess.after 2) id j) →
      (sess.after 2).GetLoadBalancer n id = .fail (some ⟨404⟩) err →
      10000 * (n + 1) < d.Timeout "delete" →
      ∃ r, lbDelete context d m id = some r ∧ r.1 = [] ∧ r.2.d.Id = "" ∧
        r.2.effects = [Effect.GetLoadBalancer id, Effect.DeleteLoadBalancer id,
          Effect.isWaitForLBDeleted id (d.Timeout "delete")
            ⟨Iface.ptr none, none, pollTrace (n + 1)⟩,
          Effect.SetId ""]) := by
  refine ⟨fun sess lbId timeout => ⟨rfl, rfl, ?_⟩, ?_, ?_⟩
  · intro out h
    rcases h with h | h
    · obtain ⟨out', h', hne⟩ :=
        @waitForState_not_canceled (isWaitForLBAvailable.stateConf sess lbId timeout)
          (fun k e he => by
            obtain ⟨msg, rfl⟩ := isLBRefreshFunc_error_is_errorString he
            simp)
      have heq : isWaitForLBAvailable sess lbId timeout = some out' := h'
      rw [h] at heq
      cases heq
      exact hne
    · obtain ⟨out', h', hne⟩ :=
        @waitForState_not_canceled (isWaitForLBDeleted.stateConf sess lbId timeout)
          (fun k e he => by
            obtain ⟨msg, rfl⟩ := isLBDeleteRefreshFunc_error_is_errorString he
            simp)
      have heq : isWaitForLBDeleted sess lbId timeout = some out' := h'
      rw [h] at heq
      cases heq
      exact hne
  · intro sess lb lbN rsp n hm hc hp hq hs hT
    have hw := available_wait_done n hp hq hs hT
    unfold lbCreate
    rw [hm]
    simp only [Block.run, lbCreateCall, hc, Block.andThen, Block.setId, Block.waitAvailable,
      Nat.zero_add, hw, Block.cond, Block.effect, Block.ret]
    by_cases h1 : (d.GetOk isLBTags || m.Getenv "IC_ENV_TAGS" != "") = true <;>
      by_cases h2 : d.GetOk isLBAccessTags = true <;>
      simp [h1, h2]
  · intro sess lb rsp n err hm hg hdel hp hq hT
    have hw := deleted_wait_done n hp hq hT
    unfold lbDelete
    rw [hm]
    simp [Block.run, lbDeleteGet, hg, Block.andThen, Block.call, hdel, Block.waitDeleted,
      hw, Block.setId, Block.ret]

/-- An instance of `waits_ignore_caller_context`: the context of `lbCreate` is cancelled
after 25 seconds, between the second and the third poll; the load balancer is "active" at
the third poll, and `lbCreate` returns no diagnostics after three queries.  The context of
`lbDelete` is cancelled after 15 seconds, between the first and the second poll; the load
balancer is gone at the third poll, and `lbDelete` clears the id after three queries. -/
theorem waits_ignore_caller_context_witness :
    (∃ r, lbCreate ⟨some 25000⟩ (exampleData "" 600000) (exampleMeta 3 "active") = some r ∧
      r.1 = [] ∧
      r.2.effects = [Effect.CreateLoadBalancer, Effect.SetId "lb-123",
          Effect.isWaitForLBAvailable "lb-123" 600000
            ⟨Iface.ptr (some ⟨"lb-123", "crn:lb-123", "active"⟩), none, pollTrace 3⟩,
          Effect.UpdateGlobalTagsUsingCRN "crn:lb-123" isUserTagType,
          Effect.UpdateGlobalTagsUsingCRN "crn:lb-123" isAccessTagType]) ∧
    (∃ r, lbDelete ⟨some 15000⟩ (exampleData "lb-123" 600000)
          { vpcClient := .ok
              { GetLoadBalancer := fun k id =>
                  if k < 4 then .ok ⟨id, "crn:" ++ id, "delete_pending"⟩ ⟨200⟩
                  else .fail (some ⟨404⟩) "not found" }
            Getenv := fun _ => ""
            AsPatch := fun _ => none } "lb-123" = some r ∧
      r.1 = [] ∧ r.2.d.Id = "" ∧
      r.2.effects = [Effect.GetLoadBalancer "lb-123", Effect.DeleteLoadBalancer "lb-123",
          Effect.isWaitForLBDeleted "lb-123" 600000 ⟨Iface.ptr none, none, pollTrace 3⟩,
          Effect.SetId ""]) :=
  ⟨(waits_ignore_caller_context ⟨some 25000⟩ (exampleData "" 600000)
      (exampleMeta 3 "active") "lb-123").2.1 _ ⟨"lb-123", "crn:lb-123", "create_pending"⟩
      ⟨"lb-123", "crn:lb-123", "active"⟩ ⟨200⟩ 2 rfl rfl
      (fun j hj => by
        have hj' : j = 0 ∨ j = 1 := by omega
        rcases hj' with h | h <;> subst h <;> exact ⟨_, _, rfl, by decide, by decide⟩)
      rfl (Or.inl rfl) (by decide),
    (waits_ignore_caller_context ⟨some 15000⟩ (exampleData "lb-123" 600000)
      { vpcClient := .ok
          { GetLoadBalancer := fun k id =>
              if k < 4 then .ok ⟨id, "crn:" ++ id, "delete_pending"⟩ ⟨200⟩
              else .fail (some ⟨404⟩) "not found" }
        Getenv := fun _ => ""
        AsPatch := fun _ => none } "lb-123").2.2 _
      ⟨"lb-123", "crn:lb-123", "delete_pending"⟩ ⟨200⟩ 2 "not found" rfl rfl rfl
      (fun j hj => by
        have hj' : j = 0 ∨ j = 1 := by omega
        rcases hj' with h | h <;> subst h <;> exact ⟨_, _, rfl⟩)
      rfl (by decide)⟩


/-! ## Operations stop at a failed wait -/

theorem noFailedWait_append {effects : List Effect} {e : Effect}
    (h : NoFailedWait effects) (he : e.isFailedWait = false) :
    NoFailedWait (effects ++ [e]) := by
  intro x hx
  rcases List.mem_append.mp hx with hx | hx
  · exact h x hx
  · rw [List.mem_singleton.mp hx]; exact he

theorem hasError_GetDiag (e : TerraformProblem) : hasError e.GetDiag = true := rfl

theorem Block.sound_andThen {a b : Block} (ha : a.Sound) (hb : b.Sound) :
    (Block.andThen a b).Sound := by
  intro s hs
  obtain ⟨r, s', hrun, hpost⟩ := ha s hs
  cases r with
  | some dg => exact ⟨some dg, s', by simp [Block.andThen, hrun], hpost⟩
  | none =>
    have hclean : NoFailedWait s'.effects := by
      rcases hpost with h | ⟨dg, _, _, h, _⟩
      · exact h
      · cases h
    obtain ⟨r2, s2, hrun2, hpost2⟩ := hb s' hclean
    exact ⟨r2, s2, by simp [Block.andThen, hrun, hrun2], hpost2⟩

theorem Block.sound_cond (c : OpState → Bool) {b : Block} (hb : b.Sound) :
    (Block.cond c b).Sound := by
  intro s hs
  unfold Block.cond
  split_ifs
  · exact hb s hs
  · exact ⟨none, s, rfl, Or.inl hs⟩

theorem Block.sound_skip : Block.skip.Sound :=
  fun s hs => ⟨none, s, rfl, Or.inl hs⟩

theorem Block.sound_ret (dg : Diagnostics) : (Block.ret dg).Sound :=
  fun s hs => ⟨some dg, s, rfl, Or.inl hs⟩

theorem Block.sound_effect {e : Effect} (he : e.isFailedWait = false) :
    (Block.effect e).Sound :=
  fun _ hs => ⟨none, _, rfl, Or.inl (noFailedWait_append hs he)⟩

theorem Block.sound_setId (id : String) : (Block.setId id).Sound :=
  fun _ hs => ⟨none, _, rfl, Or.inl (noFailedWait_append hs rfl)⟩

theorem Block.sound_call {e : Effect} (he : e.isFailedWait = false)
    (answer : Nat → Option String) (onErr : String → Diagnostics) :
    (Block.call e answer onErr).Sound := by
  intro s hs
  unfold Block.call
  cases answer s.calls with
  | some err => exact ⟨_, _, rfl, Or.inl (noFailedWait_append hs he)⟩
  | none => exact ⟨_, _, rfl, Or.inl (noFailedWait_append hs he)⟩

theorem Block.sound_waitAvailable (sess : VpcV1) (key operation : String) :
    (Block.waitAvailable sess key operation).Sound := by
  intro s hs
  obtain ⟨out, hout⟩ := Option.isSome_iff_exists.mp (WaitForStateContext_isSome
    (isWaitForLBAvailable.stateConf (sess.after s.calls) s.d.Id (s.d.Timeout key))
    Context.Background)
  have hw : isWaitForLBAvailable (sess.after s.calls) s.d.Id (s.d.Timeout key) = some out :=
    hout
  unfold Block.waitAvailable
  rw [hw]
  obtain ⟨v, err, tr⟩ := out
  cases err with
  | some err =>
    exact ⟨_, _, rfl, Or.inr ⟨_, s.effects, _, rfl, hasError_GetDiag _, rfl, hs⟩⟩
  | none =>
    exact ⟨_, _, rfl, Or.inl (noFailedWait_append hs rfl)⟩

theorem Block.sound_waitDeleted (sess : VpcV1) (id key operation : String) :
    (Block.waitDeleted sess id key operation).Sound := by
  intro s hs
  obtain ⟨out, hout⟩ := Option.isSome_iff_exists.mp (WaitForStateContext_isSome
    (isWaitForLBDeleted.stateConf (sess.after s.calls) id (s.d.Timeout key))
    Context.Background)
  have hw : isWaitForLBDeleted (sess.after s.calls) id (s.d.Timeout key) = some out := hout
  unfold Block.waitDeleted
  rw [hw]
  obtain ⟨v, err, tr⟩ := out
  cases err with
  | some err =>
    exact ⟨_, _, rfl, Or.inr ⟨_, s.effects, _, rfl, hasError_GetDiag _, rfl, hs⟩⟩
  | none =>
    exact ⟨_, _, rfl, Or.inl (noFailedWait_append hs rfl)⟩

theorem blockPost_stops {r : Option Diagnostics} {s : OpState} (h : BlockPost r s) :
    StopsAtFailedWait (r.getD []) s.effects := by
  intro pre e post heq hfail
  rcases h with h | ⟨dg, init, e0, hr, hdg, heff, hinit⟩
  · have : e.isFailedWait = false := h e (by rw [heq]; simp)
    rw [this] at hfail; cases hfail
  · subst hr
    refine ⟨hdg, ?_⟩
    rcases List.eq_nil_or_concat post with hp | ⟨post', x, hp⟩
    · exact hp
    · exfalso
      rw [heff, hp] at heq
      have heq' : init ++ [e0] = (pre ++ e :: post') ++ [x] := by simpa using heq
      have hi : init = pre ++ e :: post' := List.append_inj_left' heq' rfl
      have : e.isFailedWait = false := hinit e (by rw [hi]; simp)
      rw [this] at hfail; cases hfail

theorem Block.run_stops {b : Block} (hb : b.Sound) (d : ResourceData) :
    ∃ r, b.run d = some r ∧ StopsAtFailedWait r.1 r.2.effects := by
  obtain ⟨r, s', hrun, hpost⟩ := hb ⟨d, 0, []⟩ (by intro e he; cases he)
  have hstop := blockPost_stops hpost
  unfold Block.run
  rw [hrun]
  cases r with
  | some dg => exact ⟨_, rfl, hstop⟩
  | none => exact ⟨_, rfl, hstop⟩


theorem lbCreateCall_sound (context : Context) (m : Meta) (sess : VpcV1) :
    (lbCreateCall context m sess).Sound := by
  intro s hs
  have hs' : NoFailedWait (s.effects ++ [Effect.CreateLoadBalancer]) :=
    noFailedWait_append hs rfl
  unfold lbCreateCall
  cases sess.CreateLoadBalancerWithContext s.calls context with
  | error err => exact ⟨_, _, rfl, Or.inl hs'⟩
  | ok lb =>
    exact Block.sound_andThen (Block.sound_setId _)
      (Block.sound_andThen (Block.sound_waitAvailable _ _ _)
        (Block.sound_andThen (Block.sound_cond _ (Block.sound_effect (by rfl)))
          (Block.sound_andThen (Block.sound_cond _ (Block.sound_effect (by rfl)))
            (Block.sound_ret _)))) _ hs'

theorem lbDeleteGet_sound (context : Context) (sess : VpcV1) (id : String) :
    (lbDeleteGet context sess id).Sound := by
  intro s hs
  have hs' : NoFailedWait (s.effects ++ [Effect.GetLoadBalancer id]) :=
    noFailedWait_append hs rfl
  unfold lbDeleteGet
  cases sess.GetLoadBalancerWithContext s.calls context id with
  | fail response err =>
    simp only
    split_ifs
    · exact Block.sound_andThen (Block.sound_setId _) (Block.sound_ret _) _ hs'
    · exact ⟨_, _, rfl, Or.inl hs'⟩
  | ok lb r => exact ⟨_, _, rfl, Or.inl hs'⟩

theorem lbUpdatePatch_sound (context : Context) (m : Meta) (sess : VpcV1)
    (id field : String) : (lbUpdatePatch context m sess id field).Sound := by
  refine Block.sound_andThen ?_ (Block.sound_call (by rfl) _ _)
  intro s hs
  cases h : m.AsPatch field with
  | some err => exact ⟨_, s, by simp only [h]; rfl, Or.inl hs⟩
  | none => exact ⟨_, s, by simp only [h]; rfl, Or.inl hs⟩

theorem lbUpdateTags_sound (context : Context) (sess : VpcV1) (id : String) :
    (lbUpdateTags context sess id).Sound := by
  intro s hs
  have hs' : NoFailedWait (s.effects ++ [Effect.GetLoadBalancer id]) :=
    noFailedWait_append hs rfl
  unfold lbUpdateTags
  cases sess.GetLoadBalancerWithContext s.calls context id with
  | fail response err => exact ⟨_, _, rfl, Or.inl hs'⟩
  | ok lb r =>
    exact Block.sound_andThen (Block.sound_cond _ (Block.sound_effect (by rfl)))
      (Block.sound_cond _ (Block.sound_effect (by rfl))) _ hs'

theorem lbUpdateAdd_sound (context : Context) (sess : VpcV1) (id : String) :
    ∀ add : List String, (lbUpdateAdd context sess id add).Sound := by
  intro add
  induction add with
  | nil => exact Block.sound_skip
  | cons sg rest ih =>
    exact Block.sound_andThen (Block.sound_call (by rfl) _ _)
      (Block.sound_andThen (Block.sound_waitAvailable _ _ _) ih)

theorem lbUpdateRemove_sound (context : Context) (sess : VpcV1) (id : String) :
    ∀ remove : List String, (lbUpdateRemove context sess id remove).Sound := by
  intro remove
  induction remove with
  | nil => exact Block.sound_skip
  | cons sg rest ih =>
    intro s hs
    have hs' : NoFailedWait (s.effects ++ [Effect.GetSecurityGroupTarget sg id]) :=
      noFailedWait_append hs rfl
    unfold lbUpdateRemove
    cases sess.GetSecurityGroupTargetWithContext s.calls context sg id with
    | some p =>
      obtain ⟨response, err⟩ := p
      simp only
      split_ifs
      · exact ih _ hs'
      · exact ⟨_, _, rfl, Or.inl hs'⟩
    | none =>
      exact Block.sound_andThen (Block.sound_call (by rfl) _ _)
        (Block.sound_andThen (Block.sound_waitAvailable _ _ _) ih) _ hs'

/-- C4: `lbCreate`, `lbUpdate` and `lbDelete` fail when the wait they depend on fails.
Each of them runs its wait on the remote API: once the calls before the wait have
succeeded, an error `e` of `isWaitForLBAvailable` (create, and update after the dns patch,
after the subnets patch, after a security group is added and after one is removed) or of
`isWaitForLBDeleted` (delete) makes the operation return diagnostics that contain an
error, and the failed wait is the last thing it did: create has set the id and makes no
tag update, update makes no further patch, delete does not clear the id.  On every other
path too, a wait that returned an error is the last effect of what the operation returns
and comes with error diagnostics. -/
theorem operations_fail_at_failed_wait (context : Context) (d : ResourceData) (m : Meta)
    (id : String) (hasChanged hasChangedLog hasChangedSecurityGroups : Bool)
    (remove add : List String) :
    (∀ (sess : VpcV1) (out : WaitOutcome) (e : GoError),
      m.vpcClient = .ok sess → out.err = some e →
      (∀ lb, sess.CreateLoadBalancerWithContext 0 context = .ok lb →
        isWaitForLBAvailable (sess.after 1) lb.ID (d.Timeout "create") = some out →
        ReturnsErrorAfter (lbCreate context d m) lb.ID
          [Effect.CreateLoadBalancer, Effect.SetId lb.ID,
            Effect.isWaitForLBAvailable lb.ID (d.Timeout "create") out]) ∧
      (∀ lb rsp, sess.GetLoadBalancerWithContext 0 context id = .ok lb rsp →
        sess.DeleteLoadBalancerWithContext 1 context id = none →
        isWaitForLBDeleted (sess.after 2) id (d.Timeout "delete") = some out →
        ReturnsErrorAfter (lbDelete context d m id) d.Id
          [Effect.GetLoadBalancer id, Effect.DeleteLoadBalancer id,
            Effect.isWaitForLBDeleted id (d.Timeout "delete") out]) ∧
      (d.HasChange isLBTags = false → d.HasChange isLBAccessTags = false →
        (d.HasChange "dns" = true → m.AsPatch "dns" = none →
          sess.UpdateLoadBalancerWithContext 0 context id = none →
          isWaitForLBAvailable (sess.after 1) d.Id (d.Timeout "update") = some out →
          ReturnsErrorAfter
            (lbUpdate context d m id hasChanged hasChangedLog hasChangedSecurityGroups
              remove add) d.Id
            [Effect.UpdateLoadBalancer id "dns",
              Effect.isWaitForLBAvailable d.Id (d.Timeout "update") out]) ∧
        (d.HasChange "dns" = false → d.HasChange isLBSubnets = true →
          m.AsPatch "subnets" = none →
          sess.UpdateLoadBalancerWithContext 0 context id = none →
          isWaitForLBAvailable (sess.after 1) d.Id (d.Timeout "update") = some out →
          ReturnsErrorAfter
            (lbUpdate context d m id hasChanged hasChangedLog hasChangedSecurityGroups
              remove add) d.Id
            [Effect.UpdateLoadBalancer id "subnets",
              Effect.isWaitForLBAvailable d.Id (d.Timeout "update") out]) ∧
        (d.HasChange "dns" = false → d.HasChange isLBSubnets = false →
          hasChanged = false → hasChangedLog = false → hasChangedSecurityGroups = true →
          (∀ securityGroupID rest, add = securityGroupID :: rest →
            sess.CreateSecurityGroupTargetBindingWithContext 0 context securityGroupID id
              = none →
            isWaitForLBAvailable (sess.after 1) d.Id (d.Timeout "update") = some out →
            ReturnsErrorAfter
              (lbUpdate context d m id hasChanged hasChangedLog hasChangedSecurityGroups
                remove add) d.Id
              [Effect.CreateSecurityGroupTargetBinding securityGroupID id,
                Effect.isWaitForLBAvailable d.Id (d.Timeout "update") out]) ∧
          (∀ securityGroupID rest, add = [] → remove = securityGroupID :: rest →
            sess.GetSecurityGroupTargetWithContext 0 context securityGroupID id = none →
            sess.DeleteSecurityGroupTargetBindingWithContext 1 context securityGroupID id
              = none →
            isWaitForLBAvailable (sess.after 2) d.Id (d.Timeout "update") = some out →
            ReturnsErrorAfter
              (lbUpdate context d m id hasChanged hasChangedLog hasChangedSecurityGroups
                remove add) d.Id
              [Effect.GetSecurityGroupTarget securityGroupID id,
                Effect.DeleteSecurityGroupTargetBinding securityGroupID id,
                Effect.isWaitForLBAvailable d.Id (d.Timeout "update") out])))) ∧
    (∀ r, lbCreate context d m = some r → StopsAtFailedWait r.1 r.2.effects) ∧
    (∀ r, lbUpdate context d m id hasChanged hasChangedLog hasChangedSecurityGroups
        remove add = some r → StopsAtFailedWait r.1 r.2.effects) ∧
    (∀ r, lbDelete context d m id = some r → StopsAtFailedWait r.1 r.2.effects) := by
  refine ⟨?_, ?_, ?_, ?_⟩
  · intro sess out e hm he
    refine ⟨?_, ?_, ?_⟩
    · intro lb hc hw
      unfold lbCreate ReturnsErrorAfter
      rw [hm]
      simp [Block.run, lbCreateCall, hc, Block.andThen, Block.setId, Block.waitAvailable,
        hw, he, hasError_GetDiag]
    · intro lb rsp hg hdel hw
      unfold lbDelete ReturnsErrorAfter
      rw [hm]
      simp [Block.run, lbDeleteGet, hg, Block.andThen, Block.call, hdel, Block.waitDeleted,
        hw, he, hasError_GetDiag]
    · intro ht hat
      refine ⟨?_, ?_, ?_⟩
      · intro hdns hpatch hupd hw
        unfold lbUpdate ReturnsErrorAfter
        rw [hm]
        simp [Block.run, Block.andThen, Block.cond, ht, hat, hdns, lbUpdatePatch, hpatch,
          Block.call, hupd, Block.waitAvailable, hw, he, hasError_GetDiag]
      · intro hdns hsub hpatch hupd hw
        unfold lbUpdate ReturnsErrorAfter
        rw [hm]
        simp [Block.run, Block.andThen, Block.cond, ht, hat, hdns, hsub, lbUpdatePatch,
          hpatch, Block.call, hupd, Block.waitAvailable, hw, he, hasError_GetDiag]
      · intro hdns hsub hname hlog hsg
        refine ⟨?_, ?_⟩
        · intro sg rest hadd hbind hw
          unfold lbUpdate ReturnsErrorAfter
          rw [hm]
          simp [Block.run, Block.andThen, Block.cond, ht, hat, hdns, hsub, hname, hlog, hsg,
            hadd, lbUpdateAdd, Block.call, hbind, Block.waitAvailable, hw, he,
            hasError_GetDiag]
        · intro sg rest hadd hrem hget hdel hw
          unfold lbUpdate ReturnsErrorAfter
          rw [hm]
          simp [Block.run, Block.andThen, Block.cond, ht, hat, hdns, hsub, hname, hlog, hsg,
            hadd, hrem, lbUpdateAdd, lbUpdateRemove, Block.skip, hget, Block.call, hdel,
            Block.waitAvailable, hw, he, hasError_GetDiag]
  · intro r hr
    obtain ⟨r', hr', hstop⟩ : ∃ r, lbCreate context d m = some r ∧
        StopsAtFailedWait r.1 r.2.effects := by
      unfold lbCreate
      cases m.vpcClient with
      | error err => exact Block.run_stops (Block.sound_ret _) d
      | ok sess => exact Block.run_stops (lbCreateCall_sound context m sess) d
    rw [hr] at hr'
    cases hr'
    exact hstop
  · intro r hr
    obtain ⟨r', hr', hstop⟩ : ∃ r, lbUpdate context d m id hasChanged hasChangedLog
        hasChangedSecurityGroups remove add = some r ∧
        StopsAtFailedWait r.1 r.2.effects := by
      unfold lbUpdate
      cases m.vpcClient with
      | error err => exact Block.run_stops (Block.sound_ret _) d
      | ok sess =>
        refine Block.run_stops ?_ d
        exact Block.sound_andThen (Block.sound_cond _ (lbUpdateTags_sound _ _ _))
          (Block.sound_andThen
            (Block.sound_cond _ (Block.sound_andThen (lbUpdatePatch_sound _ _ _ _ _)
              (Block.sound_waitAvailable _ _ _)))
          (Block.sound_andThen
            (Block.sound_cond _ (Block.sound_andThen (lbUpdatePatch_sound _ _ _ _ _)
              (Block.sound_waitAvailable _ _ _)))
          (Block.sound_andThen (Block.sound_cond _ (lbUpdatePatch_sound _ _ _ _ _))
          (Block.sound_andThen (Block.sound_cond _ (lbUpdatePatch_sound _ _ _ _ _))
          (Block.sound_andThen
            (Block.sound_cond _ (Block.sound_andThen (lbUpdateAdd_sound _ _ _ _)
              (lbUpdateRemove_sound _ _ _ _)))
            (Block.sound_ret _))))))
    rw [hr] at hr'
    cases hr'
    exact hstop
  · intro r hr
    obtain ⟨r', hr', hstop⟩ : ∃ r, lbDelete context d m id = some r ∧
        StopsAtFailedWait r.1 r.2.effects := by
      unfold lbDelete
      cases m.vpcClient with
      | error err => exact Block.run_stops (Block.sound_ret _) d
      | ok sess =>
        refine Block.run_stops ?_ d
        exact Block.sound_andThen (lbDeleteGet_sound _ _ _)
          (Block.sound_andThen (Block.sound_call (by rfl) _ _)
            (Block.sound_andThen (Block.sound_waitDeleted _ _ _ _)
              (Block.sound_andThen (Block.sound_setId _) (Block.sound_ret _))))
    rw [hr] at hr'
    cases hr'
    exact hstop

/-- An instance of `operations_fail_at_failed_wait`: the load balancer stays
"provisioning" and present, and every wait times out after 25 seconds.  `lbCreate` returns
error diagnostics and, though the tags are configured, makes no tag update after the
failed wait; `lbDelete` returns error diagnostics and leaves the id; `lbUpdate` with a
changed dns block returns error diagnostics right after the wait that follows the dns
patch, though the subnets have changed as well. -/
theorem operations_fail_at_failed_wait_witness :
    ReturnsErrorAfter
        (lbCreate Context.Background (exampleData "" 25000) (exampleMeta 9 "active")) "lb-123"
        [Effect.CreateLoadBalancer, Effect.SetId "lb-123",
          Effect.isWaitForLBAvailable "lb-123" 25000
            ⟨Iface.nil, some (GoError.TimeoutError none "provisioning" 25000 ["done", ""]),
              [Event.sleep 10000, Event.query 0, Event.sleep 10000, Event.query 1]⟩] ∧
      ReturnsErrorAfter
        (lbDelete Context.Background (exampleData "lb-123" 25000) (exampleMeta 9 "active")
          "lb-123") "lb-123"
        [Effect.GetLoadBalancer "lb-123", Effect.DeleteLoadBalancer "lb-123",
          Effect.isWaitForLBDeleted "lb-123" 25000
            ⟨Iface.nil, some (GoError.TimeoutError none "deleting" 25000 ["done", "failed"]),
              [Event.sleep 10000, Event.query 0, Event.sleep 10000, Event.query 1]⟩] ∧
      ReturnsErrorAfter
        (lbUpdate Context.Background
          ⟨"lb-123", fun _ => true, fun key => key == "dns" || key == isLBSubnets,
            fun _ => 25000⟩
          (exampleMeta 9 "active") "lb-123" true true true ["sg-1"] ["sg-2"]) "lb-123"
        [Effect.UpdateLoadBalancer "lb-123" "dns",
          Effect.isWaitForLBAvailable "lb-123" 25000
            ⟨Iface.nil, some (GoError.TimeoutError none "provisioning" 25000 ["done", ""]),
              [Event.sleep 10000, Event.query 0, Event.sleep 10000, Event.query 1]⟩] :=
  ⟨((operations_fail_at_failed_wait Context.Background (exampleData "" 25000)
      (exampleMeta 9 "active") "lb-123" false false false [] []).1 _ _ _ rfl rfl).1
      ⟨"lb-123", "crn:lb-123", "create_pending"⟩ rfl (by decide),
    ((operations_fail_at_failed_wait Context.Background (exampleData "lb-123" 25000)
      (exampleMeta 9 "active") "lb-123" false false false [] []).1 _ _ _ rfl rfl).2.1
      ⟨"lb-123", "crn:lb-123", "provisioning"⟩ ⟨200⟩ rfl rfl (by decide),
    (((operations_fail_at_failed_wait Context.Background
      ⟨"lb-123", fun _ => true, fun key => key == "dns" || key == isLBSubnets,
        fun _ => 25000⟩
      (exampleMeta 9 "active") "lb-123" true true true ["sg-1"] ["sg-2"]).1 _ _ _ rfl
      rfl).2.2 (by decide) (by decide)).1 (by decide) rfl rfl (by decide)⟩


/-! ## Terraform ids of security group rules -/

theorem splitChars_no_sep (sep : Char) :
    ∀ (l : List Char), sep ∉ l → splitChars sep l = [l] := by
  intro l
  induction l with
  | nil => intro _; rfl
  | cons c cs ih =>
    intro h
    have hc : c ≠ sep := fun e => h (e ▸ List.mem_cons_self _ _)
    have hcs : sep ∉ cs := fun e => h (List.mem_cons_of_mem _ e)
    simp [splitChars, hc, ih hcs]

theorem splitChars_append (sep : Char) (r : List Char) :
    ∀ (g : List Char), sep ∉ g →
      splitChars sep (g ++ sep :: r) = g :: splitChars sep r := by
  intro g
  induction g with
  | nil => intro _; simp [splitChars]
  | cons c cs ih =>
    intro h
    have hc : c ≠ sep := fun e => h (e ▸ List.mem_cons_self _ _)
    have hcs : sep ∉ cs := fun e => h (List.mem_cons_of_mem _ e)
    simp [splitChars, hc, ih hcs]

theorem makeTerraformRuleID_data (id1 id2 : String) :
    (makeTerraformRuleID id1 id2).data = id1.data ++ '.' :: id2.data := by
  simp [makeTerraformRuleID, String.data_append]

theorem append_sep_inj (sep : Char) (r1 r2 : List Char) :
    ∀ (g1 g2 : List Char), sep ∉ g1 → sep ∉ g2 → g1 ++ sep :: r1 = g2 ++ sep :: r2 →
      g1 = g2 ∧ r1 = r2 := by
  intro g1 g2 h1 h2 h
  have e := congrArg (splitChars sep) h
  rw [splitChars_append sep r1 g1 h1, splitChars_append sep r2 g2 h2] at e
  have hg : g1 = g2 := (List.cons.inj e).1
  subst hg
  exact ⟨rfl, by simpa using h⟩

/-- C9: the group id and the rule id can be extracted back from a rule's Terraform id:
for all non-empty strings `g` and `r` that contain no ".",
`parseISTerraformID (makeTerraformRuleID g r)` returns `(g, r)` with a nil error. -/
theorem parse_make_roundtrip (g r : String) (hg : g ≠ "") (hr : r ≠ "")
    (hgd : '.' ∉ g.data) (hrd : '.' ∉ r.data) :
    parseISTerraformID (makeTerraformRuleID g r) = (g, r, none) := by
  have hs : stringsSplitDot (makeTerraformRuleID g r) = [g, r] := by
    unfold stringsSplitDot
    rw [makeTerraformRuleID_data, splitChars_append '.' r.data g.data hgd,
      splitChars_no_sep '.' r.data hrd]
    rfl
  unfold parseISTerraformID
  rw [hs]
  simp [hg, hr]

/-- An instance of `parse_make_roundtrip`. -/
theorem parse_make_roundtrip_witness :
    parseISTerraformID (makeTerraformRuleID "r006-4f5c" "r006-9a1e")
      = ("r006-4f5c", "r006-9a1e", none) :=
  parse_make_roundtrip "r006-4f5c" "r006-9a1e" (by decide) (by decide) (by decide) (by decide)

/-- C10 (as stated, refuted): `makeTerraformRuleID` is not injective on all pairs of
strings: the pairs ("a.b", "c") and ("a", "b.c") get the same Terraform id. -/
theorem makeTerraformRuleID_not_injective :
    makeTerraformRuleID "a.b" "c" = makeTerraformRuleID "a" "b.c" ∧
      ¬ ("a.b" = "a" ∧ "c" = "b.c") := by
  decide

/-- C10 (amended): `makeTerraformRuleID` creates a unique Terraform id from group ids that
contain no ".": for all pairs `(g1, r1)` and `(g2, r2)` of strings with no "." in `g1`
and `g2`, equal Terraform ids imply `g1 = g2` and `r1 = r2`. -/
theorem makeTerraformRuleID_injective (g1 r1 g2 r2 : String)
    (h1 : '.' ∉ g1.data) (h2 : '.' ∉ g2.data)
    (h : makeTerraformRuleID g1 r1 = makeTerraformRuleID g2 r2) :
    g1 = g2 ∧ r1 = r2 := by
  have e := congrArg String.data h
  rw [makeTerraformRuleID_data, makeTerraformRuleID_data] at e
  obtain ⟨hg, hr⟩ := append_sep_inj '.' r1.data r2.data g1.data g2.data h1 h2 e
  exact ⟨String.ext hg, String.ext hr⟩

/-- An instance of `makeTerraformRuleID_injective`; the rule id may contain a ".". -/
theorem makeTerraformRuleID_injective_witness :
    "r006-4f5c" = "r006-4f5c" ∧ "rule.1" = "rule.1" :=
  makeTerraformRuleID_injective "r006-4f5c" "rule.1" "r006-4f5c" "rule.1"
    (by decide) (by decide) rfl

/-! ## Parsing Terraform ids -/

theorem splitChars_ne_nil (sep : Char) : ∀ l : List Char, splitChars sep l ≠ [] := by
  intro l
  induction l with
  | nil => simp [splitChars]
  | cons c cs ih =>
    unfold splitChars
    split_ifs
    · simp
    · cases h : splitChars sep cs with
      | nil => simp
      | cons p r => simp

theorem splitChars_pieces (sep : Char) :
    ∀ (l : List Char) (p : List Char), p ∈ splitChars sep l → sep ∉ p := by
  intro l
  induction l with
  | nil =>
    intro p hp
    simp [splitChars] at hp
    simp [hp]
  | cons c cs ih =>
    intro p hp
    unfold splitChars at hp
    split_ifs at hp with hc
    · rcases List.mem_cons.mp hp with h | h
      · simp [h]
      · exact ih p h
    · cases hs : splitChars sep cs with
      | nil => exact absurd hs (splitChars_ne_nil sep cs)
      | cons piece rest =>
        rw [hs] at hp ih
        simp only at hp
        rcases List.mem_cons.mp hp with h | h
        · subst h
          have := ih piece (List.mem_cons_self _ _)
          intro hm
          rcases List.mem_cons.mp hm with h1 | h1
          · exact hc h1.symm
          · exact this h1
        · exact ih p (List.mem_cons_of_mem _ h)

theorem splitChars_singleton (sep : Char) :
    ∀ (l b : List Char), splitChars sep l = [b] → l = b := by
  intro l
  induction l with
  | nil => intro b h; simp [splitChars] at h; exact h.symm
  | cons c cs ih =>
    intro b h
    unfold splitChars at h
    split_ifs at h with hc
    · have : splitChars sep cs = [] := (List.cons.inj h).2
      exact absurd this (splitChars_ne_nil sep cs)
    · cases hs : splitChars sep cs with
      | nil => exact absurd hs (splitChars_ne_nil sep cs)
      | cons piece rest =>
        rw [hs] at h
        simp only at h
        obtain ⟨h1, h2⟩ := List.cons.inj h
        subst h2
        rw [ih piece hs, ← h1]

theorem splitChars_pair (sep : Char) :
    ∀ (l a b : List Char), splitChars sep l = [a, b] → l = a ++ sep :: b := by
  intro l
  induction l with
  | nil => intro a b h; simp [splitChars] at h
  | cons c cs ih =>
    intro a b h
    unfold splitChars at h
    split_ifs at h with hc
    · obtain ⟨h1, h2⟩ := List.cons.inj h
      rw [← h1, splitChars_singleton sep cs b h2, hc]
      rfl
    · cases hs : splitChars sep cs with
      | nil => exact absurd hs (splitChars_ne_nil sep cs)
      | cons piece rest =>
        rw [hs] at h
        simp only at h
        obtain ⟨h1, h2⟩ := List.cons.inj h
        subst h2
        rw [ih piece b hs, ← h1]
        rfl

theorem parseISTerraformID_of_wellFormed {s a b : String} (h : WellFormedTerraformID s a b) :
    parseISTerraformID s = (a, b, none) := by
  obtain ⟨hs, ha, hb, hane, hbne⟩ := h
  have hsplit : stringsSplitDot s = [a, b] := by
    unfold stringsSplitDot
    have hd : s.data = a.data ++ '.' :: b.data := by
      rw [hs]; simp [String.data_append]
    rw [hd, splitChars_append '.' b.data a.data ha, splitChars_no_sep '.' b.data hb]
    rfl
  unfold parseISTerraformID
  rw [hsplit]
  simp [hane, hbne]

theorem parseISTerraformID_cases (s : String) :
    (∃ e, parseISTerraformID s = ("", "", some e)) ∨
      ∃ a b, parseISTerraformID s = (a, b, none) ∧ WellFormedTerraformID s a b := by
  unfold parseISTerraformID
  split
  · rename_i seg0 seg1 hsplit
    split_ifs with hempty
    · exact Or.inl ⟨_, rfl⟩
    · refine Or.inr ⟨seg0, seg1, rfl, ?_⟩
      simp only [Bool.or_eq_true, beq_iff_eq, not_or] at hempty
      unfold stringsSplitDot at hsplit
      cases hc : splitChars '.' s.data with
      | nil => rw [hc] at hsplit; simp at hsplit
      | cons p0 rest =>
        cases rest with
        | nil => rw [hc] at hsplit; simp at hsplit
        | cons p1 rest2 =>
          cases rest2 with
          | cons p2 rest3 => rw [hc] at hsplit; simp at hsplit
          | nil =>
            rw [hc] at hsplit
            simp only [List.map_cons, List.map_nil, List.cons.injEq, and_true] at hsplit
            obtain ⟨h0, h1⟩ := hsplit
            have hd := splitChars_pair '.' s.data p0 p1 hc
            have hp0 := splitChars_pieces '.' s.data p0 (by rw [hc]; simp)
            have hp1 := splitChars_pieces '.' s.data p1 (by rw [hc]; simp)
            refine ⟨?_, ?_, ?_, hempty.1, hempty.2⟩
            · apply String.ext
              rw [hd, ← h0, ← h1]
              simp [String.data_append]
            · rw [← h0]; exact hp0
            · rw [← h1]; exact hp1
  · exact Or.inl ⟨_, rfl⟩

/-- C11: `parseISTerraformID s` fails exactly when `s` is malformed.  If `s` consists of
exactly two "."-separated non-empty segments it returns the text before the single "."
and the text after it with a nil error; otherwise it returns two empty strings and an
error; and it returns an error if and only if `s` is not of that form. -/
theorem parseISTerraformID_fails_iff_malformed (s : String) :
    (∀ a b, WellFormedTerraformID s a b → parseISTerraformID s = (a, b, none)) ∧
      ((¬ ∃ a b, WellFormedTerraformID s a b) →
        ∃ e, parseISTerraformID s = ("", "", some e)) ∧
      ((parseISTerraformID s).2.2 ≠ none ↔ ¬ ∃ a b, WellFormedTerraformID s a b) := by
  refine ⟨fun a b h => parseISTerraformID_of_wellFormed h, ?_, ?_⟩
  · intro hno
    rcases parseISTerraformID_cases s with h | ⟨a, b, _, hwf⟩
    · exact h
    · exact absurd ⟨a, b, hwf⟩ hno
  · constructor
    · intro herr ⟨a, b, hwf⟩
      rw [parseISTerraformID_of_wellFormed hwf] at herr
      exact herr rfl
    · intro hno
      rcases parseISTerraformID_cases s with ⟨e, h⟩ | ⟨a, b, _, hwf⟩
      · rw [h]; simp
      · exact absurd ⟨a, b, hwf⟩ hno

/-! ## The steps of the rule parser -/

theorem parse_ok {env : RuleEnv} {d : RuleData} {tag : String} {sess : RuleClient}
    (h : (parseIBMISSecurityGroupRuleDictionary env d tag sess).err = none) :
    ∃ s, parseSteps env d sess = .ok s ∧ env.AsPatchError = none ∧
      parseIBMISSecurityGroupRuleDictionary env d tag sess
        = ⟨some s.parsed, some (buildPrototype s),
            some ⟨if s.updateIDs then some s.parsed.secgrpID else none,
              if s.updateIDs then some s.parsed.ruleID else none, buildPatch d s⟩, none⟩ := by
  unfold parseIBMISSecurityGroupRuleDictionary at h ⊢
  cases hs : parseSteps env d sess with
  | error e => rw [hs] at h; cases h
  | ok s =>
    rw [hs] at h
    cases ha : env.AsPatchError with
    | some err => rw [ha] at h; cases h
    | none => exact ⟨s, rfl, rfl, rfl⟩

theorem parse_error {env : RuleEnv} {d : RuleData} {tag : String} {sess : RuleClient}
    {e : GoError} (h : (parseIBMISSecurityGroupRuleDictionary env d tag sess).err = some e) :
    parseIBMISSecurityGroupRuleDictionary env d tag sess = ⟨none, none, none, some e⟩ := by
  unfold parseIBMISSecurityGroupRuleDictionary at h ⊢
  cases hs : parseSteps env d sess with
  | error e' => rw [hs] at h; cases h; rfl
  | ok s =>
    rw [hs] at h
    cases ha : env.AsPatchError with
    | some err => rw [ha] at h; cases h; rfl
    | none => rw [ha] at h; cases h

theorem parseSteps_ok {env : RuleEnv} {d : RuleData} {sess : RuleClient} {s : ParseState}
    (h : parseSteps env d sess = .ok s) :
    ∃ s1 s2 s3, parseRemote env d sess (parseDirection d (parseIDs d ParseState.init)) = .ok s1 ∧
      parseLocal env d s1 = .ok s2 ∧ parseIcmp d s2 = .ok s3 ∧
      s = parsePorts isSecurityGroupRuleProtocolUDP d.udp
        (parsePorts isSecurityGroupRuleProtocolTCP d.tcp s3) := by
  unfold parseSteps at h
  split at h
  · cases h
  · rename_i s1 h1
    split at h
    · cases h
    · rename_i s2 h2
      split at h
      · cases h
      · rename_i s3 h3
        cases h
        exact ⟨s1, s2, s3, h1, h2, h3, rfl⟩

theorem parseIDs_eq (d : RuleData) (s : ParseState) :
    ∃ sg rid u, parseIDs d s
        = { s with parsed := { s.parsed with secgrpID := sg, ruleID := rid }, updateIDs := u } ∧
      (∀ a b, parseISTerraformID d.Id = (a, b, none) → sg = a ∧ rid = b ∧ u = true) ∧
      ((parseISTerraformID d.Id).2.2 ≠ none → sg = d.group) := by
  unfold parseIDs
  rcases hp : parseISTerraformID d.Id with ⟨a, b, e⟩
  cases e with
  | some e =>
    refine ⟨d.group, b, s.updateIDs, rfl, ?_, fun _ => rfl⟩
    intro a' b' h
    cases h
  | none =>
    refine ⟨a, b, true, rfl, ?_, ?_⟩
    · intro a' b' h
      cases h
      exact ⟨rfl, rfl, rfl⟩
    · intro h
      exact absurd rfl h

theorem parseRemote_ok {env : RuleEnv} {d : RuleData} {sess : RuleClient}
    {s s' : ParseState} (h : parseRemote env d sess s = .ok s') :
    ∃ a c i rs, s' =
      { s with
        parsed :=
          { s.parsed with
            remote := d.remote.getD ""
            remoteAddress := a
            remoteCIDR := c
            remoteSecGrpID := i }
        remoteSet := rs } ∧
      ((a = d.remote.getD "" ∧ c = "" ∧ i = "") ∨ (a = "" ∧ c = d.remote.getD "" ∧ i = "") ∨
        (a = "" ∧ c = "" ∧ i = d.remote.getD "")) := by
  unfold parseRemote inferRemoteSecurityGroup at h
  cases hr : d.remote with
  | none =>
    simp [hr] at h
    exact ⟨"", "", "", s.remoteSet, h.symm, Or.inl ⟨rfl, rfl, rfl⟩⟩
  | some r =>
    simp only [hr] at h
    by_cases hre : r = ""
    · simp [hre] at h
      subst hre
      exact ⟨"", "", "", s.remoteSet, h.symm, Or.inl ⟨rfl, rfl, rfl⟩⟩
    · by_cases ha : env.IsSecurityGroupAddress r = true
      · simp [hre, ha] at h
        exact ⟨r, "", "", true, h.symm, Or.inl ⟨rfl, rfl, rfl⟩⟩
      · by_cases hc : env.IsSecurityGroupCIDR r = true
        · simp [hre, ha, hc] at h
          exact ⟨"", r, "", true, h.symm, Or.inr (Or.inl ⟨rfl, rfl, rfl⟩)⟩
        · simp [hre, ha, hc] at h
          split_ifs at h
          exact ⟨"", "", r, true, by simpa using h.symm, Or.inr (Or.inr ⟨rfl, rfl, rfl⟩)⟩

theorem parseLocal_ok {env : RuleEnv} {d : RuleData} {s s' : ParseState}
    (h : parseLocal env d s = .ok s') :
    ∃ a c ls, s' =
      { s with
        parsed :=
          { s.parsed with
            local_ := d.local_.getD ""
            localAddress := a
            localCIDR := c }
        localSet := ls } ∧
      ((a = d.local_.getD "" ∧ c = "") ∨ (a = "" ∧ c = d.local_.getD "") ∨
        (a = "" ∧ c = "")) ∧
      (d.local_.getD "" ≠ "" → ls = true) ∧
      (env.IsSecurityGroupAddress (d.local_.getD "") = false →
        env.IsSecurityGroupCIDR (d.local_.getD "") = false → a = "" ∧ c = "") := by
  unfold parseLocal inferLocalSecurityGroup at h
  cases hl : d.local_ with
  | none =>
    simp [hl] at h
    exact ⟨"", "", s.localSet, h.symm, Or.inr (Or.inr ⟨rfl, rfl⟩), by simp, by simp⟩
  | some l =>
    simp only [hl] at h
    by_cases hle : l = ""
    · simp [hle] at h
      subst hle
      exact ⟨"", "", s.localSet, h.symm, Or.inr (Or.inr ⟨rfl, rfl⟩), by simp, by simp⟩
    · by_cases ha : env.IsSecurityGroupAddress l = true
      · simp [hle, ha] at h
        exact ⟨l, "", true, h.symm, Or.inl ⟨rfl, rfl⟩, by simp, by simp [ha]⟩
      · by_cases hc : env.IsSecurityGroupCIDR l = true
        · simp [hle, ha, hc] at h
          exact ⟨"", l, true, h.symm, Or.inr (Or.inl ⟨rfl, rfl⟩), by simp, by simp [hc]⟩
        · simp [hle, ha, hc] at h
          exact ⟨"", "", true, h.symm, Or.inr (Or.inr ⟨rfl, rfl⟩), by simp, by simp⟩

theorem parseLocal_isOk (env : RuleEnv) (d : RuleData) (s : ParseState) :
    ∃ s', parseLocal env d s = .ok s' := by
  unfold parseLocal inferLocalSecurityGroup
  simp only
  split_ifs <;> exact ⟨_, rfl⟩

theorem parseIcmp_ok {d : RuleData} {s s' : ParseState} (h : parseIcmp d s = .ok s') :
    ∃ t c ts cs ps, s' =
      { s with
        parsed :=
          { s.parsed with
            protocol := if d.icmp.isSome then "icmp" else "all"
            icmpType := t
            icmpCode := c }
        typeSet := ts
        codeSet := cs
        protocolSet := ps } ∧
      t = (match d.icmp with
        | some (some blk) => blk.type.getD s.parsed.icmpType
        | _ => s.parsed.icmpType) ∧
      c = (match d.icmp with
        | some (some blk) => blk.code.getD s.parsed.icmpCode
        | _ => s.parsed.icmpCode) ∧
      (d.icmp.isSome = true → ps = true) := by
  unfold parseIcmp at h
  rcases hi : d.icmp with _ | _ | ⟨ty, co⟩
  · simp only [hi] at h
    cases h
    exact ⟨_, _, s.typeSet, s.codeSet, s.protocolSet, rfl, rfl, rfl, by simp⟩
  · simp only [hi] at h
    cases h
    exact ⟨_, _, s.typeSet, s.codeSet, true, rfl, rfl, rfl, by simp⟩
  · simp only [hi] at h
    cases ty with
    | none =>
      cases co with
      | none =>
        simp only at h
        cases h
        exact ⟨_, _, s.typeSet, s.codeSet, true, rfl, rfl, rfl, by simp⟩
      | some cv => simp at h
    | some tv =>
      cases co with
      | none =>
        simp only at h
        cases h
        exact ⟨_, _, true, s.codeSet, true, rfl, rfl, rfl, by simp⟩
      | some cv =>
        simp at h
        cases h
        exact ⟨_, _, true, true, true, rfl, rfl, rfl, by simp⟩

/-- The icmp step fails exactly for a block with a code and no type. -/
theorem parseIcmp_cases (d : RuleData) (s : ParseState) :
    ((∃ s', parseIcmp d s = .ok s') ∧
        ¬ ∃ ty v, d.icmp = some (some ⟨ty, some v⟩) ∧ ty = none) ∨
      (parseIcmp d s = .error (GoError.errorString "icmp code requires icmp type") ∧
        ∃ v, d.icmp = some (some ⟨none, some v⟩)) := by
  unfold parseIcmp
  rcases hi : d.icmp with _ | _ | ⟨ty, co⟩
  · exact Or.inl ⟨⟨_, rfl⟩, by simp⟩
  · exact Or.inl ⟨⟨_, rfl⟩, by simp⟩
  · cases ty with
    | none =>
      cases co with
      | none => exact Or.inl ⟨⟨_, rfl⟩, by simp⟩
      | some cv => exact Or.inr ⟨by simp, cv, rfl⟩
    | some tv =>
      cases co with
      | none => exact Or.inl ⟨⟨_, rfl⟩, by simp⟩
      | some cv => exact Or.inl ⟨by simp, by simp⟩

theorem parsePorts_eq (prot : String) (blk : Option (Option PortsBlock)) (s : ParseState) :
    ∃ pmin pmax, parsePorts prot blk s =
      { s with
        parsed :=
          { s.parsed with
            protocol := if blk.isSome then prot else s.parsed.protocol
            portMin := pmin
            portMax := pmax }
        protocolSet := blk.isSome || s.protocolSet
        portsSet := blk.isSome || s.portsSet } ∧
      (blk = none → pmin = s.parsed.portMin ∧ pmax = s.parsed.portMax) ∧
      (∀ ports v, blk = some (some ports) →
        ((ports.port_min = some v ∧ ports.port_max = none) ∨
          (ports.port_min = none ∧ ports.port_max = some v)) → pmin = v ∧ pmax = v) := by
  unfold parsePorts
  rcases blk with _ | _ | ⟨pmin, pmax⟩
  · exact ⟨s.parsed.portMin, s.parsed.portMax, rfl, fun _ => ⟨rfl, rfl⟩,
      fun _ _ h => (by cases h)⟩
  · exact ⟨1, 65535, rfl, fun h => (by cases h), fun _ _ h => (by cases h)⟩
  · refine ⟨_, _, rfl, fun h => (by cases h), ?_⟩
    intro ports v hb hv
    cases hb
    rcases hv with ⟨h1, h2⟩ | ⟨h1, h2⟩
    · simp only at h1 h2
      subst h1 h2
      simp
    · simp only at h1 h2
      subst h1 h2
      simp

theorem head_append {x : String} (y : String) {c : Char} (h : x.data.head? = some c) :
    (x ++ y).data.head? = some c := by
  rw [String.data_append]
  cases hx : x.data with
  | nil => rw [hx] at h; cases h
  | cons a l => rw [hx] at h; simpa using h

theorem ne_icmp_error_of_bracket {msg : String} (h : msg.data.head? = some '[') :
    GoError.errorString msg ≠ GoError.errorString "icmp code requires icmp type" := by
  intro he
  cases he
  revert h
  decide

/-- The remote step succeeds exactly for an accepted remote; its errors are not the icmp
error. -/
theorem parseRemote_cases (env : RuleEnv) (d : RuleData) (sess : RuleClient) (s : ParseState) :
    (RemoteAccepted env d sess ∧ ∃ s', parseRemote env d sess s = .ok s') ∨
      (¬ RemoteAccepted env d sess ∧ ∃ e, parseRemote env d sess s = .error e ∧
        e ≠ GoError.errorString "icmp code requires icmp type") := by
  unfold parseRemote inferRemoteSecurityGroup RemoteAccepted
  cases hr : d.remote with
  | none => exact Or.inl ⟨by simp, by simp⟩
  | some r =>
    simp only [Option.some.injEq, forall_eq']
    by_cases hre : r = ""
    · exact Or.inl ⟨Or.inl hre, by simp [hre]⟩
    · by_cases ha : env.IsSecurityGroupAddress r = true
      · exact Or.inl ⟨Or.inr (Or.inl ha), by simp [hre, ha]⟩
      · by_cases hc : env.IsSecurityGroupCIDR r = true
        · exact Or.inl ⟨Or.inr (Or.inr (Or.inl hc)), by simp [hre, ha, hc]⟩
        · by_cases hl : (sess.GetSecurityGroup r).err = none ∧ (sess.GetSecurityGroup r).sg ≠ none
          · refine Or.inl ⟨Or.inr (Or.inr (Or.inr hl)), ?_⟩
            obtain ⟨h1, h2⟩ := hl
            have h2' : (sess.GetSecurityGroup r).sg.isNone = false := by
              cases hsg : (sess.GetSecurityGroup r).sg with
              | none => exact absurd hsg h2
              | some _ => rfl
            simp [hre, ha, hc, h1, h2']
          · refine Or.inr ⟨by tauto, ?_⟩
            have hbad : ((sess.GetSecurityGroup r).err.isSome ||
                (sess.GetSecurityGroup r).sg.isNone) = true := by
              cases he : (sess.GetSecurityGroup r).err with
              | some _ => rfl
              | none =>
                cases hsg : (sess.GetSecurityGroup r).sg with
                | none => rfl
                | some g => exact absurd ⟨he, by simp [hsg]⟩ hl
            simp only [bne_iff_ne, ne_eq, hre, not_false_eq_true, ↓reduceIte, ha, hc,
              Bool.false_eq_true, hbad, not_true_eq_false]
            split_ifs
            · exact ⟨_, rfl, ne_icmp_error_of_bracket
                (head_append _ (head_append _ (head_append _ (head_append _
                  (head_append _ (by decide))))))⟩
            · exact ⟨_, rfl, ne_icmp_error_of_bracket
                (head_append _ (head_append _ (head_append _ (by decide))))⟩

/-- The variables of the parser at the call of `AsPatch`, field by field. -/
theorem parseSteps_final {env : RuleEnv} {d : RuleData} {sess : RuleClient} {s : ParseState}
    (h : parseSteps env d sess = .ok s) :
    ∃ (sg rid : String) (u : Bool) (a c i : String) (rs : Bool) (la lc : String) (ls : Bool)
      (t co : Int) (ts cs ps : Bool) (pmin pmax : Int),
      s = ⟨⟨sg, rid, d.direction, (match d.ip_version with
              | some version => version
              | none => "IPv4"),
            d.remote.getD "", a, c, i, d.local_.getD "", la, lc,
            (if d.udp.isSome then "udp" else if d.tcp.isSome then "tcp"
              else if d.icmp.isSome then "icmp" else "all"),
            t, co, pmin, pmax⟩,
          u, rs, ls, ts, cs, d.udp.isSome || (d.tcp.isSome || ps),
          d.udp.isSome || (d.tcp.isSome || false)⟩ ∧
      ((∀ x y, parseISTerraformID d.Id = (x, y, none) → sg = x ∧ rid = y ∧ u = true) ∧
        ((parseISTerraformID d.Id).2.2 ≠ none → sg = d.group)) ∧
      ((a = d.remote.getD "" ∧ c = "" ∧ i = "") ∨ (a = "" ∧ c = d.remote.getD "" ∧ i = "") ∨
        (a = "" ∧ c = "" ∧ i = d.remote.getD "")) ∧
      (((la = d.local_.getD "" ∧ lc = "") ∨ (la = "" ∧ lc = d.local_.getD "") ∨
          (la = "" ∧ lc = "")) ∧
        (d.local_.getD "" ≠ "" → ls = true) ∧
        (env.IsSecurityGroupAddress (d.local_.getD "") = false →
          env.IsSecurityGroupCIDR (d.local_.getD "") = false → la = "" ∧ lc = "")) ∧
      (t = (match d.icmp with
          | some (some blk) => blk.type.getD (-1)
          | _ => -1) ∧
        co = (match d.icmp with
          | some (some blk) => blk.code.getD (-1)
          | _ => -1) ∧
        (d.icmp.isSome = true → ps = true)) ∧
      ((d.tcp = none → d.udp = none → pmin = -1 ∧ pmax = -1) ∧
        (∀ ports v, ((d.tcp = some (some ports) ∧ d.udp = none) ∨ d.udp = some (some ports)) →
          ((ports.port_min = some v ∧ ports.port_max = none) ∨
            (ports.port_min = none ∧ ports.port_max = some v)) → pmin = v ∧ pmax = v)) := by
  obtain ⟨s1, s2, s3, h1, h2, h3, hfin⟩ := parseSteps_ok h
  obtain ⟨sg, rid, u, e0, hids⟩ := parseIDs_eq d ParseState.init
  obtain ⟨a, c, i, rs, e1, hrem⟩ := parseRemote_ok h1
  obtain ⟨la, lc, ls, e2, hloc⟩ := parseLocal_ok h2
  obtain ⟨t, co, ts, cs, ps, e3, ht, hco, hps⟩ := parseIcmp_ok h3
  obtain ⟨pm1, px1, e4, hn1, hv1⟩ := parsePorts_eq isSecurityGroupRuleProtocolTCP d.tcp s3
  obtain ⟨pm2, px2, e5, hn2, hv2⟩ := parsePorts_eq isSecurityGroupRuleProtocolUDP d.udp
    (parsePorts isSecurityGroupRuleProtocolTCP d.tcp s3)
  have hic1 : s3.parsed.icmpType = t := by rw [e3]
  have hs2 : s2.parsed.icmpType = -1 ∧ s2.parsed.icmpCode = -1 ∧ s2.parsed.portMin = -1 ∧
      s2.parsed.portMax = -1 := by
    rw [e2, e1, parseDirection, e0]
    exact ⟨rfl, rfl, rfl, rfl⟩
  have hs3 : s3.parsed.portMin = -1 ∧ s3.parsed.portMax = -1 := by
    rw [e3]
    exact ⟨hs2.2.2.1, hs2.2.2.2⟩
  refine ⟨sg, rid, u, a, c, i, rs, la, lc, ls, t, co, ts, cs, ps, pm2, px2, ?_, hids, hrem,
    hloc, ⟨?_, ?_, hps⟩, ⟨?_, ?_⟩⟩
  · rw [hfin, e5, e4, e3, e2, e1, parseDirection, e0]
    simp only [ParseState.init, isSecurityGroupRuleProtocolUDP, isSecurityGroupRuleProtocolTCP]
  · rw [ht, hs2.1]
  · rw [hco, hs2.2.1]
  · intro htcp hudp
    obtain ⟨h5, h6⟩ := hn2 hudp
    obtain ⟨h7, h8⟩ := hn1 htcp
    rw [h5, h6, e4]
    simp only
    rw [h7, h8]
    exact hs3
  · intro ports v hblk hone
    rcases hblk with ⟨htcp, hudp⟩ | hudp
    · obtain ⟨h5, h6⟩ := hn2 hudp
      obtain ⟨h7, h8⟩ := hv1 ports v htcp hone
      rw [h5, h6, e4]
      exact ⟨h7, h8⟩
    · exact hv2 ports v hudp hone

/-! ## The claims about the rule parser -/

/-- C12: for every configuration with at most one of the icmp, tcp and udp blocks on which
`parseIBMISSecurityGroupRuleDictionary` succeeds, the create prototype's `Protocol` is set
and equals "icmp", "tcp" or "udp" for the block that is present and "all" if none is, and
`parsed.protocol` has the same value. -/
theorem protocol_follows_block (env : RuleEnv) (d : RuleData) (tag : String)
    (sess : RuleClient) (hone : AtMostOneBlock d)
    (hok : (parseIBMISSecurityGroupRuleDictionary env d tag sess).err = none) :
    ∃ parsed sgTemplate sgTemplateUpdate,
      parseIBMISSecurityGroupRuleDictionary env d tag sess
        = ⟨some parsed, some sgTemplate, some sgTemplateUpdate, none⟩ ∧
      sgTemplate.Protocol = some (configuredProtocol d) ∧
      parsed.protocol = configuredProtocol d := by
  obtain ⟨s, hs, _, hres⟩ := parse_ok hok
  obtain ⟨sg, rid, u, a, c, i, rs, la, lc, ls, t, co, ts, cs, ps, pmin, pmax, hst, _, _, _,
    ⟨_, _, hps⟩, _⟩ := parseSteps_final hs
  refine ⟨_, _, _, hres, ?_, ?_⟩
  · subst hst
    unfold buildPrototype configuredProtocol
    rcases hone with ⟨h1, h2⟩ | ⟨h1, h2⟩ | ⟨h1, h2⟩
    · rw [h1, h2]
      cases d.udp <;> simp
    · rw [h1, h2]
      cases d.tcp <;> simp
    · rw [h1, h2]
      cases hi : d.icmp with
      | none => simp
      | some b =>
        have := hps (by simp [hi])
        simp [this]
  · subst hst
    unfold configuredProtocol
    rcases hone with ⟨h1, h2⟩ | ⟨h1, h2⟩ | ⟨h1, h2⟩
    · rw [h1, h2]
      cases d.udp <;> simp
    · rw [h1, h2]
      cases d.tcp <;> simp
    · rw [h1, h2]
      cases d.icmp <;> simp

/-- An instance of `protocol_follows_block`: a rule with a tcp block only. -/
theorem protocol_follows_block_witness :
    ∃ parsed sgTemplate sgTemplateUpdate,
      parseIBMISSecurityGroupRuleDictionary exampleEnv
          { exampleRule "" with tcp := some (some ⟨some 80, some 443⟩) } "create"
          exampleRuleClient
        = ⟨some parsed, some sgTemplate, some sgTemplateUpdate, none⟩ ∧
      sgTemplate.Protocol = some "tcp" ∧ parsed.protocol = "tcp" :=
  protocol_follows_block exampleEnv { exampleRule "" with tcp := some (some ⟨some 80, some 443⟩) }
    "create" exampleRuleClient (Or.inr (Or.inl ⟨rfl, rfl⟩))
    (by decide)

/-- C13: after a successful parse the unused fields hold their unused marker: `icmpType`
and `icmpCode` are -1 unless the icmp block supplies them, `portMin` and `portMax` are -1
when there is neither a tcp nor a udp block, and among `remoteAddress`, `remoteCIDR`,
`remoteSecGrpID` (and among `localAddress`, `localCIDR`) every field other than the one
the remote (local) value was classified as is the empty string. -/
theorem unused_fields_hold_markers (env : RuleEnv) (d : RuleData) (tag : String)
    (sess : RuleClient)
    (hok : (parseIBMISSecurityGroupRuleDictionary env d tag sess).err = none) :
    ∃ parsed, (parseIBMISSecurityGroupRuleDictionary env d tag sess).parsed = some parsed ∧
      parsed.icmpType = (match d.icmp with
        | some (some blk) => blk.type.getD (-1)
        | _ => -1) ∧
      parsed.icmpCode = (match d.icmp with
        | some (some blk) => blk.code.getD (-1)
        | _ => -1) ∧
      (d.tcp = none → d.udp = none → parsed.portMin = -1 ∧ parsed.portMax = -1) ∧
      ((parsed.remoteAddress = d.remote.getD "" ∧ parsed.remoteCIDR = "" ∧
          parsed.remoteSecGrpID = "") ∨
        (parsed.remoteAddress = "" ∧ parsed.remoteCIDR = d.remote.getD "" ∧
          parsed.remoteSecGrpID = "") ∨
        (parsed.remoteAddress = "" ∧ parsed.remoteCIDR = "" ∧
          parsed.remoteSecGrpID = d.remote.getD "")) ∧
      ((parsed.localAddress = d.local_.getD "" ∧ parsed.localCIDR = "") ∨
        (parsed.localAddress = "" ∧ parsed.localCIDR = d.local_.getD "") ∨
        (parsed.localAddress = "" ∧ parsed.localCIDR = "")) := by
  obtain ⟨s, hs, _, hres⟩ := parse_ok hok
  obtain ⟨sg, rid, u, a, c, i, rs, la, lc, ls, t, co, ts, cs, ps, pmin, pmax, hst, _, hrem,
    ⟨hloc, _, _⟩, ⟨ht, hco, _⟩, ⟨hports, _⟩⟩ := parseSteps_final hs
  refine ⟨s.parsed, by rw [hres], ?_⟩
  subst hst
  exact ⟨ht, hco, hports, hrem, hloc⟩

/-- An instance of `unused_fields_hold_markers`: a rule with a CIDR remote and no
protocol block. -/
theorem unused_fields_hold_markers_witness :
    ∃ parsed,
      (parseIBMISSecurityGroupRuleDictionary exampleEnv
        { exampleRule "" with remote := some "10.0.0.0/24" } "create"
        exampleRuleClient).parsed = some parsed ∧
      parsed.icmpType = -1 ∧ parsed.icmpCode = -1 ∧ parsed.portMin = -1 ∧
      parsed.portMax = -1 := by
  obtain ⟨parsed, hp, ht, hc, hports, _, _⟩ :=
    unused_fields_hold_markers exampleEnv { exampleRule "" with remote := some "10.0.0.0/24" }
      "create" exampleRuleClient (by decide)
  exact ⟨parsed, hp, ht, hc, (hports rfl rfl).1, (hports rfl rfl).2⟩

/-- C14 (code bug): a udp block that configures `port_max = 53` and no `port_min` reaches
the parser with `port_min` at its schema default 1 in the port map, so the parser finds
both keys and copies nothing: it yields `portMin = 1` and `portMax = 53` in `parsed`, in the
create prototype and in the update patch, not 53 for both as the comment above the two
`if` statements (line 847) announces.  In the same way a tcp block with `port_min = 8080`
only yields 8080 and 65535. -/
theorem single_port_is_not_copied :
    ((parseIBMISSecurityGroupRuleDictionary exampleEnv
          { exampleRule "" with udp := some (some (portsOfConfig none (some 53))) }
          "create" exampleRuleClient).parsed.map (fun p => (p.protocol, p.portMin, p.portMax))
        = some ("udp", 1, 53) ∧
      (parseIBMISSecurityGroupRuleDictionary exampleEnv
          { exampleRule "" with udp := some (some (portsOfConfig none (some 53))) }
          "create" exampleRuleClient).sgTemplate.map (fun t => (t.PortMin, t.PortMax))
        = some (some 1, some 53) ∧
      (parseIBMISSecurityGroupRuleDictionary exampleEnv
          { exampleRule "" with udp := some (some (portsOfConfig none (some 53))) }
          "create" exampleRuleClient).sgTemplateUpdate.map
            (fun u => (u.SecurityGroupRulePatch.port_min, u.SecurityGroupRulePatch.port_max))
        = some (PatchValue.value 1, PatchValue.value 53)) ∧
    ((parseIBMISSecurityGroupRuleDictionary exampleEnv
          { exampleRule "" with tcp := some (some (portsOfConfig (some 8080) none)) }
          "create" exampleRuleClient).parsed.map (fun p => (p.protocol, p.portMin, p.portMax))
        = some ("tcp", 8080, 65535) ∧
      (parseIBMISSecurityGroupRuleDictionary exampleEnv
          { exampleRule "" with tcp := some (some (portsOfConfig (some 8080) none)) }
          "create" exampleRuleClient).sgTemplate.map (fun t => (t.PortMin, t.PortMax))
        = some (some 8080, some 65535) ∧
      (parseIBMISSecurityGroupRuleDictionary exampleEnv
          { exampleRule "" with tcp := some (some (portsOfConfig (some 8080) none)) }
          "create" exampleRuleClient).sgTemplateUpdate.map
            (fun u => (u.SecurityGroupRulePatch.port_min, u.SecurityGroupRulePatch.port_max))
        = some (PatchValue.value 8080, PatchValue.value 65535)) := by
  decide

theorem parseSteps_cases (env : RuleEnv) (d : RuleData) (sess : RuleClient) :
    (¬ RemoteAccepted env d sess ∧ ∃ e, parseSteps env d sess = .error e ∧
        e ≠ GoError.errorString "icmp code requires icmp type") ∨
      (RemoteAccepted env d sess ∧ (∃ v, d.icmp = some (some ⟨none, some v⟩)) ∧
        parseSteps env d sess = .error (GoError.errorString "icmp code requires icmp type")) ∨
      (RemoteAccepted env d sess ∧ (¬ ∃ v, d.icmp = some (some ⟨none, some v⟩)) ∧
        ∃ s, parseSteps env d sess = .ok s) := by
  unfold parseSteps
  rcases parseRemote_cases env d sess (parseDirection d (parseIDs d ParseState.init)) with
    ⟨hacc, s1, h1⟩ | ⟨hrej, e, h1, hne⟩
  · obtain ⟨s2, h2⟩ := parseLocal_isOk env d s1
    simp only [h1, h2]
    rcases parseIcmp_cases d s2 with ⟨⟨s3, h3⟩, hno⟩ | ⟨h3, v, hv⟩
    · refine Or.inr (Or.inr ⟨hacc, ?_, ?_⟩)
      · rintro ⟨v, hv⟩
        exact hno ⟨none, v, hv, rfl⟩
      · simp only [h3]
        exact ⟨_, rfl⟩
    · refine Or.inr (Or.inl ⟨hacc, ⟨v, hv⟩, ?_⟩)
      simp only [h3]
  · refine Or.inl ⟨hrej, e, ?_, hne⟩
    simp only [h1]

/-- C15 (as stated, refuted): the icmp block has a code and no type, but the remote names
a security group that the lookup does not find; the parser returns the error of the remote
check, not "icmp code requires icmp type". -/
theorem remote_error_comes_before_icmp_error :
    parseIBMISSecurityGroupRuleDictionary exampleEnv
        { exampleRule "" with remote := some "sg-9", icmp := some (some ⟨none, some 3⟩) }
        "create" exampleRuleClient
      = ⟨none, none, none, some (GoError.errorString
          "[ERROR] Invalid remote provided (sg-9): not found\n404")⟩ ∧
    GoError.errorString "[ERROR] Invalid remote provided (sg-9): not found\n404"
      ≠ GoError.errorString "icmp code requires icmp type" := by
  decide

/-- C15 (amended): `parseIBMISSecurityGroupRuleDictionary` returns the error "icmp code
requires icmp type" (and no parsed record, prototype or update options) if and only if
the remote passes its check and the icmp block is present with a non-nil first element,
`GetOk` reports `icmp.0.code` as set and `icmp.0.type` as not set; an icmp block with a
type and no code is never rejected with that error, and is accepted when the remote
passes its check and `AsPatch` does not fail. -/
theorem icmp_code_requires_type (env : RuleEnv) (d : RuleData) (tag : String)
    (sess : RuleClient) :
    (parseIBMISSecurityGroupRuleDictionary env d tag sess
        = ⟨none, none, none, some (GoError.errorString "icmp code requires icmp type")⟩ ↔
      RemoteAccepted env d sess ∧ ∃ v, d.icmp = some (some ⟨none, some v⟩)) ∧
    ((parseIBMISSecurityGroupRuleDictionary env d tag sess).err
        = some (GoError.errorString "icmp code requires icmp type") ↔
      RemoteAccepted env d sess ∧ ∃ v, d.icmp = some (some ⟨none, some v⟩)) ∧
    (∀ t, d.icmp = some (some ⟨some t, none⟩) →
      (parseIBMISSecurityGroupRuleDictionary env d tag sess).err
          ≠ some (GoError.errorString "icmp code requires icmp type") ∧
        (RemoteAccepted env d sess → env.AsPatchError = none →
          (parseIBMISSecurityGroupRuleDictionary env d tag sess).err = none)) := by
  have key : (parseIBMISSecurityGroupRuleDictionary env d tag sess).err
        = some (GoError.errorString "icmp code requires icmp type") ↔
      RemoteAccepted env d sess ∧ ∃ v, d.icmp = some (some ⟨none, some v⟩) := by
    unfold parseIBMISSecurityGroupRuleDictionary
    rcases parseSteps_cases env d sess with ⟨hrej, e, h, hne⟩ | ⟨hacc, hv, h⟩ | ⟨hacc, hno, s, h⟩
    · rw [h]
      constructor
      · intro he
        simp only [Option.some.injEq] at he
        exact absurd he hne
      · intro hc
        exact absurd hc.1 hrej
    · rw [h]
      exact ⟨fun _ => ⟨hacc, hv⟩, fun _ => rfl⟩
    · rw [h]
      constructor
      · intro he
        exfalso
        cases ha : env.AsPatchError with
        | none => rw [ha] at he; cases he
        | some err =>
          rw [ha] at he
          simp only [Option.some.injEq] at he
          exact ne_icmp_error_of_bracket (head_append _ (by decide)) he
      · intro hc
        exact absurd hc.2 hno
  refine ⟨?_, key, ?_⟩
  · constructor
    · intro h
      exact key.mp (by rw [h])
    · intro h
      exact parse_error (key.mpr h)
  · intro t ht
    constructor
    · intro he
      obtain ⟨v, hv⟩ := (key.mp he).2
      rw [ht] at hv
      cases hv
    · intro hacc hpatch
      unfold parseIBMISSecurityGroupRuleDictionary
      rcases parseSteps_cases env d sess with ⟨hrej, _⟩ | ⟨_, ⟨v, hv⟩, _⟩ | ⟨_, _, s, h⟩
      · exact absurd hacc hrej
      · rw [ht] at hv
        cases hv
      · rw [h, hpatch]

/-- C16: a non-empty remote that is neither an IP address nor a CIDR block is looked up as
a security group; if the lookup returns an error or no group, the parser returns a
non-nil error and nil for the parsed record, the create prototype and the update options,
and neither the create nor the update operation issues its API call (or takes the lock). -/
theorem unknown_remote_group_is_rejected (env : RuleEnv) (d : RuleData) (sess : RuleClient)
    (context : Context) (r : String) (hr : d.remote = some r) (hne : r ≠ "")
    (ha : env.IsSecurityGroupAddress r = false) (hc : env.IsSecurityGroupCIDR r = false)
    (hl : (sess.GetSecurityGroup r).err ≠ none ∨ (sess.GetSecurityGroup r).sg = none) :
    ∃ e, (∀ tag, parseIBMISSecurityGroupRuleDictionary env d tag sess
        = ⟨none, none, none, some e⟩) ∧
      (resourceIBMISSecurityGroupRuleCreate context d ⟨.ok sess, env⟩).effects = [] ∧
      hasError (resourceIBMISSecurityGroupRuleCreate context d ⟨.ok sess, env⟩).diags = true ∧
      (resourceIBMISSecurityGroupRuleUpdate context d ⟨.ok sess, env⟩).effects = [] ∧
      hasError (resourceIBMISSecurityGroupRuleUpdate context d ⟨.ok sess, env⟩).diags = true := by
  have hrej : ¬ RemoteAccepted env d sess := by
    intro hacc
    rcases hacc r hr with h | h | h | ⟨h1, h2⟩
    · exact hne h
    · rw [ha] at h; cases h
    · rw [hc] at h; cases h
    · rcases hl with h | h
      · exact h h1
      · exact h2 h
  rcases parseSteps_cases env d sess with ⟨_, e, h, _⟩ | ⟨hacc, _⟩ | ⟨hacc, _⟩
  · have hp : ∀ tag, parseIBMISSecurityGroupRuleDictionary env d tag sess
        = ⟨none, none, none, some e⟩ := by
      intro tag
      unfold parseIBMISSecurityGroupRuleDictionary
      rw [h]
    refine ⟨e, hp, ?_, ?_, ?_, ?_⟩
    · unfold resourceIBMISSecurityGroupRuleCreate
      simp only [hp]
    · unfold resourceIBMISSecurityGroupRuleCreate
      simp only [hp]
      rfl
    · unfold resourceIBMISSecurityGroupRuleUpdate
      simp only [hp]
    · unfold resourceIBMISSecurityGroupRuleUpdate
      simp only [hp]
      rfl
  · exact absurd hacc hrej
  · exact absurd hacc hrej

/-- An instance of `unknown_remote_group_is_rejected`: the remote "sg-9" is not found. -/
theorem unknown_remote_group_is_rejected_witness :
    ∃ e, (∀ tag, parseIBMISSecurityGroupRuleDictionary exampleEnv
        { exampleRule "" with remote := some "sg-9" } tag exampleRuleClient
        = ⟨none, none, none, some e⟩) ∧
      (resourceIBMISSecurityGroupRuleCreate Context.Background
        { exampleRule "" with remote := some "sg-9" }
        ⟨.ok exampleRuleClient, exampleEnv⟩).effects = [] ∧
      hasError (resourceIBMISSecurityGroupRuleCreate Context.Background
        { exampleRule "" with remote := some "sg-9" }
        ⟨.ok exampleRuleClient, exampleEnv⟩).diags = true ∧
      (resourceIBMISSecurityGroupRuleUpdate Context.Background
        { exampleRule "" with remote := some "sg-9" }
        ⟨.ok exampleRuleClient, exampleEnv⟩).effects = [] ∧
      hasError (resourceIBMISSecurityGroupRuleUpdate Context.Background
        { exampleRule "" with remote := some "sg-9" }
        ⟨.ok exampleRuleClient, exampleEnv⟩).diags = true :=
  unknown_remote_group_is_rejected exampleEnv { exampleRule "" with remote := some "sg-9" }
    exampleRuleClient Context.Background "sg-9" rfl (by decide) (by decide) (by decide)
    (Or.inl (by decide))

/-- C17 (the code at the failing input): the local "sg-2", a security group identifier,
is parsed without an error, but the `Local` of the create prototype and the `local` of
the update patch are set and empty: the value is in none of their fields. -/
theorem local_identifier_is_dropped :
    (parseIBMISSecurityGroupRuleDictionary exampleEnv
        { exampleRule "" with local_ := some "sg-2" } "create" exampleRuleClient).err = none ∧
      (parseIBMISSecurityGroupRuleDictionary exampleEnv
        { exampleRule "" with local_ := some "sg-2" } "create" exampleRuleClient).parsed.map
          (fun p => (p.local_, p.localAddress, p.localCIDR)) = some ("sg-2", "", "") ∧
      (parseIBMISSecurityGroupRuleDictionary exampleEnv
        { exampleRule "" with local_ := some "sg-2" } "create"
        exampleRuleClient).sgTemplate.map (fun t => t.Local) = some (some ⟨none, none⟩) ∧
      (parseIBMISSecurityGroupRuleDictionary exampleEnv
        { exampleRule "" with local_ := some "sg-2" } "create"
        exampleRuleClient).sgTemplateUpdate.map (fun u => u.SecurityGroupRulePatch.local_)
          = some (PatchValue.value ⟨none, none⟩) := by
  decide

/-! ## The claims about the lock of a security group -/

theorem lockKey_withDeferredUnlock (key : String) (body : RuleRun) :
    lockKey (withDeferredUnlock key body).effects = some key := rfl

/-- C18: mutating operations on rules of the same security group take the same named
lock: for all non-empty `g` and `r` without ".", the key that create locks for a new rule
configured with group `g` equals the key that update and delete lock for the Terraform id
`makeTerraformRuleID g r`, namely "security_group_rule_key_" followed by `g`. -/
theorem same_lock_key (env : RuleEnv) (sess : RuleClient) (context : Context)
    (g r : String) (dC dU : RuleData) (hg : g ≠ "") (hr : r ≠ "")
    (hgd : '.' ∉ g.data) (hrd : '.' ∉ r.data)
    (hCid : dC.Id = "") (hCg : dC.group = g) (hU : dU.Id = makeTerraformRuleID g r) :
    ((parseIBMISSecurityGroupRuleDictionary env dC "create" sess).err = none →
        lockKey (resourceIBMISSecurityGroupRuleCreate context dC ⟨.ok sess, env⟩).effects
          = some ("security_group_rule_key_" ++ g)) ∧
      ((parseIBMISSecurityGroupRuleDictionary env dU "update" sess).err = none →
        lockKey (resourceIBMISSecurityGroupRuleUpdate context dU ⟨.ok sess, env⟩).effects
          = some ("security_group_rule_key_" ++ g)) ∧
      lockKey (resourceIBMISSecurityGroupRuleDelete context dU ⟨.ok sess, env⟩).effects
        = some ("security_group_rule_key_" ++ g) := by
  have hwf : WellFormedTerraformID dU.Id g r := ⟨hU, hgd, hrd, hg, hr⟩
  have hidU := parseISTerraformID_of_wellFormed hwf
  have hidC : (parseISTerraformID dC.Id).2.2 ≠ none := by
    rw [hCid]
    decide
  refine ⟨?_, ?_, ?_⟩
  · intro hok
    obtain ⟨s, hs, _, hres⟩ := parse_ok hok
    obtain ⟨sg, rid, u, a, c, i, rs, la, lc, ls, t, co, ts, cs, ps, pmin, pmax, hst,
      ⟨_, hgrp⟩, _⟩ := parseSteps_final hs
    have hsg : s.parsed.secgrpID = g := by
      rw [hst]
      exact (hgrp hidC).trans hCg
    unfold resourceIBMISSecurityGroupRuleCreate
    simp only [hres]
    rw [lockKey_withDeferredUnlock, hsg]
    rfl
  · intro hok
    obtain ⟨s, hs, _, hres⟩ := parse_ok hok
    obtain ⟨sg, rid, u, a, c, i, rs, la, lc, ls, t, co, ts, cs, ps, pmin, pmax, hst,
      ⟨hid, _⟩, _⟩ := parseSteps_final hs
    have hsg : s.parsed.secgrpID = g := by
      rw [hst]
      exact (hid g r hidU).1
    unfold resourceIBMISSecurityGroupRuleUpdate
    simp only [hres]
    rw [lockKey_withDeferredUnlock, hsg]
    rfl
  · unfold resourceIBMISSecurityGroupRuleDelete
    simp only [hidU]
    rw [lockKey_withDeferredUnlock]
    rfl

/-- An instance of `same_lock_key`: group "sg-1" and rule "rule-1". -/
theorem same_lock_key_witness :
    lockKey (resourceIBMISSecurityGroupRuleDelete Context.Background
        (exampleRule "sg-1.rule-1") ⟨.ok exampleRuleClient, exampleEnv⟩).effects
      = some ("security_group_rule_key_" ++ "sg-1") :=
  (same_lock_key exampleEnv exampleRuleClient Context.Background "sg-1" "rule-1"
    (exampleRule "") (exampleRule "sg-1.rule-1") (by decide) (by decide) (by decide)
    (by decide) rfl rfl (by decide)).2.2

theorem read_no_locking (context : Context) (id : String) (m : RuleMeta) :
    ∀ e, e ∈ (resourceIBMISSecurityGroupRuleRead context id m).effects →
      e.isLocking = false := by
  intro e he
  unfold resourceIBMISSecurityGroupRuleRead at he
  repeat' split at he
  all_goals
    simp only [List.mem_cons, List.mem_append, List.mem_singleton, List.not_mem_nil,
      or_false, false_or] at he
  all_goals first
    | (cases he; done)
    | (rcases he with h | h <;> subst h <;> rfl)
    | (subst he; rfl)
    | (rcases he with (h | h) | h <;> subst h <;> rfl)

theorem lockedOnce_withDeferredUnlock (key : String) (body : RuleRun)
    (h : ∀ e, e ∈ body.effects → e.isLocking = false) :
    LockedOnce (withDeferredUnlock key body).effects :=
  Or.inr ⟨key, body.effects, rfl, h⟩

theorem lockedOnce_nil : LockedOnce [] :=
  Or.inl (fun _ h => absurd h (List.not_mem_nil _))

/-- C19 (as stated, refuted): in a successful create the lock taken before the create call
is still held while the follow-up read runs: the two queries and the `SetId` of the read
come before the `Unlock`. -/
theorem lock_is_held_during_read :
    (resourceIBMISSecurityGroupRuleRead Context.Background "sg-1.rule-1"
        exampleRuleMeta).effects
      = [RuleEffect.GetSecurityGroupRule "sg-1" "rule-1", RuleEffect.GetSecurityGroup "sg-1",
          RuleEffect.SetId "sg-1.rule-1"] ∧
    (resourceIBMISSecurityGroupRuleCreate Context.Background (exampleRule "")
        exampleRuleMeta).effects
      = [RuleEffect.Lock "security_group_rule_key_sg-1",
          RuleEffect.CreateSecurityGroupRule "sg-1", RuleEffect.SetId "sg-1.rule-1",
          RuleEffect.GetSecurityGroupRule "sg-1" "rule-1", RuleEffect.GetSecurityGroup "sg-1",
          RuleEffect.SetId "sg-1.rule-1",
          RuleEffect.Unlock "security_group_rule_key_sg-1"] := by
  decide

/-- C19 (amended): in `resourceIBMISSecurityGroupRuleCreate` and
`resourceIBMISSecurityGroupRuleUpdate` the lock taken before the create/update API call is
released by the deferred `Unlock` when the function returns, that is after the follow-up
`resourceIBMISSecurityGroupRuleRead` has run; on every return path taken after the lock
was acquired it is released exactly once, as the last effect. -/
theorem lock_is_released_once_at_return (context : Context) (d : RuleData) (m : RuleMeta) :
    LockedOnce (resourceIBMISSecurityGroupRuleCreate context d m).effects ∧
      LockedOnce (resourceIBMISSecurityGroupRuleUpdate context d m).effects ∧
      (∀ sess parsed sgTemplate upd rule, m.vpcClient = .ok sess →
        parseIBMISSecurityGroupRuleDictionary m.env d "create" sess
          = ⟨some parsed, some sgTemplate, upd, none⟩ →
        sess.CreateSecurityGroupRuleWithContext context parsed.secgrpID sgTemplate
          = .ok rule → rule.kind ≠ RuleKind.other →
        (resourceIBMISSecurityGroupRuleCreate context d m).effects
          = RuleEffect.Lock (isSecurityGroupRuleKey parsed.secgrpID) ::
            RuleEffect.CreateSecurityGroupRule parsed.secgrpID ::
            RuleEffect.SetId (makeTerraformRuleID parsed.secgrpID rule.ID) ::
            (resourceIBMISSecurityGroupRuleRead context
              (makeTerraformRuleID parsed.secgrpID rule.ID) m).effects
            ++ [RuleEffect.Unlock (isSecurityGroupRuleKey parsed.secgrpID)]) ∧
      (∀ sess parsed sgTemplate upd, m.vpcClient = .ok sess →
        parseIBMISSecurityGroupRuleDictionary m.env d "update" sess
          = ⟨some parsed, sgTemplate, some upd, none⟩ →
        sess.UpdateSecurityGroupRuleWithContext context upd = none →
        (resourceIBMISSecurityGroupRuleUpdate context d m).effects
          = RuleEffect.Lock (isSecurityGroupRuleKey parsed.secgrpID) ::
            RuleEffect.UpdateSecurityGroupRule upd.SecurityGroupID upd.ID ::
            (resourceIBMISSecurityGroupRuleRead context d.Id m).effects
            ++ [RuleEffect.Unlock (isSecurityGroupRuleKey parsed.secgrpID)]) := by
  refine ⟨?_, ?_, ?_, ?_⟩
  · unfold resourceIBMISSecurityGroupRuleCreate
    split
    · exact lockedOnce_nil
    · split
      · exact lockedOnce_nil
      · apply lockedOnce_withDeferredUnlock
        intro e he
        split at he
        · simp only [List.mem_singleton] at he
          subst he
          rfl
        · rcases List.mem_cons.mp he with h | h
          · subst h; rfl
          · rcases List.mem_append.mp h with h | h
            · split at h
              all_goals first
                | (cases h; done)
                | (simp only [List.mem_singleton] at h; subst h; rfl)
            · exact read_no_locking _ _ _ e h
      · exact lockedOnce_nil
  · unfold resourceIBMISSecurityGroupRuleUpdate
    split
    · exact lockedOnce_nil
    · split
      · exact lockedOnce_nil
      · apply lockedOnce_withDeferredUnlock
        intro e he
        split at he
        · simp only [List.mem_singleton] at he
          subst he
          rfl
        · rcases List.mem_cons.mp he with h | h
          · subst h; rfl
          · exact read_no_locking _ _ _ e h
      · exact lockedOnce_nil
  · intro sess parsed sgTemplate upd rule hm hp hc hk
    unfold resourceIBMISSecurityGroupRuleCreate
    simp only [hm, hp, hc, withDeferredUnlock]
    cases hkind : rule.kind with
    | other => exact absurd hkind hk
    | ProtocolIcmp => simp
    | ProtocolAll => simp
    | ProtocolTcpudp => simp
  · intro sess parsed sgTemplate upd hm hp hu
    unfold resourceIBMISSecurityGroupRuleUpdate
    simp only [hm, hp, hu, withDeferredUnlock]

end IBMVPC
